import Mathlib

/-!
# CHance: module registry and import resolution

A shallow embedding of `src/module_registry.c` (entry tables, `canonical_type`,
reverse index) together with the part of the type representation it reads.

Conventions of the embedding

* A C string is the list of its characters before the terminating NUL; a
  `char *` is an `Option (List Char)`, `none` being `NULL`.
* A `Type *` is an `Option Nat`: `none` is `NULL`, `some a` is the node stored at
  address `a`.  Pointer identity is equality of addresses.
* The heap of type nodes is a total map from addresses to nodes.
* A table is the list of its rows in index order; its count is the length of
  the list.  Capacities are allocation detail and are not part of the state.
* The resolution loop of `canonical_type` need not terminate, so it takes a
  bound on the number of executions of the loop body and returns `none` when
  the bound is exhausted.
-/

namespace CHance

/-! ## Type nodes -/

/-- Modelled from the spec: the `TypeKind` enumeration of `ast.h`, which is not
among the sources; the constants are those listed by `type_kind_name` in
`util.c`. -/
inductive TypeKind where
  | TY_I8 | TY_U8 | TY_I16 | TY_U16 | TY_I32 | TY_U32 | TY_I64 | TY_U64
  | TY_F32 | TY_F64 | TY_F128 | TY_VOID | TY_CHAR | TY_BOOL
  | TY_FUNC | TY_PTR | TY_STRUCT | TY_ARRAY | TY_VA_LIST
  | TY_TEMPLATE_PARAM | TY_IMPORT
  deriving DecidableEq, Repr

/-- Modelled from the spec: the `Type` record of `ast.h`, which is not among the
sources; the fields are the ones `module_registry.c` and `util.c` read and
write (`func.ret` is `func_ret`, `array.elem` is `array_elem`, and so on). -/
structure Ty where
  kind : TypeKind
  pointee : Option Nat
  array_elem : Option Nat
  array_length : Int
  array_is_unsized : Int
  func_params : Option (List (Option Nat))
  func_param_count : Int
  func_ret : Option Nat
  func_is_varargs : Int
  func_has_signature : Int
  struct_name : Option (List Char)
  strct_field_count : Int
  template_param_name : Option (List Char)
  template_param_index : Int
  template_constraint_kind : Nat
  template_default_type : Option Nat
  import_module : Option (List Char)
  import_type_name : Option (List Char)
  import_resolved : Option Nat

/-- A node as `xcalloc(1, sizeof(Type))` followed by `t->kind = kind` leaves it:
every other field is zero. -/
def Ty.zeroed (kind : TypeKind) : Ty where
  kind := kind
  pointee := none
  array_elem := none
  array_length := 0
  array_is_unsized := 0
  func_params := none
  func_param_count := 0
  func_ret := none
  func_is_varargs := 0
  func_has_signature := 0
  struct_name := none
  strct_field_count := 0
  template_param_name := none
  template_param_index := 0
  template_constraint_kind := 0
  template_default_type := none
  import_module := none
  import_type_name := none
  import_resolved := none

/-! ## Registry state -/

/-- Row of the struct table (`StructEntry`). -/
structure StructEntry where
  module_full : Option (List Char)
  name : Option (List Char)
  type : Option Nat
  deriving DecidableEq, Repr

/-- Row of the enum table (`EnumEntry`): the same three fields as `StructEntry`. -/
abbrev EnumEntry := StructEntry

/-- Row of the enum-value table (`EnumValueEntry`). -/
structure EnumValueEntry where
  module_full : Option (List Char)
  enum_name : Option (List Char)
  value_name : Option (List Char)
  value : Int
  deriving DecidableEq, Repr

/-- The process-wide state the registry works on: the three tables
(`struct_entries`, `enum_entries`, `enum_value_entries`, each with its count as
the length) and the heap of type nodes. -/
structure State where
  struct_entries : List StructEntry
  enum_entries : List EnumEntry
  enum_value_entries : List EnumValueEntry
  heap : Nat → Ty

/-- The counter `struct_count`. -/
def State.struct_count (s : State) : Nat := s.struct_entries.length

/-- The counter `enum_count`. -/
def State.enum_count (s : State) : Nat := s.enum_entries.length

/-- The counter `enum_value_count`. -/
def State.enum_value_count (s : State) : Nat := s.enum_value_entries.length

/-! ## String helpers -/

/-- `match_strings`: both non-null and `strcmp(a, b) == 0`. -/
def match_strings (a b : Option (List Char)) : Bool :=
  match a, b with
  | some a, some b => decide (a = b)
  | _, _ => false

/-- `module_name_matches`: equal, or the longer one ends with `.` followed by
the shorter one. -/
def module_name_matches (a b : Option (List Char)) : Bool :=
  match a, b with
  | some a, some b =>
    if a = b then true
    else
      let a_len := a.length
      let b_len := b.length
      if a_len > b_len then
        decide (a_len > b_len + 1) && decide (a.get? (a_len - b_len - 1) = some '.')
          && decide (a.drop (a_len - b_len) = b)
      else if b_len > a_len then
        decide (b_len > a_len + 1) && decide (b.get? (b_len - a_len - 1) = some '.')
          && decide (b.drop (b_len - a_len) = a)
      else false
  | _, _ => false

/-! ## Registration -/

/-- The scan of `register_struct` and `register_enum`: the first row matching
`(module_full, name)` gets its payload overwritten; when the scan finds none, a
row with copies of the two strings is appended. -/
def upsert_entry (module_full name : Option (List Char)) (type : Option Nat) :
    List StructEntry → List StructEntry
  | [] => [{ module_full := module_full, name := name, type := type }]
  | e :: es =>
    if match_strings e.module_full module_full && match_strings e.name name then
      { e with type := type } :: es
    else e :: upsert_entry module_full name type es

/-- `module_registry_register_struct`: the name is read from the node's
`struct_name` at the time of the call. -/
def module_registry_register_struct (s : State) (module_full : Option (List Char))
    (type : Option Nat) : State :=
  match module_full, type with
  | some m, some t =>
    { s with struct_entries :=
        upsert_entry (some m) (s.heap t).struct_name (some t) s.struct_entries }
  | _, _ => s

/-- `module_registry_register_enum`. -/
def module_registry_register_enum (s : State) (module_full enum_name : Option (List Char))
    (type : Option Nat) : State :=
  match module_full, enum_name, type with
  | some m, some n, some t =>
    { s with enum_entries := upsert_entry (some m) (some n) (some t) s.enum_entries }
  | _, _, _ => s

/-- The scan of `register_enum_value`. -/
def upsert_enum_value (module_full enum_name value_name : Option (List Char)) (value : Int) :
    List EnumValueEntry → List EnumValueEntry
  | [] => [{ module_full := module_full, enum_name := enum_name,
             value_name := value_name, value := value }]
  | e :: es =>
    if match_strings e.module_full module_full && match_strings e.enum_name enum_name
        && match_strings e.value_name value_name then
      { e with value := value } :: es
    else e :: upsert_enum_value module_full enum_name value_name value es

/-- `module_registry_register_enum_value`. -/
def module_registry_register_enum_value (s : State)
    (module_full enum_name value_name : Option (List Char)) (value : Int) : State :=
  match module_full, enum_name, value_name with
  | some m, some e, some v =>
    { s with enum_value_entries :=
        upsert_enum_value (some m) (some e) (some v) value s.enum_value_entries }
  | _, _, _ => s

/-- `module_registry_reset`. -/
def module_registry_reset (s : State) : State :=
  { s with struct_entries := [], enum_entries := [], enum_value_entries := [] }

/-! ## Lookup -/

/-- The scan of `lookup_struct` and `lookup_enum`: payload of the first row
matching `(module_full, name)`, `NULL` when there is none. -/
def lookup_entry (module_full name : Option (List Char)) : List StructEntry → Option Nat
  | [] => none
  | e :: es =>
    if match_strings e.module_full module_full && match_strings e.name name then e.type
    else lookup_entry module_full name es

/-- `module_registry_lookup_struct`. -/
def module_registry_lookup_struct (s : State) (module_full type_name : Option (List Char)) :
    Option Nat :=
  match module_full, type_name with
  | some m, some n => lookup_entry (some m) (some n) s.struct_entries
  | _, _ => none

/-- `module_registry_lookup_enum`. -/
def module_registry_lookup_enum (s : State) (module_full enum_name : Option (List Char)) :
    Option Nat :=
  match module_full, enum_name with
  | some m, some n => lookup_entry (some m) (some n) s.enum_entries
  | _, _ => none

/-- The scan of `lookup_enum_value`: value of the first row matching the three
key strings. -/
def lookup_enum_value_scan (module_full enum_name value_name : Option (List Char)) :
    List EnumValueEntry → Option Int
  | [] => none
  | e :: es =>
    if match_strings e.module_full module_full && match_strings e.enum_name enum_name
        && match_strings e.value_name value_name then some e.value
    else lookup_enum_value_scan module_full enum_name value_name es

/-- `module_registry_lookup_enum_value`.  The out-parameter is `none` for a `NULL`
pointer and `some v` for a pointer to an `int` that holds `v`; the result is
the value returned (found or not) with the out-parameter after the call. -/
def module_registry_lookup_enum_value (s : State)
    (module_full enum_name value_name : Option (List Char)) (out_value : Option Int) :
    Bool × Option Int :=
  match module_full, enum_name, value_name with
  | some m, some e, some v =>
    match lookup_enum_value_scan (some m) (some e) (some v) s.enum_value_entries with
    | some x => (true, out_value.map (fun _ => x))
    | none => (false, out_value)
  | _, _, _ => (false, out_value)

/-! ## Resolution -/

/-- The counting scans of `canonical_type`: rows satisfying `p` are counted, the
payload of the last one counted is kept, and the scan stops as soon as the count
exceeds one.  Takes and returns the pair (match, count). -/
def scan_matches (p : StructEntry → Bool) :
    List StructEntry → Option Nat × Nat → Option Nat × Nat
  | [], acc => acc
  | e :: es, acc =>
    if p e then
      if acc.2 + 1 > 1 then (e.type, acc.2 + 1)
      else scan_matches p es (e.type, acc.2 + 1)
    else scan_matches p es acc

/-- The table search of `canonical_type` for a node whose cache is empty (the
body of `if (ty->import_module && ty->import_type_name)` up to the assignment
of `resolved`).  The branches are those of the source, in its order. -/
def resolve_import (s : State) (import_module import_type_name : Option (List Char)) :
    Option Nat :=
  let resolved := module_registry_lookup_struct s import_module import_type_name
  let resolved :=
    if resolved.isNone then module_registry_lookup_enum s import_module import_type_name
    else resolved
  if resolved.isNone && import_type_name.isSome then
    let name_scan :=
      scan_matches (fun e => match_strings e.name import_type_name) s.struct_entries (none, 0)
    if name_scan.2 = 1 then name_scan.1
    else if resolved.isNone && import_module.isSome then
      let qualified_scan :=
        scan_matches
          (fun e => match_strings e.name import_type_name
            && module_name_matches e.module_full import_module)
          s.struct_entries (none, 0)
      if qualified_scan.2 = 1 then qualified_scan.1 else resolved
    else if resolved.isNone then
      let enum_scan :=
        scan_matches (fun e => match_strings e.name import_type_name) s.enum_entries (none, 0)
      if enum_scan.2 = 1 then enum_scan.1
      else if resolved.isNone && import_module.isSome then
        let enum_qualified_scan :=
          scan_matches
            (fun e => match_strings e.name import_type_name
              && module_name_matches e.module_full import_module)
            s.enum_entries (none, 0)
        if enum_qualified_scan.2 = 1 then enum_qualified_scan.1 else resolved
      else resolved
    else resolved
  else resolved

/-- The assignment `ty->import_resolved = resolved` on the node at address `a`. -/
def set_import_resolved (s : State) (a : Nat) (resolved : Option Nat) : State :=
  { s with heap := fun b =>
      if b = a then { s.heap a with import_resolved := resolved } else s.heap b }

/-- The `while (ty && ty->kind == TY_IMPORT)` loop of `canonical_type`.  The
first argument bounds the number of times the body runs; `none` means the bound
was reached with the loop still going. -/
def canonical_loop : Nat → State → Option Nat → Option (State × Option Nat)
  | _, s, none => some (s, none)
  | 0, s, some a =>
    if (s.heap a).kind ≠ TypeKind.TY_IMPORT then some (s, some a) else none
  | fuel + 1, s, some a =>
    if (s.heap a).kind ≠ TypeKind.TY_IMPORT then some (s, some a)
    else
      match (s.heap a).import_resolved with
      | some r => canonical_loop fuel s (some r)
      | none =>
        if (s.heap a).import_module.isSome && (s.heap a).import_type_name.isSome then
          let resolved := resolve_import s (s.heap a).import_module (s.heap a).import_type_name
          let s' := set_import_resolved s a resolved
          match resolved with
          | some r => canonical_loop fuel s' (some r)
          | none => some (s', some a)
        else some (s, some a)

/-- `module_registry_canonical_type`: the state after the call and the node
returned, or `none` when the loop is still running after `fuel` iterations. -/
def module_registry_canonical_type (fuel : Nat) (s : State) (ty : Option Nat) :
    Option (State × Option Nat) :=
  match ty with
  | none => some (s, none)
  | some a => canonical_loop fuel s (some a)

/-- The scan of `find_struct_module`: module path of the first row whose payload
is the node `type` itself. -/
def find_struct_module_scan (type : Nat) : List StructEntry → Option (List Char)
  | [] => none
  | e :: es => if e.type = some type then e.module_full else find_struct_module_scan type es

/-- `module_registry_find_struct_module`. -/
def module_registry_find_struct_module (s : State) (type : Option Nat) : Option (List Char) :=
  match type with
  | none => none
  | some t => find_struct_module_scan t s.struct_entries

/-! ## Type constructors and structural equality (`util.c`) -/

/-- The heap after a fresh node has been stored at address `t`, the address the
allocator hands out. -/
def store_node (heap : Nat → Ty) (t : Nat) (node : Ty) : Nat → Ty :=
  fun b => if b = t then node else heap b

/-- `type_ptr`: the new node is at address `t`, its pointee is the argument
(`to` in the source). -/
def type_ptr (heap : Nat → Ty) (t : Nat) (target : Option Nat) : Nat → Ty :=
  store_node heap t { Ty.zeroed TypeKind.TY_PTR with pointee := target }

/-- `type_func`: the new node is at address `t`. -/
def type_func (heap : Nat → Ty) (t : Nat) : Nat → Ty :=
  store_node heap t (Ty.zeroed TypeKind.TY_FUNC)

/-- `type_array`: the new node is at address `t`. -/
def type_array (heap : Nat → Ty) (t : Nat) (elem : Option Nat) (length : Int) : Nat → Ty :=
  store_node heap t
    { Ty.zeroed TypeKind.TY_ARRAY with
        array_elem := elem, array_length := length,
        array_is_unsized := if length < 0 then 1 else 0 }

/-- `type_template_param`: the new node is at address `t`. -/
def type_template_param (heap : Nat → Ty) (t : Nat) (name : Option (List Char)) (index : Int) :
    Nat → Ty :=
  store_node heap t
    { Ty.zeroed TypeKind.TY_TEMPLATE_PARAM with
        template_param_name := name, template_param_index := index,
        template_constraint_kind := 0, template_default_type := none }

/-- The read `a->func.params ? a->func.params[i] : NULL`; `none` when the index
lies outside the array, where the read has no defined value. -/
def func_param (t : Ty) (i : Nat) : Option (Option Nat) :=
  match t.func_params with
  | none => some none
  | some l => l.get? i

/-- The parameter loop of `type_equals` from index `i` on, with `n` iterations
left; `eq` is the recursive call. -/
def params_loop (eq : Option Nat → Option Nat → Option Bool) (a b : Ty) :
    Nat → Nat → Option Bool
  | 0, _ => some true
  | n + 1, i =>
    match func_param a i, func_param b i with
    | some ap, some bp =>
      match eq ap bp with
      | some true => params_loop eq a b n (i + 1)
      | some false => some false
      | none => none
    | _, _ => none

/-- `type_equals`.  The first argument bounds the depth of nested calls; `none`
means that the bound was reached (or that a parameter was read outside its
array). -/
def type_equals (heap : Nat → Ty) : Nat → Option Nat → Option Nat → Option Bool
  | 0, _, _ => none
  | fuel + 1, a, b =>
    if a = b then some true
    else
      match a, b with
      | some x, some y =>
        if (heap x).kind ≠ (heap y).kind then some false
        else if (heap x).kind = TypeKind.TY_PTR then
          type_equals heap fuel (heap x).pointee (heap y).pointee
        else if (heap x).kind = TypeKind.TY_ARRAY then
          if (heap x).array_length ≠ (heap y).array_length then some false
          else if (heap x).array_is_unsized ≠ (heap y).array_is_unsized then some false
          else type_equals heap fuel (heap x).array_elem (heap y).array_elem
        else if (heap x).kind = TypeKind.TY_FUNC then
          if (heap x).func_ret.isSome ≠ (heap y).func_ret.isSome then some false
          else
            match (if (heap x).func_ret.isSome then
                    type_equals heap fuel (heap x).func_ret (heap y).func_ret
                  else some true) with
            | none => none
            | some false => some false
            | some true =>
              if (heap x).func_param_count ≠ (heap y).func_param_count then some false
              else if (heap x).func_is_varargs ≠ (heap y).func_is_varargs then some false
              else
                params_loop (type_equals heap fuel) (heap x) (heap y)
                  (heap x).func_param_count.toNat 0
        else if (heap x).kind = TypeKind.TY_TEMPLATE_PARAM then
          if (heap x).template_param_index ≠ (heap y).template_param_index then some false
          else if (heap x).template_param_name.isSome ≠ (heap y).template_param_name.isSome then
            some false
          else
            match (heap x).template_param_name, (heap y).template_param_name with
            | some na, some nb => if na ≠ nb then some false else some true
            | _, _ => some true
        else some true
      | _, _ => some false

/-- A node with the fields that `type_equals` never reads set to zero: what is
left is the kind, the pointee, the array fields, the function fields other than
`has_signature`, and the name and index of a template parameter. -/
def compared_fields (t : Ty) : Ty :=
  { t with
      func_has_signature := 0, struct_name := none, strct_field_count := 0,
      template_constraint_kind := 0, template_default_type := none,
      import_module := none, import_type_name := none, import_resolved := none }

/-! ## Table invariants and specification helpers -/

/-- The nodes that `type_equals` can reach from `a` (through `pointee`,
`array.elem`, `func.ret` and the entries of `func.params`) lie within `d` links
of it, and every parameter array on the way holds at least `param_count`
entries. -/
def acyclic_within (heap : Nat → Ty) : Nat → Option Nat → Bool
  | _, none => true
  | 0, some _ => false
  | d + 1, some x =>
    if (heap x).kind = TypeKind.TY_PTR then acyclic_within heap d (heap x).pointee
    else if (heap x).kind = TypeKind.TY_ARRAY then acyclic_within heap d (heap x).array_elem
    else if (heap x).kind = TypeKind.TY_FUNC then
      acyclic_within heap d (heap x).func_ret
        && (match (heap x).func_params with
            | none => true
            | some l =>
              decide ((heap x).func_param_count.toNat ≤ l.length)
                && l.all (fun p => acyclic_within heap d p))
    else true

/-- No row of the struct table or of the enum table has an Import node as
payload. -/
abbrev no_import_payloads (s : State) : Prop :=
  ∀ e ∈ s.struct_entries ++ s.enum_entries,
    e.type.map (fun p => (s.heap p).kind) ≠ some TypeKind.TY_IMPORT

/-- The table invariant of the data model: no two rows of a table agree on both
key strings (a `NULL` string agrees with nothing). -/
abbrev keys_unique (es : List StructEntry) : Prop :=
  es.Pairwise (fun a b =>
    ¬ (match_strings a.module_full b.module_full && match_strings a.name b.name) = true)

/-- The same invariant for the enum-value table, on its three key strings. -/
abbrev enum_value_keys_unique (es : List EnumValueEntry) : Prop :=
  es.Pairwise (fun a b =>
    ¬ (match_strings a.module_full b.module_full && match_strings a.enum_name b.enum_name
        && match_strings a.value_name b.value_name) = true)

/-- States the registry can be in: the empty registry over any heap, and what the
public operations make of a reachable state; between two calls the rest of the
compiler may allocate and fill type nodes. -/
inductive Reachable : State → Prop
  | empty (heap : Nat → Ty) :
      Reachable { struct_entries := [], enum_entries := [], enum_value_entries := [],
                  heap := heap }
  | register_struct (s : State) (module_full : Option (List Char)) (type : Option Nat) :
      Reachable s → Reachable (module_registry_register_struct s module_full type)
  | register_enum (s : State) (module_full enum_name : Option (List Char))
      (type : Option Nat) :
      Reachable s → Reachable (module_registry_register_enum s module_full enum_name type)
  | register_enum_value (s : State) (module_full enum_name value_name : Option (List Char))
      (value : Int) :
      Reachable s →
      Reachable (module_registry_register_enum_value s module_full enum_name value_name value)
  | canonical_type (s s' : State) (fuel : Nat) (ty r : Option Nat) :
      Reachable s → module_registry_canonical_type fuel s ty = some (s', r) → Reachable s'
  | reset (s : State) : Reachable s → Reachable (module_registry_reset s)
  | heap_change (s : State) (heap : Nat → Ty) :
      Reachable s → Reachable { s with heap := heap }

/-- What a run of registry operations makes of a state: `Steps s s'` holds when
`s'` comes from `s` by calls of `register_struct`, `register_enum`,
`register_enum_value`, `canonical_type` and `reset`, in any number and order.
The lookup functions and `find_struct_module` are pure and do not appear. -/
inductive Steps : State → State → Prop
  | refl (s : State) : Steps s s
  | register_struct (s s' : State) (module_full : Option (List Char)) (type : Option Nat) :
      Steps s s' → Steps s (module_registry_register_struct s' module_full type)
  | register_enum (s s' : State) (module_full enum_name : Option (List Char))
      (type : Option Nat) :
      Steps s s' → Steps s (module_registry_register_enum s' module_full enum_name type)
  | register_enum_value (s s' : State) (module_full enum_name value_name : Option (List Char))
      (value : Int) :
      Steps s s' →
      Steps s (module_registry_register_enum_value s' module_full enum_name value_name value)
  | canonical_type (s s' s'' : State) (fuel : Nat) (ty r : Option Nat) :
      Steps s s' → module_registry_canonical_type fuel s' ty = some (s'', r) → Steps s s''
  | reset (s s' : State) : Steps s s' → Steps s (module_registry_reset s')

/-- Runs that start from the empty registry over nodes whose caches are all
empty and that register no Import node as a struct or enum payload. -/
inductive CleanRun : State → Prop
  | start (heap : Nat → Ty) :
      (∀ x, (heap x).import_resolved = none) →
      CleanRun { struct_entries := [], enum_entries := [], enum_value_entries := [],
                 heap := heap }
  | register_struct (s : State) (module_full : Option (List Char)) (type : Option Nat) :
      CleanRun s → (∀ t, type = some t → (s.heap t).kind ≠ TypeKind.TY_IMPORT) →
      CleanRun (module_registry_register_struct s module_full type)
  | register_enum (s : State) (module_full enum_name : Option (List Char))
      (type : Option Nat) :
      CleanRun s → (∀ t, type = some t → (s.heap t).kind ≠ TypeKind.TY_IMPORT) →
      CleanRun (module_registry_register_enum s module_full enum_name type)
  | register_enum_value (s : State) (module_full enum_name value_name : Option (List Char))
      (value : Int) :
      CleanRun s →
      CleanRun (module_registry_register_enum_value s module_full enum_name value_name value)
  | canonical_type (s s' : State) (fuel : Nat) (ty r : Option Nat) :
      CleanRun s → module_registry_canonical_type fuel s ty = some (s', r) → CleanRun s'
  | reset (s : State) : CleanRun s → CleanRun (module_registry_reset s)

/-- Node `t` is the payload of a row of the struct table or of the enum table. -/
abbrev payload_in_tables (s : State) (t : Nat) : Prop :=
  (∃ e ∈ s.struct_entries, e.type = some t) ∨ (∃ e ∈ s.enum_entries, e.type = some t)

/-- What a call may have done to the node at address `x`: nothing, or, for an
Import node whose cache was empty, filled the cache with a payload of the tables
and left every other field alone. -/
def node_frame (s s' : State) (x : Nat) : Prop :=
  s'.heap x = s.heap x
  ∨ ((s.heap x).kind = TypeKind.TY_IMPORT ∧ (s.heap x).import_resolved = none
      ∧ ∃ t : Nat, payload_in_tables s t
          ∧ s'.heap x = { s.heap x with import_resolved := some t })

/-- Every row of the struct and enum tables carries a node: the registration
functions never store `NULL`. -/
abbrev payloads_non_null (s : State) : Prop :=
  (∀ e ∈ s.struct_entries, e.type ≠ none) ∧ (∀ e ∈ s.enum_entries, e.type ≠ none)

/-- Rows of a table whose name is `n`, in table order. -/
def rows_named (n : List Char) (es : List StructEntry) : List StructEntry :=
  es.filter (fun e => match_strings e.name (some n))

/-- Rows of a table whose name is `n` and whose module path is related to `m` by
`module_name_matches`, in table order. -/
def rows_qualified (m n : List Char) (es : List StructEntry) : List StructEntry :=
  es.filter (fun e => match_strings e.name (some n) && module_name_matches e.module_full (some m))

/-- Payload of the only row of a list; `NULL` when the list has no row or more
than one. -/
def sole_payload : List StructEntry → Option Nat
  | [e] => e.type
  | _ => none

/-- No rule of the table search applies to the key `(m, n)`: neither table has
a row with that key, the struct rows named `n` are not exactly one, and the
struct rows named `n` whose module path matches `m` by the suffix rule are not
exactly one. -/
abbrev no_rule_applies (s : State) (m n : List Char) : Prop :=
  (∀ e ∈ s.struct_entries, ¬ (e.module_full = some m ∧ e.name = some n))
  ∧ (∀ e ∈ s.enum_entries, ¬ (e.module_full = some m ∧ e.name = some n))
  ∧ (rows_named n s.struct_entries).length ≠ 1
  ∧ (rows_qualified m n s.struct_entries).length ≠ 1

/-- The node reached from `x` by following `k` filled caches, each of them on an
Import node; `none` when a node on the way is not an Import node or has an
empty cache. -/
def follow_caches (s : State) : Nat → Nat → Option Nat
  | 0, x => some x
  | k + 1, x =>
    if (s.heap x).kind = TypeKind.TY_IMPORT then
      match (s.heap x).import_resolved with
      | some r => follow_caches s k r
      | none => none
    else none

/-! ## Sample nodes and states -/

/-- A struct node named `n`. -/
def struct_node (n : List Char) : Ty :=
  { Ty.zeroed TypeKind.TY_STRUCT with struct_name := some n }

/-- An import node with the given module path, type name and cache. -/
def import_node (m n : Option (List Char)) (r : Option Nat) : Ty :=
  { Ty.zeroed TypeKind.TY_IMPORT with
      import_module := m, import_type_name := n, import_resolved := r }

/-- A heap with two structs `Point` (addresses 1, 2), two structs `Foo` (3, 4),
an enum-like node (5), a struct node without a name (6) and import nodes from
address 10 on; every other address holds the `i32` singleton. -/
def demo_heap : Nat → Ty := fun a =>
  if a = 1 then struct_node "Point".toList
  else if a = 2 then struct_node "Point".toList
  else if a = 3 then struct_node "Foo".toList
  else if a = 4 then struct_node "Foo".toList
  else if a = 6 then Ty.zeroed TypeKind.TY_STRUCT
  else if a = 10 then import_node (some "geo".toList) (some "Point".toList) none
  else if a = 11 then import_node (some "".toList) (some "Point".toList) none
  else if a = 12 then import_node none (some "Point".toList) none
  else if a = 13 then import_node (some "b.c".toList) (some "Foo".toList) none
  else if a = 14 then import_node (some "c".toList) (some "Foo".toList) none
  else if a = 15 then import_node (some "x.c".toList) (some "Foo".toList) none
  else if a = 16 then import_node (some "app".toList) (some "Foo".toList) (some 13)
  else if a = 17 then import_node none (some "Foo".toList) none
  else if a = 18 then import_node (some "geo".toList) (some "Color".toList) none
  else if a = 19 then
    { import_node (some "geo".toList) (some "Point".toList) (some 1) with
        struct_name := some "Alias".toList }
  else if a = 20 then import_node (some "lib".toList) (some "Alias".toList) none
  else if a = 21 then import_node (some "".toList) (some "Foo".toList) none
  else if a = 22 then import_node (some "a.geo".toList) (some "Color".toList) none
  else Ty.zeroed TypeKind.TY_I32

/-- The empty registry over `demo_heap`. -/
def demo_empty : State :=
  { struct_entries := [], enum_entries := [], enum_value_entries := [], heap := demo_heap }

/-- Struct `Point` registered under `geo` (node 1) and under `draw` (node 2). -/
def demo_points : State :=
  module_registry_register_struct
    (module_registry_register_struct demo_empty (some "geo".toList) (some 1))
    (some "draw".toList) (some 2)

/-- Struct `Foo` (node 3) registered under `a.b.c`, nothing else. -/
def demo_foo : State :=
  module_registry_register_struct demo_empty (some "a.b.c".toList) (some 3)

/-- The state `demo_points` with an enum `Color` (node 5) registered under `geo`. -/
def demo_color : State :=
  module_registry_register_enum demo_points (some "geo".toList) (some "Color".toList) (some 5)

/-- The state `demo_points` with node 19, an Import node that carries the struct
name `Alias` and a filled cache, registered as a struct under `lib`. -/
def demo_alias : State :=
  module_registry_register_struct demo_points (some "lib".toList) (some 19)

/-- The state `demo_color` with the enum value `Admin = 1` of enum `Role`
registered under `app.models`. -/
def demo_role : State :=
  module_registry_register_enum_value demo_color (some "app.models".toList)
    (some "Role".toList) (some "Admin".toList) 1

/-- The struct node without a name (node 6) registered twice under `m`, starting
from the empty registry. -/
def demo_nameless : State :=
  module_registry_register_struct
    (module_registry_register_struct demo_empty (some "m".toList) (some 6))
    (some "m".toList) (some 6)

/-- The state `demo_foo` after `canonical_type` has resolved the Import node 13
(`b.c`, `Foo`) to node 3: the cache of node 13 holds node 3. -/
def demo_cached : State := set_import_resolved demo_foo 13 (some 3)

/-- What is left of `demo_cached` after the row (`a.b.c`, `Foo`) has been
overwritten with node 4, a second struct `Foo` (node 4) has been registered
under `d.e`, and the registry has been reset. -/
def demo_cached_later : State :=
  module_registry_reset
    (module_registry_register_struct
      (module_registry_register_struct demo_cached (some "a.b.c".toList) (some 4))
      (some "d.e".toList) (some 4))

/-- A heap whose caches are all empty: node 1 is the Import node (`m`, `Self`),
node 2 a struct named `Self`, every other address holds the `i32` singleton. -/
def cycle_heap : Nat → Ty := fun a =>
  if a = 1 then import_node (some "m".toList) (some "Self".toList) none
  else if a = 2 then struct_node "Self".toList
  else Ty.zeroed TypeKind.TY_I32

/-- The empty registry over `cycle_heap`. -/
def cycle_empty : State :=
  { struct_entries := [], enum_entries := [], enum_value_entries := [], heap := cycle_heap }

/-- Struct `Self` (node 2) registered under `m` over `cycle_heap`, and the Import
node 1 then resolved by `canonical_type`: its cache holds node 2. -/
def demo_clean : State :=
  set_import_resolved (module_registry_register_struct cycle_empty (some "m".toList) (some 2))
    1 (some 2)

/-- The Import node 1 registered as an enum under its own key (`m`, `Self`),
starting from the empty registry over `cycle_heap`. -/
def demo_self : State :=
  module_registry_register_enum cycle_empty (some "m".toList) (some "Self".toList) (some 1)

/-- A heap of nodes for `type_equals`: primitives `i32` (0) and `i64` (1); structs
`Point` (2, 3) and `Size` (4); an Import node (5); pointers to `i32` (10, 11) and
to `i64` (12); arrays of `i32` of length 4 (20, 21), of length 5 (22) and unsized
(23); function types (30 to 33); template parameters (40 to 43); a third pointer
to `i32` (13); a function type without a parameter array (34) and one more with
one (35); `void` everywhere else. -/
def eq_heap : Nat → Ty := fun a =>
  if a = 0 then Ty.zeroed TypeKind.TY_I32
  else if a = 1 then Ty.zeroed TypeKind.TY_I64
  else if a = 2 then struct_node "Point".toList
  else if a = 3 then struct_node "Point".toList
  else if a = 4 then struct_node "Size".toList
  else if a = 5 then import_node (some "geo".toList) (some "Point".toList) none
  else if a = 10 then { Ty.zeroed TypeKind.TY_PTR with pointee := some 0 }
  else if a = 11 then { Ty.zeroed TypeKind.TY_PTR with pointee := some 0 }
  else if a = 12 then { Ty.zeroed TypeKind.TY_PTR with pointee := some 1 }
  else if a = 13 then { Ty.zeroed TypeKind.TY_PTR with pointee := some 0 }
  else if a = 20 then
    { Ty.zeroed TypeKind.TY_ARRAY with array_elem := some 0, array_length := 4 }
  else if a = 21 then
    { Ty.zeroed TypeKind.TY_ARRAY with array_elem := some 0, array_length := 4 }
  else if a = 22 then
    { Ty.zeroed TypeKind.TY_ARRAY with array_elem := some 0, array_length := 5 }
  else if a = 23 then
    { Ty.zeroed TypeKind.TY_ARRAY with
        array_elem := some 0, array_length := -1, array_is_unsized := 1 }
  else if a = 30 then
    { Ty.zeroed TypeKind.TY_FUNC with
        func_ret := some 0, func_params := some [some 10, some 1], func_param_count := 2 }
  else if a = 31 then
    { Ty.zeroed TypeKind.TY_FUNC with
        func_ret := some 0, func_params := some [some 11, some 1], func_param_count := 2,
        func_has_signature := 1 }
  else if a = 32 then
    { Ty.zeroed TypeKind.TY_FUNC with
        func_ret := none, func_params := some [some 10, some 1], func_param_count := 2 }
  else if a = 33 then
    { Ty.zeroed TypeKind.TY_FUNC with
        func_ret := some 0, func_params := some [some 10, some 0], func_param_count := 2 }
  else if a = 34 then
    { Ty.zeroed TypeKind.TY_FUNC with
        func_ret := some 0, func_params := none, func_param_count := 2 }
  else if a = 35 then
    { Ty.zeroed TypeKind.TY_FUNC with
        func_ret := some 0, func_params := some [some 13, some 1], func_param_count := 2 }
  else if a = 40 then
    { Ty.zeroed TypeKind.TY_TEMPLATE_PARAM with template_param_name := some "T".toList }
  else if a = 41 then
    { Ty.zeroed TypeKind.TY_TEMPLATE_PARAM with
        template_param_name := some "T".toList, template_constraint_kind := 2,
        template_default_type := some 0 }
  else if a = 42 then
    { Ty.zeroed TypeKind.TY_TEMPLATE_PARAM with template_param_name := some "U".toList }
  else if a = 43 then Ty.zeroed TypeKind.TY_TEMPLATE_PARAM
  else Ty.zeroed TypeKind.TY_VOID

/-! ## Lemmas on the tables -/

theorem match_strings_self (a : List Char) : match_strings (some a) (some a) = true := by
  simp [match_strings]

theorem match_strings_some_iff (a : Option (List Char)) (b : List Char) :
    match_strings a (some b) = true ↔ a = some b := by
  cases a <;> simp [match_strings]

theorem lookup_upsert_entry (m n : List Char) (t : Option Nat) (es : List StructEntry) :
    lookup_entry (some m) (some n) (upsert_entry (some m) (some n) t es) = t := by
  induction es with
  | nil => simp [upsert_entry, lookup_entry, match_strings_self]
  | cons e es ih =>
    by_cases hm : (match_strings e.module_full (some m) && match_strings e.name (some n)) = true
    · simp [upsert_entry, lookup_entry, hm]
    · simp [upsert_entry, lookup_entry, hm, ih]

theorem upsert_entry_length_again (m n : List Char) (t1 t2 : Option Nat)
    (es : List StructEntry) :
    (upsert_entry (some m) (some n) t2 (upsert_entry (some m) (some n) t1 es)).length
      = (upsert_entry (some m) (some n) t1 es).length := by
  induction es with
  | nil => simp [upsert_entry, match_strings_self]
  | cons e es ih =>
    by_cases hm : (match_strings e.module_full (some m) && match_strings e.name (some n)) = true
    · simp [upsert_entry, hm]
    · simp [upsert_entry, hm, ih]

theorem lookup_entry_of_mem (m n : List Char) (t : Option Nat) :
    ∀ es : List StructEntry, keys_unique es →
      ({ module_full := some m, name := some n, type := t } : StructEntry) ∈ es →
      lookup_entry (some m) (some n) es = t := by
  intro es
  induction es with
  | nil => intro _ h; simp at h
  | cons x xs ih =>
    intro hu hmem
    rw [keys_unique, List.pairwise_cons] at hu
    rcases List.mem_cons.mp hmem with hx | hx
    · subst hx
      simp [lookup_entry, match_strings_self]
    · have hne := hu.1 _ hx
      simp only [match_strings_some_iff] at hne
      have hne2 : ¬ (match_strings x.module_full (some m) && match_strings x.name (some n)) = true := by
        simpa [match_strings_some_iff] using hne
      simp only [lookup_entry, hne2, if_false]
      exact ih hu.2 hx

theorem lookup_entry_none_of_no_key (m n : List Char) :
    ∀ es : List StructEntry,
      (∀ e ∈ es, ¬ (e.module_full = some m ∧ e.name = some n)) →
      lookup_entry (some m) (some n) es = none := by
  intro es
  induction es with
  | nil => intro _; rfl
  | cons x xs ih =>
    intro h
    have hx := h x (List.mem_cons_self _ _)
    have hne : ¬ (match_strings x.module_full (some m) && match_strings x.name (some n)) = true := by
      simpa [match_strings_some_iff] using hx
    simp only [lookup_entry, hne, if_false]
    exact ih (fun e he => h e (List.mem_cons_of_mem _ he))

theorem lookup_entry_some_mem (m n : List Char) (t : Nat) :
    ∀ es : List StructEntry, lookup_entry (some m) (some n) es = some t →
      ∃ e ∈ es, e.module_full = some m ∧ e.name = some n ∧ e.type = some t := by
  intro es
  induction es with
  | nil => intro h; simp [lookup_entry] at h
  | cons x xs ih =>
    intro h
    by_cases hx : (match_strings x.module_full (some m) && match_strings x.name (some n)) = true
    · simp only [lookup_entry, hx, if_true] at h
      simp only [Bool.and_eq_true, match_strings_some_iff] at hx
      exact ⟨x, List.mem_cons_self _ _, hx.1, hx.2, h⟩
    · simp only [lookup_entry, hx, if_false] at h
      obtain ⟨e, he, h3⟩ := ih h
      exact ⟨e, List.mem_cons_of_mem _ he, h3⟩

theorem scan_matches_one (p : StructEntry → Bool) (es : List StructEntry) (m : Option Nat) :
    scan_matches p es (m, 1) =
      match es.filter p with
      | [] => (m, 1)
      | e :: _ => (e.type, 2) := by
  induction es with
  | nil => rfl
  | cons x xs ih =>
    by_cases hx : p x = true
    · simp [scan_matches, hx]
    · simp [scan_matches, hx, ih]

theorem scan_matches_zero (p : StructEntry → Bool) (es : List StructEntry) (m : Option Nat) :
    scan_matches p es (m, 0) =
      match es.filter p with
      | [] => (m, 0)
      | [e] => (e.type, 1)
      | _ :: e :: _ => (e.type, 2) := by
  induction es with
  | nil => rfl
  | cons x xs ih =>
    by_cases hx : p x = true
    · simp only [scan_matches, hx, if_true, List.filter_cons_of_pos]
      simp only [Nat.zero_add, gt_iff_lt, Nat.lt_irrefl, if_false]
      rw [scan_matches_one]
      cases List.filter p xs <;> rfl
    · simp [scan_matches, hx, ih]

theorem scan_matches_count_one (p : StructEntry → Bool) (es : List StructEntry) :
    (scan_matches p es (none, 0)).2 = 1 ↔ (es.filter p).length = 1 := by
  rw [scan_matches_zero]
  rcases List.filter p es with _ | ⟨a, _ | ⟨b, l⟩⟩ <;> simp

theorem scan_matches_payload (p : StructEntry → Bool) (es : List StructEntry)
    (h : (es.filter p).length = 1) :
    (scan_matches p es (none, 0)).1 = sole_payload (es.filter p) := by
  rw [scan_matches_zero]
  generalize List.filter p es = f at h
  rcases f with _ | ⟨a, _ | ⟨b, l⟩⟩ <;> simp [sole_payload] at h ⊢

/-- The search of `canonical_type` once both exact lookups have failed: the only
struct row of that name, else the only struct row of that name whose module
path matches by the suffix rule, else nothing. -/
theorem resolve_import_fallback (s : State) (m n : List Char)
    (hs : module_registry_lookup_struct s (some m) (some n) = none)
    (he : module_registry_lookup_enum s (some m) (some n) = none) :
    resolve_import s (some m) (some n) =
      if (rows_named n s.struct_entries).length = 1 then
        sole_payload (rows_named n s.struct_entries)
      else if (rows_qualified m n s.struct_entries).length = 1 then
        sole_payload (rows_qualified m n s.struct_entries)
      else none := by
  simp only [resolve_import, hs, he, Option.isNone_none, Option.isSome_some, Bool.and_self,
    if_true, scan_matches_count_one]
  unfold rows_named rows_qualified
  by_cases h1 : (List.filter (fun e => match_strings e.name (some n)) s.struct_entries).length = 1
  · simp only [h1, if_true]
    exact scan_matches_payload _ _ h1
  · simp only [h1, if_false]
    by_cases h2 : (List.filter (fun e => match_strings e.name (some n)
        && module_name_matches e.module_full (some m)) s.struct_entries).length = 1
    · simp only [h2, if_true]
      exact scan_matches_payload _ _ h2
    · simp only [h2, if_false]

theorem mem_upsert_entry_key (m n : Option (List Char)) (t : Option Nat) :
    ∀ (es : List StructEntry) (b : StructEntry), b ∈ upsert_entry m n t es →
      (∃ y ∈ es, b.module_full = y.module_full ∧ b.name = y.name)
        ∨ (b.module_full = m ∧ b.name = n) := by
  intro es
  induction es with
  | nil =>
    intro b hb
    simp only [upsert_entry, List.mem_singleton] at hb
    subst hb
    exact Or.inr ⟨rfl, rfl⟩
  | cons x xs ih =>
    intro b hb
    by_cases hx : (match_strings x.module_full m && match_strings x.name n) = true
    · simp only [upsert_entry, hx, if_true, List.mem_cons] at hb
      rcases hb with hb | hb
      · subst hb
        exact Or.inl ⟨x, List.mem_cons_self _ _, rfl, rfl⟩
      · exact Or.inl ⟨b, List.mem_cons_of_mem _ hb, rfl, rfl⟩
    · have hx2 : (match_strings x.module_full m && match_strings x.name n) = false := by
        simpa using hx
      simp only [upsert_entry, hx2, List.mem_cons] at hb
      simp only [Bool.false_eq_true, if_false, List.mem_cons] at hb
      rcases hb with hb | hb
      · subst hb
        exact Or.inl ⟨b, List.mem_cons_self _ _, rfl, rfl⟩
      · rcases ih b hb with ⟨y, hy, h1, h2⟩ | h
        · exact Or.inl ⟨y, List.mem_cons_of_mem _ hy, h1, h2⟩
        · exact Or.inr h

/-- Registration keeps the keys of a table unique. -/
theorem keys_unique_upsert_entry (m n : Option (List Char)) (t : Option Nat) :
    ∀ es : List StructEntry, keys_unique es → keys_unique (upsert_entry m n t es) := by
  intro es
  induction es with
  | nil => intro _; simp [upsert_entry]
  | cons x xs ih =>
    intro hu
    rw [keys_unique, List.pairwise_cons] at hu
    by_cases hx : (match_strings x.module_full m && match_strings x.name n) = true
    · simp only [upsert_entry, hx, if_true]
      exact List.pairwise_cons.mpr ⟨fun b hb => hu.1 b hb, hu.2⟩
    · have hx2 : (match_strings x.module_full m && match_strings x.name n) = false := by
        simpa using hx
      simp only [upsert_entry, hx2, Bool.false_eq_true, if_false]
      refine List.pairwise_cons.mpr ⟨?_, ih hu.2⟩
      intro b hb
      rcases mem_upsert_entry_key m n t xs b hb with ⟨y, hy, h1, h2⟩ | ⟨h1, h2⟩
      · rw [h1, h2]; exact hu.1 y hy
      · rw [h1, h2]; exact hx

/-! ## Lemmas on module paths -/

theorem dotted_suffix_iff (a b : List Char) (hlen : a.length > b.length) :
    (decide (a.length > b.length + 1) && decide (a.get? (a.length - b.length - 1) = some '.')
        && decide (a.drop (a.length - b.length) = b)) = true
      ↔ ∃ pre : List Char, pre ≠ [] ∧ a = pre ++ '.' :: b := by
  simp only [Bool.and_eq_true, decide_eq_true_eq]
  constructor
  · rintro ⟨⟨h1, h2⟩, h3⟩
    refine ⟨a.take (a.length - b.length - 1), ?_, ?_⟩
    · intro h
      have hl := congrArg List.length h
      simp only [List.length_take, List.length_nil] at hl
      omega
    · have hk : a.length - b.length - 1 < a.length := by omega
      have h4 : a.drop (a.length - b.length - 1)
          = a[a.length - b.length - 1] :: a.drop (a.length - b.length - 1 + 1) :=
        List.drop_eq_getElem_cons hk
      have h5 : a[a.length - b.length - 1] = '.' := by
        rw [List.get?_eq_getElem?, List.getElem?_eq_getElem hk] at h2
        simpa using h2
      have h6 : a.length - b.length - 1 + 1 = a.length - b.length := by omega
      rw [h5, h6, h3] at h4
      conv_lhs => rw [← List.take_append_drop (a.length - b.length - 1) a]
      rw [h4]
  · rintro ⟨pre, hpre, rfl⟩
    have hp : 0 < pre.length := List.length_pos.mpr hpre
    simp only [List.length_append, List.length_cons]
    refine ⟨⟨by omega, ?_⟩, ?_⟩
    · have : pre.length + (b.length + 1) - b.length - 1 = pre.length := by omega
      rw [this, List.get?_eq_getElem?, List.getElem?_append_right (Nat.le_refl _)]
      simp
    · have : pre.length + (b.length + 1) - b.length = pre.length + 1 := by omega
      rw [this]
      simp

/-! ## Lemmas on the reverse index -/

theorem find_struct_module_scan_find (T : Nat) (es : List StructEntry) :
    find_struct_module_scan T es
      = (es.find? (fun e => decide (e.type = some T))).bind (fun e => e.module_full) := by
  induction es with
  | nil => rfl
  | cons x xs ih =>
    by_cases hx : x.type = some T
    · simp [find_struct_module_scan, List.find?, hx]
    · simp [find_struct_module_scan, List.find?, hx, ih]

theorem find_struct_module_scan_none (T : Nat) (es : List StructEntry)
    (h : ∀ e ∈ es, e.type ≠ some T) : find_struct_module_scan T es = none := by
  induction es with
  | nil => rfl
  | cons x xs ih =>
    have hx := h x (List.mem_cons_self _ _)
    simp only [find_struct_module_scan, hx, if_false]
    exact ih (fun e he => h e (List.mem_cons_of_mem _ he))

theorem find_struct_module_scan_found (T : Nat) (es : List StructEntry)
    (hmod : ∀ e ∈ es, e.module_full ≠ none)
    (h : find_struct_module_scan T es = none) : ∀ e ∈ es, e.type ≠ some T := by
  induction es with
  | nil => intro e he; simp at he
  | cons x xs ih =>
    intro e he
    by_cases hx : x.type = some T
    · simp only [find_struct_module_scan, hx, if_true] at h
      exact absurd h (hmod x (List.mem_cons_self _ _))
    · simp only [find_struct_module_scan, hx, if_false] at h
      rcases List.mem_cons.mp he with hex | hex
      · rw [hex]; exact hx
      · exact ih (fun e' he' => hmod e' (List.mem_cons_of_mem _ he')) h e hex

theorem find_struct_module_scan_upsert (M : List Char) (n : Option (List Char)) (T : Nat)
    (es : List StructEntry) (h : ∀ e ∈ es, e.type ≠ some T) :
    find_struct_module_scan T (upsert_entry (some M) n (some T) es) = some M := by
  induction es with
  | nil => simp [upsert_entry, find_struct_module_scan]
  | cons x xs ih =>
    have hx := h x (List.mem_cons_self _ _)
    by_cases hm : (match_strings x.module_full (some M) && match_strings x.name n) = true
    · have hxm : x.module_full = some M := by
        simp only [Bool.and_eq_true, match_strings_some_iff] at hm
        exact hm.1
      simp only [upsert_entry, hm, if_true, find_struct_module_scan]
      exact hxm
    · have hm2 : (match_strings x.module_full (some M) && match_strings x.name n) = false := by
        simpa using hm
      simp only [upsert_entry, hm2, Bool.false_eq_true, if_false, find_struct_module_scan, hx]
      exact ih (fun e he => h e (List.mem_cons_of_mem _ he))

theorem upsert_entry_twice_payload (M N : List Char) (T T2 : Nat) (hne : T2 ≠ T)
    (es : List StructEntry) (h : ∀ e ∈ es, e.type ≠ some T) :
    ∀ e ∈ upsert_entry (some M) (some N) (some T2)
        (upsert_entry (some M) (some N) (some T) es), e.type ≠ some T := by
  induction es with
  | nil =>
    intro e he
    simp only [upsert_entry, match_strings_self, Bool.and_self, if_true,
      List.mem_singleton] at he
    rw [he]
    simpa using hne
  | cons x xs ih =>
    have hx := h x (List.mem_cons_self _ _)
    have hxs : ∀ e ∈ xs, e.type ≠ some T := fun e he => h e (List.mem_cons_of_mem _ he)
    by_cases hm : (match_strings x.module_full (some M) && match_strings x.name (some N)) = true
    · intro e he
      simp only [upsert_entry, hm, if_true, List.mem_cons] at he
      rcases he with he | he
      · rw [he]; simpa using hne
      · exact hxs e he
    · have hm2 : (match_strings x.module_full (some M) && match_strings x.name (some N))
          = false := by simpa using hm
      intro e he
      simp only [upsert_entry, hm2, Bool.false_eq_true, if_false, List.mem_cons] at he
      rcases he with he | he
      · rw [he]; exact hx
      · exact ih hxs e he

theorem upsert_entry_modules_present (m : List Char) (n : Option (List Char)) (t : Option Nat)
    (es : List StructEntry) (h : ∀ e ∈ es, e.module_full ≠ none) :
    ∀ e ∈ upsert_entry (some m) n t es, e.module_full ≠ none := by
  intro e he
  rcases mem_upsert_entry_key (some m) n t es e he with ⟨y, hy, h1, _⟩ | ⟨h1, _⟩
  · rw [h1]; exact h y hy
  · rw [h1]; simp

/-! ## Lemmas on the enum-value table -/

theorem lookup_upsert_enum_value (m e v : List Char) (x : Int) (es : List EnumValueEntry) :
    lookup_enum_value_scan (some m) (some e) (some v)
      (upsert_enum_value (some m) (some e) (some v) x es) = some x := by
  induction es with
  | nil => simp [upsert_enum_value, lookup_enum_value_scan, match_strings_self]
  | cons r rs ih =>
    by_cases hm : (match_strings r.module_full (some m) && match_strings r.enum_name (some e)
        && match_strings r.value_name (some v)) = true
    · simp [upsert_enum_value, lookup_enum_value_scan, hm]
    · simp [upsert_enum_value, lookup_enum_value_scan, hm, ih]

theorem upsert_enum_value_length_again (m e v : List Char) (x y : Int)
    (es : List EnumValueEntry) :
    (upsert_enum_value (some m) (some e) (some v) y
        (upsert_enum_value (some m) (some e) (some v) x es)).length
      = (upsert_enum_value (some m) (some e) (some v) x es).length := by
  induction es with
  | nil => simp [upsert_enum_value, match_strings_self]
  | cons r rs ih =>
    by_cases hm : (match_strings r.module_full (some m) && match_strings r.enum_name (some e)
        && match_strings r.value_name (some v)) = true
    · simp [upsert_enum_value, hm]
    · simp [upsert_enum_value, hm, ih]

theorem lookup_enum_value_scan_none (m e v : List Char) :
    ∀ es : List EnumValueEntry,
      (∀ r ∈ es, ¬ (r.module_full = some m ∧ r.enum_name = some e ∧ r.value_name = some v)) →
      lookup_enum_value_scan (some m) (some e) (some v) es = none := by
  intro es
  induction es with
  | nil => intro _; rfl
  | cons r rs ih =>
    intro h
    have hr := h r (List.mem_cons_self _ _)
    have hne : (match_strings r.module_full (some m) && match_strings r.enum_name (some e)
        && match_strings r.value_name (some v)) = false := by
      rw [Bool.eq_false_iff]
      intro hm
      simp only [Bool.and_eq_true, match_strings_some_iff] at hm
      exact hr ⟨hm.1.1, hm.1.2, hm.2⟩
    simp only [lookup_enum_value_scan, hne, Bool.false_eq_true, if_false]
    exact ih (fun r' hr' => h r' (List.mem_cons_of_mem _ hr'))

theorem mem_upsert_enum_value_key (m e v : Option (List Char)) (x : Int) :
    ∀ (es : List EnumValueEntry) (b : EnumValueEntry), b ∈ upsert_enum_value m e v x es →
      (∃ y ∈ es, b.module_full = y.module_full ∧ b.enum_name = y.enum_name
          ∧ b.value_name = y.value_name)
        ∨ (b.module_full = m ∧ b.enum_name = e ∧ b.value_name = v) := by
  intro es
  induction es with
  | nil =>
    intro b hb
    simp only [upsert_enum_value, List.mem_singleton] at hb
    subst hb
    exact Or.inr ⟨rfl, rfl, rfl⟩
  | cons r rs ih =>
    intro b hb
    by_cases hr : (match_strings r.module_full m && match_strings r.enum_name e
        && match_strings r.value_name v) = true
    · simp only [upsert_enum_value, hr, if_true, List.mem_cons] at hb
      rcases hb with hb | hb
      · subst hb
        exact Or.inl ⟨r, List.mem_cons_self _ _, rfl, rfl, rfl⟩
      · exact Or.inl ⟨b, List.mem_cons_of_mem _ hb, rfl, rfl, rfl⟩
    · have hr2 : (match_strings r.module_full m && match_strings r.enum_name e
          && match_strings r.value_name v) = false := by
        simpa using hr
      simp only [upsert_enum_value, hr2, Bool.false_eq_true, if_false, List.mem_cons] at hb
      rcases hb with hb | hb
      · subst hb
        exact Or.inl ⟨b, List.mem_cons_self _ _, rfl, rfl, rfl⟩
      · rcases ih b hb with ⟨y, hy, h1, h2, h3⟩ | h
        · exact Or.inl ⟨y, List.mem_cons_of_mem _ hy, h1, h2, h3⟩
        · exact Or.inr h

/-- Registration keeps the keys of the enum-value table unique. -/
theorem enum_value_keys_unique_upsert (m e v : Option (List Char)) (x : Int) :
    ∀ es : List EnumValueEntry, enum_value_keys_unique es →
      enum_value_keys_unique (upsert_enum_value m e v x es) := by
  intro es
  induction es with
  | nil => intro _; simp [upsert_enum_value]
  | cons r rs ih =>
    intro hu
    rw [enum_value_keys_unique, List.pairwise_cons] at hu
    by_cases hr : (match_strings r.module_full m && match_strings r.enum_name e
        && match_strings r.value_name v) = true
    · simp only [upsert_enum_value, hr, if_true]
      exact List.pairwise_cons.mpr ⟨fun b hb => hu.1 b hb, hu.2⟩
    · have hr2 : (match_strings r.module_full m && match_strings r.enum_name e
          && match_strings r.value_name v) = false := by
        simpa using hr
      simp only [upsert_enum_value, hr2, Bool.false_eq_true, if_false]
      refine List.pairwise_cons.mpr ⟨?_, ih hu.2⟩
      intro b hb
      rcases mem_upsert_enum_value_key m e v x rs b hb with ⟨y, hy, h1, h2, h3⟩ | ⟨h1, h2, h3⟩
      · rw [h1, h2, h3]; exact hu.1 y hy
      · rw [h1, h2, h3]; exact hr

/-! ## Lemmas on the resolution loop -/

theorem canonical_loop_non_import (fuel : Nat) (s : State) (t : Nat)
    (hk : (s.heap t).kind ≠ TypeKind.TY_IMPORT) :
    canonical_loop fuel s (some t) = some (s, some t) := by
  cases fuel <;> simp [canonical_loop, hk]

theorem canonical_loop_cache (fuel : Nat) (s : State) (x r : Nat)
    (hk : (s.heap x).kind = TypeKind.TY_IMPORT) (hc : (s.heap x).import_resolved = some r) :
    canonical_loop (fuel + 1) s (some x) = canonical_loop fuel s (some r) := by
  simp [canonical_loop, hk, hc]

theorem canonical_loop_resolve (fuel : Nat) (s : State) (x : Nat) (m n : List Char)
    (hk : (s.heap x).kind = TypeKind.TY_IMPORT) (hc : (s.heap x).import_resolved = none)
    (hm : (s.heap x).import_module = some m) (hn : (s.heap x).import_type_name = some n) :
    canonical_loop (fuel + 1) s (some x) =
      match resolve_import s (some m) (some n) with
      | some r => canonical_loop fuel (set_import_resolved s x (some r)) (some r)
      | none => some (set_import_resolved s x none, some x) := by
  simp only [canonical_loop, hk, hc, hm, hn]
  cases hr : resolve_import s (some m) (some n) <;> simp

theorem set_import_resolved_kind (s : State) (a : Nat) (r : Option Nat) (b : Nat) :
    ((set_import_resolved s a r).heap b).kind = (s.heap b).kind := by
  by_cases h : b = a <;> simp [set_import_resolved, h]

theorem set_import_resolved_none (s : State) (a : Nat)
    (hc : (s.heap a).import_resolved = none) : set_import_resolved s a none = s := by
  cases s with
  | mk se ee ve heap =>
    simp only [set_import_resolved, State.mk.injEq, true_and]
    funext b
    by_cases h : b = a
    · subst h
      simp only [if_true]
      simp only at hc
      rw [← hc]
    · simp [h]

theorem resolve_import_of_lookup_struct (s : State) (m n : List Char) (t : Nat)
    (h : module_registry_lookup_struct s (some m) (some n) = some t) :
    resolve_import s (some m) (some n) = some t := by
  simp [resolve_import, h]

theorem resolve_import_of_lookup_enum (s : State) (m n : List Char) (t : Nat)
    (hs : module_registry_lookup_struct s (some m) (some n) = none)
    (h : module_registry_lookup_enum s (some m) (some n) = some t) :
    resolve_import s (some m) (some n) = some t := by
  simp [resolve_import, hs, h]

theorem canonical_loop_resolve_to (fuel : Nat) (s : State) (x : Nat) (m n : List Char) (t : Nat)
    (hk : (s.heap x).kind = TypeKind.TY_IMPORT) (hc : (s.heap x).import_resolved = none)
    (hm : (s.heap x).import_module = some m) (hn : (s.heap x).import_type_name = some n)
    (hr : resolve_import s (some m) (some n) = some t)
    (ht : (s.heap t).kind ≠ TypeKind.TY_IMPORT) :
    canonical_loop (fuel + 1) s (some x) = some (set_import_resolved s x (some t), some t) := by
  rw [canonical_loop_resolve fuel s x m n hk hc hm hn, hr]
  exact canonical_loop_non_import fuel _ t (by rw [set_import_resolved_kind]; exact ht)

theorem canonical_loop_unresolved (fuel : Nat) (s : State) (x : Nat) (m n : List Char)
    (hk : (s.heap x).kind = TypeKind.TY_IMPORT) (hc : (s.heap x).import_resolved = none)
    (hm : (s.heap x).import_module = some m) (hn : (s.heap x).import_type_name = some n)
    (hr : resolve_import s (some m) (some n) = none) :
    canonical_loop (fuel + 1) s (some x) = some (s, some x) := by
  rw [canonical_loop_resolve fuel s x m n hk hc hm hn, hr]
  simp only [set_import_resolved_none s x hc]

theorem canonical_loop_no_module (fuel : Nat) (s : State) (x : Nat)
    (hk : (s.heap x).kind = TypeKind.TY_IMPORT) (hc : (s.heap x).import_resolved = none)
    (hm : (s.heap x).import_module = none) :
    canonical_loop (fuel + 1) s (some x) = some (s, some x) := by
  simp [canonical_loop, hk, hc, hm]

theorem mem_rows_named (n : List Char) (es : List StructEntry) (e : StructEntry) :
    e ∈ rows_named n es ↔ e ∈ es ∧ e.name = some n := by
  simp [rows_named, List.mem_filter, match_strings_some_iff]

theorem resolve_import_unique_name (s : State) (m n : List Char) (e : StructEntry) (t : Nat)
    (hone : rows_named n s.struct_entries = [e]) (ht : e.type = some t)
    (hen : rows_named n s.enum_entries = []) :
    resolve_import s (some m) (some n) = some t := by
  cases hs : module_registry_lookup_struct s (some m) (some n) with
  | some t' =>
    obtain ⟨e', he', _, hn', ht'⟩ := lookup_entry_some_mem m n t' s.struct_entries hs
    have hmem : e' ∈ rows_named n s.struct_entries := (mem_rows_named n _ e').2 ⟨he', hn'⟩
    rw [hone, List.mem_singleton] at hmem
    subst hmem
    rw [resolve_import_of_lookup_struct s m n t' hs, ← ht, ht']
  | none =>
    cases hl : module_registry_lookup_enum s (some m) (some n) with
    | some t' =>
      obtain ⟨e', he', _, hn', _⟩ := lookup_entry_some_mem m n t' s.enum_entries hl
      have hmem : e' ∈ rows_named n s.enum_entries := (mem_rows_named n _ e').2 ⟨he', hn'⟩
      rw [hen] at hmem
      simp at hmem
    | none =>
      rw [resolve_import_fallback s m n hs hl, hone]
      simp [sole_payload, ht]

theorem rows_qualified_eq (m n : List Char) (es : List StructEntry) :
    rows_qualified m n es
      = (rows_named n es).filter (fun e => module_name_matches e.module_full (some m)) := by
  simp [rows_qualified, rows_named, List.filter_filter, Bool.and_comm]

theorem module_name_matches_self (m : List Char) :
    module_name_matches (some m) (some m) = true := by
  simp [module_name_matches]

theorem upsert_entry_append (m n : Option (List Char)) (t : Option Nat) :
    ∀ es : List StructEntry,
      (∀ e ∈ es, ¬ (match_strings e.module_full m && match_strings e.name n) = true) →
      upsert_entry m n t es = es ++ [{ module_full := m, name := n, type := t }] := by
  intro es
  induction es with
  | nil => intro _; rfl
  | cons x xs ih =>
    intro h
    have hx := h x (List.mem_cons_self _ _)
    have hx2 : (match_strings x.module_full m && match_strings x.name n) = false := by
      simpa using hx
    simp only [upsert_entry, hx2, List.cons_append]
    rw [ih (fun e he => h e (List.mem_cons_of_mem _ he))]
    simp

theorem rows_named_register_new (s : State) (P N : List Char) (T : Nat)
    (hname : (s.heap T).struct_name = some N)
    (hns : rows_named N s.struct_entries = []) :
    rows_named N (module_registry_register_struct s (some P) (some T)).struct_entries
      = [{ module_full := some P, name := some N, type := some T }] := by
  have hno : ∀ e ∈ s.struct_entries,
      ¬ (match_strings e.module_full (some P) && match_strings e.name (some N)) = true := by
    intro e he hm
    simp only [Bool.and_eq_true, match_strings_some_iff] at hm
    have hmem : e ∈ rows_named N s.struct_entries := (mem_rows_named N _ e).2 ⟨he, hm.2⟩
    rw [hns] at hmem
    simp at hmem
  simp only [module_registry_register_struct, hname]
  rw [upsert_entry_append (some P) (some N) (some T) s.struct_entries hno]
  unfold rows_named at hns ⊢
  rw [List.filter_append, hns]
  simp [List.filter, match_strings_self]

theorem canonical_loop_follow (s : State) :
    ∀ (k x y fuel : Nat), follow_caches s k x = some y →
      canonical_loop (fuel + k) s (some x) = canonical_loop fuel s (some y) := by
  intro k
  induction k with
  | zero =>
    intro x y fuel h
    simp only [follow_caches, Option.some.injEq] at h
    subst h
    rfl
  | succ k ih =>
    intro x y fuel h
    by_cases hk : (s.heap x).kind = TypeKind.TY_IMPORT
    · cases hc : (s.heap x).import_resolved with
      | none => simp [follow_caches, hk, hc] at h
      | some r =>
        simp only [follow_caches, hk, hc, if_true] at h
        rw [← Nat.add_assoc, canonical_loop_cache (fuel + k) s x r hk hc]
        exact ih r y fuel h
    · simp [follow_caches, hk] at h

theorem lookup_entry_none_no_key (m n : List Char) :
    ∀ es : List StructEntry, lookup_entry (some m) (some n) es = none →
      (∀ e ∈ es, e.type ≠ none) →
      ∀ e ∈ es, ¬ (e.module_full = some m ∧ e.name = some n) := by
  intro es
  induction es with
  | nil => intro _ _ e he; simp at he
  | cons x xs ih =>
    intro h hp e he
    by_cases hx : (match_strings x.module_full (some m) && match_strings x.name (some n)) = true
    · simp only [lookup_entry, hx, if_true] at h
      exact absurd h (hp x (List.mem_cons_self _ _))
    · simp only [lookup_entry, hx, if_false] at h
      rcases List.mem_cons.mp he with hex | hex
      · subst hex
        simpa [match_strings_some_iff] using hx
      · exact ih h (fun e' he' => hp e' (List.mem_cons_of_mem _ he')) e hex

theorem sole_payload_ne_none (l es : List StructEntry) (hsub : ∀ e ∈ l, e ∈ es)
    (hp : ∀ e ∈ es, e.type ≠ none) (hlen : l.length = 1) : sole_payload l ≠ none := by
  rcases l with _ | ⟨a, _ | ⟨b, l⟩⟩
  · simp at hlen
  · simpa [sole_payload] using hp a (hsub a (List.mem_cons_self _ _))
  · simp at hlen

theorem no_rule_of_resolve_none (s : State) (m n : List Char) (hp : payloads_non_null s)
    (h : resolve_import s (some m) (some n) = none) : no_rule_applies s m n := by
  have hs : module_registry_lookup_struct s (some m) (some n) = none := by
    cases hl : module_registry_lookup_struct s (some m) (some n) with
    | none => rfl
    | some t => rw [resolve_import_of_lookup_struct s m n t hl] at h; exact absurd h (by simp)
  have he : module_registry_lookup_enum s (some m) (some n) = none := by
    cases hl : module_registry_lookup_enum s (some m) (some n) with
    | none => rfl
    | some t => rw [resolve_import_of_lookup_enum s m n t hs hl] at h; exact absurd h (by simp)
  rw [resolve_import_fallback s m n hs he] at h
  refine ⟨lookup_entry_none_no_key m n _ hs hp.1, lookup_entry_none_no_key m n _ he hp.2, ?_, ?_⟩
  · intro hlen
    rw [if_pos hlen] at h
    exact sole_payload_ne_none _ s.struct_entries
      (fun e he' => (List.mem_filter.mp he').1) hp.1 hlen h
  · intro hlen
    by_cases h1 : (rows_named n s.struct_entries).length = 1
    · rw [if_pos h1] at h
      exact sole_payload_ne_none _ s.struct_entries
        (fun e he' => (List.mem_filter.mp he').1) hp.1 h1 h
    · rw [if_neg h1, if_pos hlen] at h
      exact sole_payload_ne_none _ s.struct_entries
        (fun e he' => (List.mem_filter.mp he').1) hp.1 hlen h

theorem canonical_loop_tables :
    ∀ (fuel : Nat) (s s' : State) (t r : Option Nat),
      canonical_loop fuel s t = some (s', r) →
      s'.struct_entries = s.struct_entries ∧ s'.enum_entries = s.enum_entries
        ∧ s'.enum_value_entries = s.enum_value_entries := by
  intro fuel
  induction fuel with
  | zero =>
    intro s s' t r h
    cases t with
    | none => simp [canonical_loop] at h; rw [← h.1]; exact ⟨rfl, rfl, rfl⟩
    | some a =>
      by_cases hk : (s.heap a).kind = TypeKind.TY_IMPORT
      · simp [canonical_loop, hk] at h
      · simp [canonical_loop, hk] at h; rw [← h.1]; exact ⟨rfl, rfl, rfl⟩
  | succ fuel ih =>
    intro s s' t r h
    cases t with
    | none => simp [canonical_loop] at h; rw [← h.1]; exact ⟨rfl, rfl, rfl⟩
    | some a =>
      by_cases hk : (s.heap a).kind = TypeKind.TY_IMPORT
      · cases hc : (s.heap a).import_resolved with
        | some r0 =>
          rw [canonical_loop_cache fuel s a r0 hk hc] at h
          exact ih s s' _ r h
        | none =>
          cases hm : (s.heap a).import_module with
          | none =>
            rw [canonical_loop_no_module fuel s a hk hc hm] at h
            simp at h; rw [← h.1]; exact ⟨rfl, rfl, rfl⟩
          | some m =>
            cases hn : (s.heap a).import_type_name with
            | none =>
              simp [canonical_loop, hk, hc, hm, hn] at h
              rw [← h.1]; exact ⟨rfl, rfl, rfl⟩
            | some n =>
              rw [canonical_loop_resolve fuel s a m n hk hc hm hn] at h
              cases hr : resolve_import s (some m) (some n) with
              | none =>
                rw [hr] at h
                simp at h; rw [← h.1]; exact ⟨rfl, rfl, rfl⟩
              | some r0 =>
                rw [hr] at h
                exact ih (set_import_resolved s a (some r0)) s' (some r0) r h
      · rw [canonical_loop_non_import (fuel + 1) s a hk] at h
        simp at h; rw [← h.1]; exact ⟨rfl, rfl, rfl⟩

theorem canonical_loop_null (fuel : Nat) (s : State) :
    canonical_loop fuel s none = some (s, none) := by
  cases fuel <;> rfl

/-- A result obtained within some bound is the result within every larger
bound. -/
theorem canonical_loop_mono :
    ∀ (fuel : Nat) (s : State) (t : Option Nat) (res : State × Option Nat),
      canonical_loop fuel s t = some res →
      ∀ k : Nat, canonical_loop (fuel + k) s t = some res := by
  intro fuel
  induction fuel with
  | zero =>
    intro s t res h k
    cases t with
    | none => rw [canonical_loop_null] at h ⊢; exact h
    | some a =>
      by_cases hk : (s.heap a).kind = TypeKind.TY_IMPORT
      · simp [canonical_loop, hk] at h
      · rw [canonical_loop_non_import _ s a hk] at h ⊢; exact h
  | succ fuel ih =>
    intro s t res h k
    cases t with
    | none => rw [canonical_loop_null] at h ⊢; exact h
    | some a =>
      by_cases hk : (s.heap a).kind = TypeKind.TY_IMPORT
      · have hfk : fuel + 1 + k = (fuel + k) + 1 := by omega
        rw [hfk]
        cases hc : (s.heap a).import_resolved with
        | some r0 =>
          rw [canonical_loop_cache fuel s a r0 hk hc] at h
          rw [canonical_loop_cache (fuel + k) s a r0 hk hc]
          exact ih s (some r0) res h k
        | none =>
          cases hm : (s.heap a).import_module with
          | none =>
            rw [canonical_loop_no_module fuel s a hk hc hm] at h
            rw [canonical_loop_no_module (fuel + k) s a hk hc hm]
            exact h
          | some m =>
            cases hn : (s.heap a).import_type_name with
            | none =>
              simp only [canonical_loop, hk, hc, hm, hn] at h ⊢
              exact h
            | some n =>
              rw [canonical_loop_resolve fuel s a m n hk hc hm hn] at h
              rw [canonical_loop_resolve (fuel + k) s a m n hk hc hm hn]
              cases hr : resolve_import s (some m) (some n) with
              | none => rw [hr] at h; exact h
              | some r0 =>
                rw [hr] at h
                exact ih (set_import_resolved s a (some r0)) (some r0) res h k
      · rw [canonical_loop_non_import _ s a hk] at h ⊢; exact h

/-- What `canonical_loop` hands back, in terms of the state after the call. -/
theorem canonical_loop_result :
    ∀ (fuel : Nat) (s s' : State) (t : Nat) (r : Option Nat),
      canonical_loop fuel s (some t) = some (s', r) →
      ∃ a : Nat, r = some a
        ∧ ((s'.heap a).kind ≠ TypeKind.TY_IMPORT
          ∨ ((s'.heap a).kind = TypeKind.TY_IMPORT ∧ (s'.heap a).import_resolved = none
            ∧ ((s'.heap a).import_module = none ∨ (s'.heap a).import_type_name = none
              ∨ ∃ M N : List Char, (s'.heap a).import_module = some M
                  ∧ (s'.heap a).import_type_name = some N
                  ∧ resolve_import s' (some M) (some N) = none))) := by
  intro fuel
  induction fuel with
  | zero =>
    intro s s' t r h
    by_cases hk : (s.heap t).kind = TypeKind.TY_IMPORT
    · simp [canonical_loop, hk] at h
    · simp [canonical_loop, hk] at h
      obtain ⟨h1, h2⟩ := h
      subst h1; subst h2
      exact ⟨t, rfl, Or.inl hk⟩
  | succ fuel ih =>
    intro s s' t r h
    by_cases hk : (s.heap t).kind = TypeKind.TY_IMPORT
    · cases hc : (s.heap t).import_resolved with
      | some r0 =>
        rw [canonical_loop_cache fuel s t r0 hk hc] at h
        exact ih s s' r0 r h
      | none =>
        cases hm : (s.heap t).import_module with
        | none =>
          rw [canonical_loop_no_module fuel s t hk hc hm] at h
          simp at h
          obtain ⟨h1, h2⟩ := h
          subst h1; subst h2
          exact ⟨t, rfl, Or.inr ⟨hk, hc, Or.inl hm⟩⟩
        | some m =>
          cases hn : (s.heap t).import_type_name with
          | none =>
            simp [canonical_loop, hk, hc, hm, hn] at h
            obtain ⟨h1, h2⟩ := h
            subst h1; subst h2
            exact ⟨t, rfl, Or.inr ⟨hk, hc, Or.inr (Or.inl hn)⟩⟩
          | some n =>
            rw [canonical_loop_resolve fuel s t m n hk hc hm hn] at h
            cases hr : resolve_import s (some m) (some n) with
            | none =>
              rw [hr] at h
              simp only [set_import_resolved_none s t hc, Option.some.injEq, Prod.mk.injEq] at h
              obtain ⟨h1, h2⟩ := h
              subst h1; subst h2
              exact ⟨t, rfl, Or.inr ⟨hk, hc, Or.inr (Or.inr ⟨m, n, hm, hn, hr⟩)⟩⟩
            | some r0 =>
              rw [hr] at h
              exact ih (set_import_resolved s t (some r0)) s' r0 r h
    · rw [canonical_loop_non_import (fuel + 1) s t hk] at h
      simp at h
      obtain ⟨h1, h2⟩ := h
      subst h1; subst h2
      exact ⟨t, rfl, Or.inl hk⟩

/-! ## Frame of the resolution loop -/

theorem sole_payload_some (l : List StructEntry) (t : Nat) (h : sole_payload l = some t) :
    ∃ e ∈ l, e.type = some t := by
  rcases l with _ | ⟨a, _ | ⟨b, l⟩⟩
  · simp [sole_payload] at h
  · exact ⟨a, List.mem_cons_self _ _, by simpa [sole_payload] using h⟩
  · simp [sole_payload] at h

theorem resolve_import_payload (s : State) (m n : List Char) (t : Nat)
    (h : resolve_import s (some m) (some n) = some t) : payload_in_tables s t := by
  cases hs : module_registry_lookup_struct s (some m) (some n) with
  | some t' =>
    rw [resolve_import_of_lookup_struct s m n t' hs] at h
    obtain ⟨e, he, _, _, ht⟩ := lookup_entry_some_mem m n t' s.struct_entries hs
    exact Or.inl ⟨e, he, by rw [ht, h]⟩
  | none =>
    cases hl : module_registry_lookup_enum s (some m) (some n) with
    | some t' =>
      rw [resolve_import_of_lookup_enum s m n t' hs hl] at h
      obtain ⟨e, he, _, _, ht⟩ := lookup_entry_some_mem m n t' s.enum_entries hl
      exact Or.inr ⟨e, he, by rw [ht, h]⟩
    | none =>
      rw [resolve_import_fallback s m n hs hl] at h
      by_cases h1 : (rows_named n s.struct_entries).length = 1
      · rw [if_pos h1] at h
        obtain ⟨e, he, ht⟩ := sole_payload_some _ t h
        exact Or.inl ⟨e, (List.mem_filter.mp he).1, ht⟩
      · rw [if_neg h1] at h
        by_cases h2 : (rows_qualified m n s.struct_entries).length = 1
        · rw [if_pos h2] at h
          obtain ⟨e, he, ht⟩ := sole_payload_some _ t h
          exact Or.inl ⟨e, (List.mem_filter.mp he).1, ht⟩
        · rw [if_neg h2] at h
          exact absurd h (by simp)

theorem node_frame_refl (s : State) (x : Nat) : node_frame s s x := Or.inl rfl

theorem node_frame_kind (s s' : State) (x : Nat) (h : node_frame s s' x) :
    (s'.heap x).kind = (s.heap x).kind := by
  rcases h with h | ⟨_, _, t, _, h⟩ <;> rw [h]

theorem node_frame_cache (s s' : State) (x y : Nat) (h : node_frame s s' x)
    (hc : (s.heap x).import_resolved = some y) : (s'.heap x).import_resolved = some y := by
  rcases h with h | ⟨_, hn, _⟩
  · rw [h]; exact hc
  · rw [hn] at hc; exact absurd hc (by simp)

theorem node_frame_set (s : State) (a t : Nat) (hk : (s.heap a).kind = TypeKind.TY_IMPORT)
    (hc : (s.heap a).import_resolved = none) (ht : payload_in_tables s t) (x : Nat) :
    node_frame s (set_import_resolved s a (some t)) x := by
  by_cases hx : x = a
  · subst hx
    exact Or.inr ⟨hk, hc, t, ht, by simp [set_import_resolved]⟩
  · exact Or.inl (by simp [set_import_resolved, hx])

/-- Two frames in a row, the tables being the same in between, make a frame. -/
theorem node_frame_trans (s s1 s' : State) (x : Nat)
    (hse : s1.struct_entries = s.struct_entries) (hee : s1.enum_entries = s.enum_entries)
    (h1 : node_frame s s1 x) (h2 : node_frame s1 s' x) : node_frame s s' x := by
  rcases h2 with h2 | ⟨hk2, hc2, t, ht, h2⟩
  · rcases h1 with h1 | ⟨hk1, hc1, t1, ht1, h1⟩
    · exact Or.inl (by rw [h2, h1])
    · exact Or.inr ⟨hk1, hc1, t1, ht1, by rw [h2, h1]⟩
  · rcases h1 with h1 | ⟨_, _, t1, _, h1⟩
    · rw [h1] at hk2 hc2 h2
      refine Or.inr ⟨hk2, hc2, t, ?_, h2⟩
      unfold payload_in_tables at ht ⊢
      rw [hse, hee] at ht
      exact ht
    · rw [h1] at hc2
      exact absurd hc2 (by simp)

/-- The frame of the loop: every node is as before the call, or was an Import
node with empty cache whose cache now holds a payload of the tables. -/
theorem canonical_loop_frame :
    ∀ (fuel : Nat) (s s' : State) (t r : Option Nat),
      canonical_loop fuel s t = some (s', r) → ∀ x : Nat, node_frame s s' x := by
  intro fuel
  induction fuel with
  | zero =>
    intro s s' t r h x
    cases t with
    | none =>
      rw [canonical_loop_null] at h
      simp only [Option.some.injEq, Prod.mk.injEq] at h
      rw [← h.1]; exact node_frame_refl s x
    | some a =>
      by_cases hk : (s.heap a).kind = TypeKind.TY_IMPORT
      · simp [canonical_loop, hk] at h
      · rw [canonical_loop_non_import 0 s a hk] at h
        simp only [Option.some.injEq, Prod.mk.injEq] at h
        rw [← h.1]; exact node_frame_refl s x
  | succ fuel ih =>
    intro s s' t r h x
    cases t with
    | none =>
      rw [canonical_loop_null] at h
      simp only [Option.some.injEq, Prod.mk.injEq] at h
      rw [← h.1]; exact node_frame_refl s x
    | some a =>
      by_cases hk : (s.heap a).kind = TypeKind.TY_IMPORT
      · cases hc : (s.heap a).import_resolved with
        | some r0 =>
          rw [canonical_loop_cache fuel s a r0 hk hc] at h
          exact ih s s' (some r0) r h x
        | none =>
          cases hm : (s.heap a).import_module with
          | none =>
            rw [canonical_loop_no_module fuel s a hk hc hm] at h
            simp only [Option.some.injEq, Prod.mk.injEq] at h
            rw [← h.1]; exact node_frame_refl s x
          | some m =>
            cases hn : (s.heap a).import_type_name with
            | none =>
              simp only [canonical_loop, hk, hc, hm, hn] at h
              simp at h
              rw [← h.1]; exact node_frame_refl s x
            | some n =>
              rw [canonical_loop_resolve fuel s a m n hk hc hm hn] at h
              cases hr : resolve_import s (some m) (some n) with
              | none =>
                rw [hr] at h
                simp only [set_import_resolved_none s a hc, Option.some.injEq,
                  Prod.mk.injEq] at h
                rw [← h.1]; exact node_frame_refl s x
              | some r0 =>
                rw [hr] at h
                have h2 := ih (set_import_resolved s a (some r0)) s' (some r0) r h x
                have h1 := node_frame_set s a r0 hk hc (resolve_import_payload s m n r0 hr) x
                exact node_frame_trans s (set_import_resolved s a (some r0)) s' x rfl rfl h1 h2
      · rw [canonical_loop_non_import (fuel + 1) s a hk] at h
        simp only [Option.some.injEq, Prod.mk.injEq] at h
        rw [← h.1]; exact node_frame_refl s x

/-- Every row of the struct table of a reachable state has its module path. -/
theorem reachable_modules_present (s : State) (h : Reachable s) :
    ∀ e ∈ s.struct_entries, e.module_full ≠ none := by
  induction h with
  | empty heap => intro e he; simp at he
  | register_struct s m t _ ih =>
    cases m with
    | none => exact ih
    | some m =>
      cases t with
      | none => exact ih
      | some t => exact upsert_entry_modules_present m _ _ _ ih
  | register_enum s m n t _ ih =>
    cases m with
    | none => exact ih
    | some m =>
      cases n with
      | none => exact ih
      | some n => cases t <;> exact ih
  | register_enum_value s m e v x _ ih =>
    cases m with
    | none => exact ih
    | some m =>
      cases e with
      | none => exact ih
      | some e => cases v <;> exact ih
  | canonical_type s s' fuel ty r _ hcall ih =>
    cases ty with
    | none =>
      simp only [module_registry_canonical_type, Option.some.injEq, Prod.mk.injEq] at hcall
      rw [← hcall.1]; exact ih
    | some a =>
      obtain ⟨h1, _, _⟩ := canonical_loop_tables fuel s s' (some a) r hcall
      rw [h1]; exact ih
  | reset s _ _ => intro e he; simp [module_registry_reset] at he
  | heap_change s heap _ ih => exact ih

theorem register_struct_heap (s : State) (m : Option (List Char)) (t : Option Nat) :
    (module_registry_register_struct s m t).heap = s.heap := by
  cases m <;> cases t <;> rfl

theorem register_enum_heap (s : State) (m n : Option (List Char)) (t : Option Nat) :
    (module_registry_register_enum s m n t).heap = s.heap := by
  cases m <;> cases n <;> cases t <;> rfl

theorem register_enum_value_heap (s : State) (m e v : Option (List Char)) (x : Int) :
    (module_registry_register_enum_value s m e v x).heap = s.heap := by
  cases m <;> cases e <;> cases v <;> rfl

theorem canonical_type_node_frame (fuel : Nat) (s s' : State) (ty r : Option Nat)
    (h : module_registry_canonical_type fuel s ty = some (s', r)) (x : Nat) :
    node_frame s s' x := by
  cases ty with
  | none =>
    simp only [module_registry_canonical_type, Option.some.injEq, Prod.mk.injEq] at h
    rw [← h.1]; exact node_frame_refl s x
  | some a => exact canonical_loop_frame fuel s s' (some a) r h x

/-- Along a run of registry operations no node changes its kind and no filled
cache changes. -/
theorem steps_heap (s s' : State) (h : Steps s s') (x : Nat) :
    (s'.heap x).kind = (s.heap x).kind
    ∧ ∀ y : Nat, (s.heap x).import_resolved = some y → (s'.heap x).import_resolved = some y := by
  induction h with
  | refl => exact ⟨rfl, fun _ hy => hy⟩
  | register_struct s' m t _ ih => rw [register_struct_heap]; exact ih
  | register_enum s' m n t _ ih => rw [register_enum_heap]; exact ih
  | register_enum_value s' m e v v0 _ ih => rw [register_enum_value_heap]; exact ih
  | canonical_type s' s'' fuel ty r _ hcall ih =>
    have hf := canonical_type_node_frame fuel s' s'' ty r hcall x
    exact ⟨(node_frame_kind s' s'' x hf).trans ih.1,
      fun y hy => node_frame_cache s' s'' x y hf (ih.2 y hy)⟩
  | reset s' _ ih => exact ih

theorem mem_upsert_entry_payload (m n : Option (List Char)) (t : Option Nat) :
    ∀ (es : List StructEntry) (b : StructEntry), b ∈ upsert_entry m n t es →
      b.type = t ∨ b ∈ es := by
  intro es
  induction es with
  | nil =>
    intro b hb
    simp only [upsert_entry, List.mem_singleton] at hb
    exact Or.inl (by rw [hb])
  | cons x xs ih =>
    intro b hb
    by_cases hx : (match_strings x.module_full m && match_strings x.name n) = true
    · simp only [upsert_entry, hx, if_true, List.mem_cons] at hb
      rcases hb with hb | hb
      · exact Or.inl (by rw [hb])
      · exact Or.inr (List.mem_cons_of_mem _ hb)
    · have hx2 : (match_strings x.module_full m && match_strings x.name n) = false := by
        simpa using hx
      simp only [upsert_entry, hx2, Bool.false_eq_true, if_false, List.mem_cons] at hb
      rcases hb with hb | hb
      · exact Or.inr (by rw [hb]; exact List.mem_cons_self _ _)
      · rcases ih b hb with h | h
        · exact Or.inl h
        · exact Or.inr (List.mem_cons_of_mem _ h)

theorem canonical_loop_self_cycle (s : State) (x : Nat)
    (hk : (s.heap x).kind = TypeKind.TY_IMPORT) (hc : (s.heap x).import_resolved = some x) :
    ∀ fuel : Nat, canonical_loop fuel s (some x) = none := by
  intro fuel
  induction fuel with
  | zero => simp [canonical_loop, hk]
  | succ fuel ih => rw [canonical_loop_cache fuel s x x hk hc]; exact ih

/-- In a run that registers no Import node, every filled cache sits on an
Import node and holds a node that is not one, and no table row has an Import
node as payload. -/
theorem clean_run_invariant (s : State) (h : CleanRun s) :
    (∀ x t : Nat, (s.heap x).import_resolved = some t →
        (s.heap x).kind = TypeKind.TY_IMPORT ∧ (s.heap t).kind ≠ TypeKind.TY_IMPORT)
    ∧ (∀ t : Nat, payload_in_tables s t → (s.heap t).kind ≠ TypeKind.TY_IMPORT) := by
  induction h with
  | start heap h0 =>
    constructor
    · intro x t hx; rw [h0 x] at hx; exact absurd hx (by simp)
    · intro t ht
      rcases ht with ⟨e, he, _⟩ | ⟨e, he, _⟩ <;> simp at he
  | register_struct s m t _ hkind ih =>
    cases m with
    | none => exact ih
    | some m =>
      cases t with
      | none => exact ih
      | some t0 =>
        refine ⟨ih.1, ?_⟩
        intro t ht
        rcases ht with ⟨e, he, het⟩ | ⟨e, he, het⟩
        · rcases mem_upsert_entry_payload _ _ _ _ e he with h1 | h1
          · rw [het] at h1
            exact hkind t h1.symm
          · exact ih.2 t (Or.inl ⟨e, h1, het⟩)
        · exact ih.2 t (Or.inr ⟨e, he, het⟩)
  | register_enum s m n t _ hkind ih =>
    cases m with
    | none => exact ih
    | some m =>
      cases n with
      | none => exact ih
      | some n =>
        cases t with
        | none => exact ih
        | some t0 =>
          refine ⟨ih.1, ?_⟩
          intro t ht
          rcases ht with ⟨e, he, het⟩ | ⟨e, he, het⟩
          · exact ih.2 t (Or.inl ⟨e, he, het⟩)
          · rcases mem_upsert_entry_payload _ _ _ _ e he with h1 | h1
            · rw [het] at h1
              exact hkind t h1.symm
            · exact ih.2 t (Or.inr ⟨e, h1, het⟩)
  | register_enum_value s m e v x _ ih =>
    cases m with
    | none => exact ih
    | some m =>
      cases e with
      | none => exact ih
      | some e => cases v <;> exact ih
  | canonical_type s s' fuel ty r _ hcall ih =>
    have hkinds : ∀ y, (s'.heap y).kind = (s.heap y).kind := fun y =>
      node_frame_kind s s' y (canonical_type_node_frame fuel s s' ty r hcall y)
    have htab : ∀ t, payload_in_tables s' t → payload_in_tables s t := by
      intro t ht
      cases ty with
      | none =>
        simp only [module_registry_canonical_type, Option.some.injEq, Prod.mk.injEq] at hcall
        rw [hcall.1]; exact ht
      | some a =>
        obtain ⟨h1, h2, _⟩ := canonical_loop_tables fuel s s' (some a) r hcall
        unfold payload_in_tables at ht ⊢
        rw [h1, h2] at ht
        exact ht
    constructor
    · intro x t hx
      rcases canonical_type_node_frame fuel s s' ty r hcall x with hf | ⟨hk, _, t', ht', hf⟩
      · rw [hf] at hx
        rw [hkinds x, hkinds t]
        exact ih.1 x t hx
      · rw [hf] at hx
        simp only [Option.some.injEq] at hx
        rw [hkinds x, hkinds t, ← hx]
        exact ⟨hk, ih.2 t' ht'⟩
    · intro t ht
      rw [hkinds t]
      exact ih.2 t (htab t ht)
  | reset s _ ih =>
    refine ⟨ih.1, ?_⟩
    intro t ht
    rcases ht with ⟨e, he, _⟩ | ⟨e, he, _⟩ <;> simp [module_registry_reset] at he

theorem cycle_heap_caches_empty : ∀ x : Nat, (cycle_heap x).import_resolved = none := by
  intro x
  unfold cycle_heap
  split
  · rfl
  · split <;> rfl

/-- A second run of the loop on the same input, in the state the first run left,
gives the same result and leaves that state as it is. -/
theorem canonical_loop_repeat :
    ∀ (fuel : Nat) (s s' : State) (t r : Option Nat),
      canonical_loop fuel s t = some (s', r) → canonical_loop fuel s' t = some (s', r) := by
  intro fuel
  induction fuel with
  | zero =>
    intro s s' t r h
    cases t with
    | none =>
      rw [canonical_loop_null] at h ⊢
      simp only [Option.some.injEq, Prod.mk.injEq] at h
      rw [← h.1, ← h.2]
    | some a =>
      by_cases hk : (s.heap a).kind = TypeKind.TY_IMPORT
      · simp [canonical_loop, hk] at h
      · rw [canonical_loop_non_import 0 s a hk] at h
        simp only [Option.some.injEq, Prod.mk.injEq] at h
        rw [← h.1, ← h.2]
        exact canonical_loop_non_import 0 s a hk
  | succ fuel ih =>
    intro s s' t r h
    cases t with
    | none =>
      rw [canonical_loop_null] at h ⊢
      simp only [Option.some.injEq, Prod.mk.injEq] at h
      rw [← h.1, ← h.2]
    | some a =>
      by_cases hk : (s.heap a).kind = TypeKind.TY_IMPORT
      · cases hc : (s.heap a).import_resolved with
        | some r0 =>
          rw [canonical_loop_cache fuel s a r0 hk hc] at h
          have hf := canonical_loop_frame fuel s s' (some r0) r h a
          rw [canonical_loop_cache fuel s' a r0
            (by rw [node_frame_kind s s' a hf]; exact hk)
            (node_frame_cache s s' a r0 hf hc)]
          exact ih s s' (some r0) r h
        | none =>
          cases hm : (s.heap a).import_module with
          | none =>
            have h0 := h
            rw [canonical_loop_no_module fuel s a hk hc hm] at h
            simp only [Option.some.injEq, Prod.mk.injEq] at h
            rw [← h.1] at h0 ⊢
            exact h0
          | some m =>
            cases hn : (s.heap a).import_type_name with
            | none =>
              have h0 := h
              simp only [canonical_loop, hk, hc, hm, hn] at h
              simp at h
              rw [← h.1] at h0 ⊢
              exact h0
            | some n =>
              have h0 := h
              rw [canonical_loop_resolve fuel s a m n hk hc hm hn] at h
              cases hr : resolve_import s (some m) (some n) with
              | none =>
                rw [hr] at h
                simp only [set_import_resolved_none s a hc, Option.some.injEq,
                  Prod.mk.injEq] at h
                rw [← h.1] at h0 ⊢
                exact h0
              | some r0 =>
                rw [hr] at h
                have hf := canonical_loop_frame fuel (set_import_resolved s a (some r0)) s'
                  (some r0) r h a
                rw [canonical_loop_cache fuel s' a r0
                  (by rw [node_frame_kind _ s' a hf, set_import_resolved_kind]; exact hk)
                  (node_frame_cache _ s' a r0 hf (by simp [set_import_resolved]))]
                exact ih (set_import_resolved s a (some r0)) s' (some r0) r h
      · rw [canonical_loop_non_import (fuel + 1) s a hk] at h
        simp only [Option.some.injEq, Prod.mk.injEq] at h
        rw [← h.1, ← h.2]
        exact canonical_loop_non_import (fuel + 1) s a hk

/-- The node the loop hands back is a fixed point of the loop, in the state the
loop left. -/
theorem canonical_loop_fixed (fuel : Nat) (s s' : State) (t r : Option Nat)
    (h : canonical_loop fuel s t = some (s', r)) :
    canonical_loop fuel s' r = some (s', r) := by
  cases t with
  | none =>
    rw [canonical_loop_null] at h
    simp only [Option.some.injEq, Prod.mk.injEq] at h
    rw [← h.2]; exact canonical_loop_null fuel s'
  | some t =>
    obtain ⟨a, ha, hres⟩ := canonical_loop_result fuel s s' t r h
    subst ha
    rcases hres with hni | ⟨hk, hc, hrest⟩
    · exact canonical_loop_non_import fuel s' a hni
    · cases fuel with
      | zero =>
        by_cases hkt : (s.heap t).kind = TypeKind.TY_IMPORT
        · simp [canonical_loop, hkt] at h
        · rw [canonical_loop_non_import 0 s t hkt] at h
          simp only [Option.some.injEq, Prod.mk.injEq] at h
          rw [← h.1, ← h.2] at hk
          exact absurd hk hkt
      | succ fuel =>
        rcases hrest with hm | hn | ⟨M, N, hM, hN, hr⟩
        · exact canonical_loop_no_module fuel s' a hk hc hm
        · simp [canonical_loop, hk, hc, hn]
        · exact canonical_loop_unresolved fuel s' a M N hk hc hM hN hr

/-! ## Lemmas on what a registration leaves alone -/

theorem lookup_upsert_entry_other (m n m2 n2 : List Char) (hne : ¬ (m2 = m ∧ n2 = n))
    (t : Option Nat) (es : List StructEntry) :
    lookup_entry (some m2) (some n2) (upsert_entry (some m) (some n) t es)
      = lookup_entry (some m2) (some n2) es := by
  induction es with
  | nil =>
    have h0 : (match_strings (some m) (some m2) && match_strings (some n) (some n2)) = false := by
      rw [Bool.eq_false_iff]
      intro h
      simp only [Bool.and_eq_true, match_strings_some_iff, Option.some.injEq] at h
      exact hne ⟨h.1.symm, h.2.symm⟩
    simp [upsert_entry, lookup_entry, h0]
  | cons x xs ih =>
    by_cases hx : (match_strings x.module_full (some m) && match_strings x.name (some n)) = true
    · have hx2 : (match_strings x.module_full (some m2) && match_strings x.name (some n2))
          = false := by
        rw [Bool.eq_false_iff]
        intro h
        simp only [Bool.and_eq_true, match_strings_some_iff] at hx h
        rw [hx.1] at h
        rw [hx.2] at h
        simp only [Option.some.injEq] at h
        exact hne ⟨h.1.symm, h.2.symm⟩
      simp [upsert_entry, hx, lookup_entry, hx2]
    · have hx3 : (match_strings x.module_full (some m) && match_strings x.name (some n))
          = false := by simpa using hx
      simp only [upsert_entry, hx3, Bool.false_eq_true, if_false, lookup_entry, ih]

theorem upsert_entry_keys_prefix (m n : Option (List Char)) (t : Option Nat)
    (es : List StructEntry) :
    ((upsert_entry m n t es).map (fun e => (e.module_full, e.name))).take es.length
      = es.map (fun e => (e.module_full, e.name)) := by
  induction es with
  | nil => simp
  | cons x xs ih =>
    by_cases hx : (match_strings x.module_full m && match_strings x.name n) = true
    · simp [upsert_entry, hx]
    · have hx2 : (match_strings x.module_full m && match_strings x.name n) = false := by
        simpa using hx
      simp only [upsert_entry, hx2, Bool.false_eq_true, if_false, List.map_cons,
        List.length_cons, List.take_succ_cons, ih]

theorem upsert_entry_length_present (m n : List Char) (t : Option Nat) (es : List StructEntry)
    (h : ∃ e ∈ es, e.module_full = some m ∧ e.name = some n) :
    (upsert_entry (some m) (some n) t es).length = es.length := by
  induction es with
  | nil => obtain ⟨e, he, _⟩ := h; simp at he
  | cons x xs ih =>
    by_cases hx : (match_strings x.module_full (some m) && match_strings x.name (some n)) = true
    · simp [upsert_entry, hx]
    · have hx2 : (match_strings x.module_full (some m) && match_strings x.name (some n))
          = false := by simpa using hx
      simp only [upsert_entry, hx2, Bool.false_eq_true, if_false, List.length_cons,
        Nat.add_right_cancel_iff]
      apply ih
      obtain ⟨e, he, hem, hen⟩ := h
      rcases List.mem_cons.mp he with hex | hex
      · subst hex
        simp [match_strings_some_iff, hem, hen] at hx
      · exact ⟨e, hex, hem, hen⟩

theorem upsert_entry_length_new (m n : List Char) (t : Option Nat) (es : List StructEntry)
    (h : ¬ ∃ e ∈ es, e.module_full = some m ∧ e.name = some n) :
    upsert_entry (some m) (some n) t es
      = es ++ [{ module_full := some m, name := some n, type := t }] := by
  apply upsert_entry_append
  intro e he hm
  simp only [Bool.and_eq_true, match_strings_some_iff] at hm
  exact h ⟨e, he, hm.1, hm.2⟩

theorem lookup_upsert_enum_value_other (m e v m2 e2 v2 : List Char)
    (hne : ¬ (m2 = m ∧ e2 = e ∧ v2 = v)) (x : Int) (es : List EnumValueEntry) :
    lookup_enum_value_scan (some m2) (some e2) (some v2)
        (upsert_enum_value (some m) (some e) (some v) x es)
      = lookup_enum_value_scan (some m2) (some e2) (some v2) es := by
  induction es with
  | nil =>
    have h0 : (match_strings (some m) (some m2) && match_strings (some e) (some e2)
        && match_strings (some v) (some v2)) = false := by
      rw [Bool.eq_false_iff]
      intro h
      simp only [Bool.and_eq_true, match_strings_some_iff, Option.some.injEq] at h
      exact hne ⟨h.1.1.symm, h.1.2.symm, h.2.symm⟩
    simp [upsert_enum_value, lookup_enum_value_scan, h0]
  | cons r rs ih =>
    by_cases hr : (match_strings r.module_full (some m) && match_strings r.enum_name (some e)
        && match_strings r.value_name (some v)) = true
    · have hr2 : (match_strings r.module_full (some m2) && match_strings r.enum_name (some e2)
          && match_strings r.value_name (some v2)) = false := by
        rw [Bool.eq_false_iff]
        intro h
        simp only [Bool.and_eq_true, match_strings_some_iff] at hr h
        rw [hr.1.1, hr.1.2, hr.2] at h
        simp only [Option.some.injEq] at h
        exact hne ⟨h.1.1.symm, h.1.2.symm, h.2.symm⟩
      simp [upsert_enum_value, hr, lookup_enum_value_scan, hr2]
    · have hr3 : (match_strings r.module_full (some m) && match_strings r.enum_name (some e)
          && match_strings r.value_name (some v)) = false := by simpa using hr
      simp only [upsert_enum_value, hr3, Bool.false_eq_true, if_false,
        lookup_enum_value_scan, ih]

theorem upsert_enum_value_keys_prefix (m e v : Option (List Char)) (x : Int)
    (es : List EnumValueEntry) :
    ((upsert_enum_value m e v x es).map
        (fun r => (r.module_full, r.enum_name, r.value_name))).take es.length
      = es.map (fun r => (r.module_full, r.enum_name, r.value_name)) := by
  induction es with
  | nil => simp
  | cons r rs ih =>
    by_cases hr : (match_strings r.module_full m && match_strings r.enum_name e
        && match_strings r.value_name v) = true
    · simp [upsert_enum_value, hr]
    · have hr2 : (match_strings r.module_full m && match_strings r.enum_name e
          && match_strings r.value_name v) = false := by simpa using hr
      simp only [upsert_enum_value, hr2, Bool.false_eq_true, if_false, List.map_cons,
        List.length_cons, List.take_succ_cons, ih]

theorem upsert_enum_value_length (m e v : List Char) (x : Int) (es : List EnumValueEntry) :
    ((∃ r ∈ es, r.module_full = some m ∧ r.enum_name = some e ∧ r.value_name = some v) →
        (upsert_enum_value (some m) (some e) (some v) x es).length = es.length)
    ∧ ((¬ ∃ r ∈ es, r.module_full = some m ∧ r.enum_name = some e ∧ r.value_name = some v) →
        (upsert_enum_value (some m) (some e) (some v) x es).length = es.length + 1) := by
  induction es with
  | nil =>
    constructor
    · rintro ⟨r, hr, _⟩; simp at hr
    · intro _; simp [upsert_enum_value]
  | cons r rs ih =>
    by_cases hr : (match_strings r.module_full (some m) && match_strings r.enum_name (some e)
        && match_strings r.value_name (some v)) = true
    · constructor
      · intro _; simp [upsert_enum_value, hr]
      · intro hno
        simp only [Bool.and_eq_true, match_strings_some_iff] at hr
        exact absurd ⟨r, List.mem_cons_self _ _, hr.1.1, hr.1.2, hr.2⟩ hno
    · have hr2 : (match_strings r.module_full (some m) && match_strings r.enum_name (some e)
          && match_strings r.value_name (some v)) = false := by simpa using hr
      have hnot : ¬ (r.module_full = some m ∧ r.enum_name = some e ∧ r.value_name = some v) := by
        intro h
        apply hr
        simp [match_strings_some_iff, h.1, h.2.1, h.2.2]
      simp only [upsert_enum_value, hr2, Bool.false_eq_true, if_false, List.length_cons,
        Nat.add_right_cancel_iff]
      constructor
      · rintro ⟨r', hr', h3⟩
        apply ih.1
        rcases List.mem_cons.mp hr' with hex | hex
        · subst hex; exact absurd h3 hnot
        · exact ⟨r', hex, h3⟩
      · intro hno
        apply ih.2
        rintro ⟨r', hr', h3⟩
        exact hno ⟨r', List.mem_cons_of_mem _ hr', h3⟩

/-! ## Lemmas on `type_equals` -/

theorem type_equals_same (heap : Nat → Ty) (fuel : Nat) (a : Option Nat) :
    type_equals heap (fuel + 1) a a = some true := by
  simp [type_equals]

theorem type_equals_ptr_step (heap : Nat → Ty) (fuel x y : Nat) (hne : x ≠ y)
    (hx : (heap x).kind = TypeKind.TY_PTR) (hy : (heap y).kind = TypeKind.TY_PTR) :
    type_equals heap (fuel + 1) (some x) (some y)
      = type_equals heap fuel (heap x).pointee (heap y).pointee := by
  simp [type_equals, hne, hx, hy]

theorem type_equals_array_step (heap : Nat → Ty) (fuel x y : Nat) (hne : x ≠ y)
    (hx : (heap x).kind = TypeKind.TY_ARRAY) (hy : (heap y).kind = TypeKind.TY_ARRAY) :
    type_equals heap (fuel + 1) (some x) (some y)
      = if (heap x).array_length ≠ (heap y).array_length then some false
        else if (heap x).array_is_unsized ≠ (heap y).array_is_unsized then some false
        else type_equals heap fuel (heap x).array_elem (heap y).array_elem := by
  simp [type_equals, hne, hx, hy]

theorem type_equals_other_kind (heap : Nat → Ty) (fuel x y : Nat)
    (hk : (heap x).kind = (heap y).kind)
    (h1 : (heap x).kind ≠ TypeKind.TY_PTR) (h2 : (heap x).kind ≠ TypeKind.TY_ARRAY)
    (h3 : (heap x).kind ≠ TypeKind.TY_FUNC)
    (h4 : (heap x).kind ≠ TypeKind.TY_TEMPLATE_PARAM) :
    type_equals heap (fuel + 1) (some x) (some y) = some true := by
  by_cases hxy : x = y
  · subst hxy; exact type_equals_same heap fuel _
  · rw [hk] at h1 h2 h3 h4
    simp [type_equals, hxy, hk, h1, h2, h3, h4]

theorem params_loop_true (eq : Option Nat → Option Nat → Option Bool) (a b : Ty) :
    ∀ n i : Nat, params_loop eq a b n i = some true ↔
      ∀ j : Nat, j < n → ∃ ap bp : Option Nat,
        func_param a (i + j) = some ap ∧ func_param b (i + j) = some bp
          ∧ eq ap bp = some true := by
  intro n
  induction n with
  | zero => intro i; simp [params_loop]
  | succ n ih =>
    intro i
    constructor
    · intro h j hj
      cases ha : func_param a i with
      | none => simp [params_loop, ha] at h
      | some ap =>
        cases hb : func_param b i with
        | none => simp [params_loop, ha, hb] at h
        | some bp =>
          cases he : eq ap bp with
          | none => simp [params_loop, ha, hb, he] at h
          | some r =>
            cases r with
            | false => simp [params_loop, ha, hb, he] at h
            | true =>
              simp only [params_loop, ha, hb, he] at h
              cases j with
              | zero => exact ⟨ap, bp, ha, hb, he⟩
              | succ j =>
                have := (ih (i + 1)).mp h j (by omega)
                have hij : i + (j + 1) = i + 1 + j := by omega
                rw [hij]
                exact this
    · intro h
      obtain ⟨ap, bp, ha, hb, he⟩ := h 0 (by omega)
      simp only [Nat.add_zero] at ha hb
      simp only [params_loop, ha, hb, he]
      refine (ih (i + 1)).mpr ?_
      intro j hj
      have hij : i + 1 + j = i + (j + 1) := by omega
      rw [hij]
      exact h (j + 1) (by omega)

theorem params_loop_congr (eq : Option Nat → Option Nat → Option Bool) (a b a' b' : Ty)
    (ha : a.func_params = a'.func_params) (hb : b.func_params = b'.func_params) :
    ∀ n i : Nat, params_loop eq a b n i = params_loop eq a' b' n i := by
  intro n
  induction n with
  | zero => intro i; rfl
  | succ n ih =>
    intro i
    simp only [params_loop, func_param, ha, hb, ih]

/-- The result of `type_equals` depends only on the fields it reads: two heaps
whose nodes agree on those fields give the same results. -/
theorem type_equals_congr (h h' : Nat → Ty)
    (hagree : ∀ x, compared_fields (h x) = compared_fields (h' x)) :
    ∀ (fuel : Nat) (u v : Option Nat), type_equals h fuel u v = type_equals h' fuel u v := by
  have hkind : ∀ x, (h x).kind = (h' x).kind := fun x => by
    have hx := congrArg Ty.kind (hagree x); exact hx
  have hptr : ∀ x, (h x).pointee = (h' x).pointee := fun x => by
    have hx := congrArg Ty.pointee (hagree x); exact hx
  have helem : ∀ x, (h x).array_elem = (h' x).array_elem :=
    fun x => by
    have hx := congrArg Ty.array_elem (hagree x); exact hx
  have hlen : ∀ x, (h x).array_length = (h' x).array_length :=
    fun x => by
    have hx := congrArg Ty.array_length (hagree x); exact hx
  have huns : ∀ x, (h x).array_is_unsized = (h' x).array_is_unsized :=
    fun x => by
    have hx := congrArg Ty.array_is_unsized (hagree x); exact hx
  have hpar : ∀ x, (h x).func_params = (h' x).func_params :=
    fun x => by
    have hx := congrArg Ty.func_params (hagree x); exact hx
  have hcnt : ∀ x, (h x).func_param_count = (h' x).func_param_count :=
    fun x => by
    have hx := congrArg Ty.func_param_count (hagree x); exact hx
  have hret : ∀ x, (h x).func_ret = (h' x).func_ret := fun x => by
    have hx := congrArg Ty.func_ret (hagree x); exact hx
  have hvar : ∀ x, (h x).func_is_varargs = (h' x).func_is_varargs :=
    fun x => by
    have hx := congrArg Ty.func_is_varargs (hagree x); exact hx
  have hname : ∀ x, (h x).template_param_name = (h' x).template_param_name :=
    fun x => by
    have hx := congrArg Ty.template_param_name (hagree x); exact hx
  have hidx : ∀ x, (h x).template_param_index = (h' x).template_param_index :=
    fun x => by
    have hx := congrArg Ty.template_param_index (hagree x); exact hx
  intro fuel
  induction fuel with
  | zero => intro u v; rfl
  | succ fuel ih =>
    intro u v
    have ihf : type_equals h fuel = type_equals h' fuel :=
      funext fun a => funext fun b => ih a b
    cases u with
    | none => cases v <;> simp [type_equals]
    | some x =>
      cases v with
      | none => simp [type_equals]
      | some y =>
        simp only [type_equals, hkind, hptr, helem, hlen, huns, hcnt, hret, hvar, hname,
          hidx, ihf]
        rw [params_loop_congr (type_equals h' fuel) (h x) (h y) (h' x) (h' y) (hpar x) (hpar y)]

theorem type_equals_func_step (heap : Nat → Ty) (fuel x y : Nat) (hne : x ≠ y)
    (hx : (heap x).kind = TypeKind.TY_FUNC) (hy : (heap y).kind = TypeKind.TY_FUNC) :
    type_equals heap (fuel + 1) (some x) (some y)
      = if (heap x).func_ret.isSome ≠ (heap y).func_ret.isSome then some false
        else
          match (if (heap x).func_ret.isSome then
                  type_equals heap fuel (heap x).func_ret (heap y).func_ret
                else some true) with
          | none => none
          | some false => some false
          | some true =>
            if (heap x).func_param_count ≠ (heap y).func_param_count then some false
            else if (heap x).func_is_varargs ≠ (heap y).func_is_varargs then some false
            else
              params_loop (type_equals heap fuel) (heap x) (heap y)
                (heap x).func_param_count.toNat 0 := by
  simp [type_equals, hne, hx, hy]

theorem type_equals_template_step (heap : Nat → Ty) (fuel x y : Nat) (hne : x ≠ y)
    (hx : (heap x).kind = TypeKind.TY_TEMPLATE_PARAM)
    (hy : (heap y).kind = TypeKind.TY_TEMPLATE_PARAM) :
    type_equals heap (fuel + 1) (some x) (some y)
      = if (heap x).template_param_index ≠ (heap y).template_param_index then some false
        else if (heap x).template_param_name.isSome ≠ (heap y).template_param_name.isSome then
          some false
        else
          match (heap x).template_param_name, (heap y).template_param_name with
          | some na, some nb => if na ≠ nb then some false else some true
          | _, _ => some true := by
  simp [type_equals, hne, hx, hy]

/-! ## The last iteration of the resolution loop -/

theorem no_import_payloads_kind (s : State) (h : no_import_payloads s) (p : Nat)
    (hp : payload_in_tables s p) : (s.heap p).kind ≠ TypeKind.TY_IMPORT := by
  intro hk
  rcases hp with ⟨e, he, ht⟩ | ⟨e, he, ht⟩
  · exact h e (List.mem_append_left _ he) (by rw [ht]; simp [hk])
  · exact h e (List.mem_append_right _ he) (by rw [ht]; simp [hk])

/-- From a node that is not an Import node, or is one with empty cache, the loop
is over after one more iteration when no table row has an Import node as
payload. -/
theorem canonical_loop_stops (s : State) (u : Nat) (hp : no_import_payloads s)
    (hu : (s.heap u).kind ≠ TypeKind.TY_IMPORT ∨ (s.heap u).import_resolved = none) :
    ∃ (s' : State) (v : Nat), canonical_loop 1 s (some u) = some (s', some v) := by
  by_cases hk : (s.heap u).kind = TypeKind.TY_IMPORT
  · have hc : (s.heap u).import_resolved = none := hu.resolve_left (fun h => h hk)
    cases hm : (s.heap u).import_module with
    | none => exact ⟨s, u, canonical_loop_no_module 0 s u hk hc hm⟩
    | some m =>
      cases hn : (s.heap u).import_type_name with
      | none => exact ⟨s, u, by simp [canonical_loop, hk, hc, hm, hn]⟩
      | some n =>
        cases hr : resolve_import s (some m) (some n) with
        | none => exact ⟨s, u, canonical_loop_unresolved 0 s u m n hk hc hm hn hr⟩
        | some r =>
          exact ⟨_, r, canonical_loop_resolve_to 0 s u m n r hk hc hm hn hr
            (no_import_payloads_kind s hp r (resolve_import_payload s m n r hr))⟩
  · exact ⟨s, u, canonical_loop_non_import 1 s u hk⟩

/-! ## Symmetry, depth and transitivity of `type_equals` -/

theorem params_loop_symm (eq : Option Nat → Option Nat → Option Bool) (a b : Ty)
    (heq : ∀ p q, eq p q = eq q p) :
    ∀ n i : Nat, params_loop eq a b n i = params_loop eq b a n i := by
  intro n
  induction n with
  | zero => intro i; rfl
  | succ n ih =>
    intro i
    cases ha : func_param a i with
    | none => cases hb : func_param b i <;> simp [params_loop, ha, hb]
    | some ap =>
      cases hb : func_param b i with
      | none => simp [params_loop, ha, hb]
      | some bp =>
        simp only [params_loop, ha, hb, heq bp ap, ih]

theorem type_equals_symm (heap : Nat → Ty) :
    ∀ (fuel : Nat) (a b : Option Nat), type_equals heap fuel a b = type_equals heap fuel b a := by
  intro fuel
  induction fuel with
  | zero => intro a b; rfl
  | succ fuel ih =>
    intro a b
    by_cases hab : a = b
    · rw [hab]
    · have hba : ¬ b = a := fun h => hab h.symm
      cases a with
      | none =>
        cases b with
        | none => exact absurd rfl hab
        | some y => simp [type_equals]
      | some x =>
        cases b with
        | none => simp [type_equals]
        | some y =>
          have hxy : x ≠ y := fun h => hab (by rw [h])
          by_cases hk : (heap x).kind = (heap y).kind
          · by_cases h1 : (heap x).kind = TypeKind.TY_PTR
            · rw [type_equals_ptr_step heap fuel x y hxy h1 (hk ▸ h1),
                type_equals_ptr_step heap fuel y x (Ne.symm hxy) (hk ▸ h1) h1]
              exact ih _ _
            · by_cases h2 : (heap x).kind = TypeKind.TY_ARRAY
              · rw [type_equals_array_step heap fuel x y hxy h2 (hk ▸ h2),
                  type_equals_array_step heap fuel y x (Ne.symm hxy) (hk ▸ h2) h2,
                  ih (heap y).array_elem (heap x).array_elem]
                by_cases hl : (heap x).array_length = (heap y).array_length
                · by_cases hu : (heap x).array_is_unsized = (heap y).array_is_unsized
                  · simp [hl, hu]
                  · have hu2 : ¬ (heap y).array_is_unsized = (heap x).array_is_unsized :=
                      fun h => hu h.symm
                    simp [hl, hu, hu2]
                · have hl2 : ¬ (heap y).array_length = (heap x).array_length :=
                    fun h => hl h.symm
                  simp [hl, hl2]
              · by_cases h3 : (heap x).kind = TypeKind.TY_FUNC
                · rw [type_equals_func_step heap fuel x y hxy h3 (hk ▸ h3),
                    type_equals_func_step heap fuel y x (Ne.symm hxy) (hk ▸ h3) h3,
                    ih (heap y).func_ret (heap x).func_ret,
                    params_loop_symm (type_equals heap fuel) (heap y) (heap x) ih]
                  by_cases hr : (heap x).func_ret.isSome = (heap y).func_ret.isSome
                  · by_cases hc : (heap x).func_param_count = (heap y).func_param_count
                    · by_cases hv : (heap x).func_is_varargs = (heap y).func_is_varargs
                      · simp only [hr, hc, hv]
                      · have hv2 : ¬ (heap y).func_is_varargs = (heap x).func_is_varargs :=
                          fun h => hv h.symm
                        simp only [hr, hc, ne_eq, hv, hv2, not_true_eq_false, not_false_eq_true,
                          if_true, if_false]
                    · have hc2 : ¬ (heap y).func_param_count = (heap x).func_param_count :=
                        fun h => hc h.symm
                      simp only [hr, ne_eq, hc, hc2, not_true_eq_false, not_false_eq_true,
                        if_true, if_false]
                  · have hr2 : ¬ (heap y).func_ret.isSome = (heap x).func_ret.isSome :=
                      fun h => hr h.symm
                    simp only [ne_eq, hr, hr2, not_false_eq_true, if_true]
                · by_cases h4 : (heap x).kind = TypeKind.TY_TEMPLATE_PARAM
                  · rw [type_equals_template_step heap fuel x y hxy h4 (hk ▸ h4),
                      type_equals_template_step heap fuel y x (Ne.symm hxy) (hk ▸ h4) h4]
                    by_cases hi : (heap x).template_param_index = (heap y).template_param_index
                    · cases hnx : (heap x).template_param_name with
                      | none => cases hny : (heap y).template_param_name <;> simp [hi]
                      | some na =>
                        cases hny : (heap y).template_param_name with
                        | none => simp [hi]
                        | some nb =>
                          by_cases hn : na = nb
                          · simp [hi, hn]
                          · have hn2 : ¬ nb = na := fun h => hn h.symm
                            simp [hi, hn, hn2]
                    · have hi2 : ¬ (heap y).template_param_index = (heap x).template_param_index :=
                        fun h => hi h.symm
                      simp [hi, hi2]
                  · rw [type_equals_other_kind heap fuel x y hk h1 h2 h3 h4,
                      type_equals_other_kind heap fuel y x hk.symm (hk ▸ h1) (hk ▸ h2) (hk ▸ h3)
                        (hk ▸ h4)]
          · have hk2 : ¬ (heap y).kind = (heap x).kind := fun h => hk h.symm
            simp [type_equals, hab, hba, hk, hk2]

theorem params_loop_mono (eq eq2 : Option Nat → Option Nat → Option Bool) (a b : Ty)
    (h : ∀ p q r, eq p q = some r → eq2 p q = some r) :
    ∀ (n i : Nat) (r : Bool), params_loop eq a b n i = some r →
      params_loop eq2 a b n i = some r := by
  intro n
  induction n with
  | zero => intro i r hr; exact hr
  | succ n ih =>
    intro i r hr
    cases ha : func_param a i with
    | none => simp [params_loop, ha] at hr
    | some ap =>
      cases hb : func_param b i with
      | none => simp [params_loop, ha, hb] at hr
      | some bp =>
        cases he : eq ap bp with
        | none => simp [params_loop, ha, hb, he] at hr
        | some v =>
          have he2 := h ap bp v he
          cases v with
          | false =>
            simp only [params_loop, ha, hb, he] at hr
            simp only [params_loop, ha, hb, he2]
            exact hr
          | true =>
            simp only [params_loop, ha, hb, he] at hr
            simp only [params_loop, ha, hb, he2]
            exact ih (i + 1) r hr

/-- A result of `type_equals` obtained within some depth is its result within
every larger depth. -/
theorem type_equals_mono (heap : Nat → Ty) :
    ∀ (fuel : Nat) (a b : Option Nat) (r : Bool), type_equals heap fuel a b = some r →
      type_equals heap (fuel + 1) a b = some r := by
  intro fuel
  induction fuel with
  | zero => intro a b r h; simp [type_equals] at h
  | succ fuel ih =>
    intro a b r h
    by_cases hab : a = b
    · rw [hab] at h ⊢
      rw [type_equals_same] at h ⊢
      exact h
    · cases a with
      | none =>
        cases b with
        | none => exact absurd rfl hab
        | some y =>
          simp only [type_equals, hab, if_false] at h ⊢
          exact h
      | some x =>
        cases b with
        | none =>
          simp only [type_equals, hab, if_false] at h ⊢
          exact h
        | some y =>
          have hxy : x ≠ y := fun h => hab (by rw [h])
          by_cases hk : (heap x).kind = (heap y).kind
          · by_cases h1 : (heap x).kind = TypeKind.TY_PTR
            · rw [type_equals_ptr_step heap _ x y hxy h1 (hk ▸ h1)] at h ⊢
              exact ih _ _ r h
            · by_cases h2 : (heap x).kind = TypeKind.TY_ARRAY
              · rw [type_equals_array_step heap _ x y hxy h2 (hk ▸ h2)] at h ⊢
                by_cases hl : (heap x).array_length = (heap y).array_length
                · by_cases hu : (heap x).array_is_unsized = (heap y).array_is_unsized
                  · simp only [ne_eq, hl, hu, not_true_eq_false, if_false] at h ⊢
                    exact ih _ _ r h
                  · simp only [ne_eq, hl, hu, not_true_eq_false, not_false_eq_true, if_false,
                      if_true] at h ⊢
                    exact h
                · simp only [ne_eq, hl, not_false_eq_true, if_true] at h ⊢
                  exact h
              · by_cases h3 : (heap x).kind = TypeKind.TY_FUNC
                · rw [type_equals_func_step heap _ x y hxy h3 (hk ▸ h3)] at h ⊢
                  by_cases hr : (heap x).func_ret.isSome = (heap y).func_ret.isSome
                  · simp only [ne_eq, hr, not_true_eq_false, if_false] at h ⊢
                    have hret : ∀ v : Bool,
                        (if (heap y).func_ret.isSome = true then
                          type_equals heap fuel (heap x).func_ret (heap y).func_ret
                        else some true) = some v →
                        (if (heap y).func_ret.isSome = true then
                          type_equals heap (fuel + 1) (heap x).func_ret (heap y).func_ret
                        else some true) = some v := by
                      intro v hv
                      by_cases hs : (heap y).func_ret.isSome = true
                      · simp only [hs, if_true] at hv ⊢
                        exact ih _ _ v hv
                      · simp only [hs, Bool.false_eq_true, if_false] at hv ⊢
                        exact hv
                    cases hv : (if (heap y).func_ret.isSome = true then
                          type_equals heap fuel (heap x).func_ret (heap y).func_ret
                        else some true) with
                    | none => rw [hv] at h; simp at h
                    | some v =>
                      rw [hv] at h
                      rw [hret v hv]
                      cases v with
                      | false => exact h
                      | true =>
                        simp only at h ⊢
                        by_cases hc : (heap x).func_param_count = (heap y).func_param_count
                        · by_cases hva : (heap x).func_is_varargs = (heap y).func_is_varargs
                          · simp only [hc, hva, not_true_eq_false, if_false] at h ⊢
                            exact params_loop_mono _ _ _ _ (ih) _ _ r h
                          · simp only [hc, hva, not_true_eq_false, not_false_eq_true, if_false,
                              if_true] at h ⊢
                            exact h
                        · simp only [hc, not_false_eq_true, if_true] at h ⊢
                          exact h
                  · simp only [ne_eq, hr, not_false_eq_true, if_true] at h ⊢
                    exact h
                · by_cases h4 : (heap x).kind = TypeKind.TY_TEMPLATE_PARAM
                  · rw [type_equals_template_step heap _ x y hxy h4 (hk ▸ h4)] at h ⊢
                    exact h
                  · rw [type_equals_other_kind heap _ x y hk h1 h2 h3 h4] at h ⊢
                    exact h
          · simp only [type_equals, hab, if_false, ne_eq, hk, not_false_eq_true, if_true] at h ⊢
            exact h

theorem type_equals_mono_le (heap : Nat → Ty) (fuel : Nat) (a b : Option Nat) (r : Bool)
    (h : type_equals heap fuel a b = some r) :
    ∀ fuel2 : Nat, fuel ≤ fuel2 → type_equals heap fuel2 a b = some r := by
  intro fuel2 hle
  induction fuel2 with
  | zero =>
    have h0 : fuel = 0 := by omega
    rw [h0] at h; exact h
  | succ n ih =>
    by_cases hn : fuel = n + 1
    · rw [hn] at h; exact h
    · exact type_equals_mono heap n a b r (ih (by omega))

theorem params_loop_total (eq : Option Nat → Option Nat → Option Bool) (a b : Ty) :
    ∀ (n i : Nat),
      (∀ j : Nat, i ≤ j → j < i + n → ∃ ap bp : Option Nat,
        func_param a j = some ap ∧ func_param b j = some bp ∧ ∃ v : Bool, eq ap bp = some v) →
      ∃ r : Bool, params_loop eq a b n i = some r := by
  intro n
  induction n with
  | zero => intro i _; exact ⟨true, rfl⟩
  | succ n ih =>
    intro i h
    obtain ⟨ap, bp, ha, hb, v, hv⟩ := h i (Nat.le_refl i) (by omega)
    cases v with
    | false => exact ⟨false, by simp only [params_loop, ha, hb, hv]⟩
    | true =>
      obtain ⟨r, hr⟩ := ih (i + 1) (fun j h1 h2 => h j (by omega) (by omega))
      exact ⟨r, by simp only [params_loop, ha, hb, hv]; exact hr⟩

theorem acyclic_within_func (heap : Nat → Ty) (d x : Nat)
    (hk : (heap x).kind = TypeKind.TY_FUNC) :
    acyclic_within heap (d + 1) (some x)
      = (acyclic_within heap d (heap x).func_ret
        && (match (heap x).func_params with
            | none => true
            | some l =>
              decide ((heap x).func_param_count.toNat ≤ l.length)
                && l.all (fun p => acyclic_within heap d p))) := by
  simp [acyclic_within, hk]

theorem acyclic_within_param (heap : Nat → Ty) (d x j : Nat)
    (hk : (heap x).kind = TypeKind.TY_FUNC)
    (h : acyclic_within heap (d + 1) (some x) = true)
    (hj : j < (heap x).func_param_count.toNat) :
    ∃ p : Option Nat, func_param (heap x) j = some p ∧ acyclic_within heap d p = true := by
  rw [acyclic_within_func heap d x hk, Bool.and_eq_true] at h
  cases hp : (heap x).func_params with
  | none => exact ⟨none, by simp [func_param, hp], by cases d <;> rfl⟩
  | some l =>
    rw [hp] at h
    simp only [Bool.and_eq_true, decide_eq_true_eq, List.all_eq_true] at h
    have hlt : j < l.length := by omega
    refine ⟨l.get ⟨j, hlt⟩, ?_, h.2.2 _ (List.get_mem l j hlt)⟩
    simp only [func_param, hp]
    exact List.get?_eq_get hlt

theorem acyclic_within_none (heap : Nat → Ty) (d : Nat) : acyclic_within heap d none = true := by
  cases d <;> rfl

/-- On nodes that lie within `d` links of their leaves, `type_equals` returns
within depth `d + 1`. -/
theorem type_equals_total (heap : Nat → Ty) :
    ∀ (d : Nat) (a b : Option Nat), acyclic_within heap d a = true →
      acyclic_within heap d b = true → ∃ r : Bool, type_equals heap (d + 1) a b = some r := by
  intro d
  induction d with
  | zero =>
    intro a b ha hb
    cases a with
    | some x => simp [acyclic_within] at ha
    | none =>
      cases b with
      | some y => simp [acyclic_within] at hb
      | none => exact ⟨true, type_equals_same heap 0 none⟩
  | succ d ih =>
    intro a b ha hb
    by_cases hab : a = b
    · rw [hab]; exact ⟨true, type_equals_same heap _ b⟩
    · cases a with
      | none =>
        cases b with
        | none => exact absurd rfl hab
        | some y => exact ⟨false, by simp [type_equals]⟩
      | some x =>
        cases b with
        | none => exact ⟨false, by simp [type_equals]⟩
        | some y =>
          have hxy : x ≠ y := fun h => hab (by rw [h])
          by_cases hk : (heap x).kind = (heap y).kind
          · by_cases h1 : (heap x).kind = TypeKind.TY_PTR
            · have h1y : (heap y).kind = TypeKind.TY_PTR := hk ▸ h1
              rw [type_equals_ptr_step heap _ x y hxy h1 h1y]
              simp only [acyclic_within, h1, if_true] at ha
              simp only [acyclic_within, h1y, if_true] at hb
              exact ih _ _ ha hb
            · by_cases h2 : (heap x).kind = TypeKind.TY_ARRAY
              · have h1y : ¬ (heap y).kind = TypeKind.TY_PTR := hk ▸ h1
                have h2y : (heap y).kind = TypeKind.TY_ARRAY := hk ▸ h2
                rw [type_equals_array_step heap _ x y hxy h2 h2y]
                simp only [acyclic_within, h1, h2, if_true, if_false] at ha
                simp only [acyclic_within, h1y, h2y, if_true, if_false] at hb
                by_cases hl : (heap x).array_length = (heap y).array_length
                · by_cases hu : (heap x).array_is_unsized = (heap y).array_is_unsized
                  · simp only [ne_eq, hl, hu, not_true_eq_false, if_false]
                    exact ih _ _ ha hb
                  · exact ⟨false, by simp [hl, hu]⟩
                · exact ⟨false, by simp [hl]⟩
              · by_cases h3 : (heap x).kind = TypeKind.TY_FUNC
                · have h3y : (heap y).kind = TypeKind.TY_FUNC := hk ▸ h3
                  rw [type_equals_func_step heap _ x y hxy h3 h3y]
                  have hax := ha
                  have hby := hb
                  rw [acyclic_within_func heap d x h3, Bool.and_eq_true] at hax
                  rw [acyclic_within_func heap d y h3y, Bool.and_eq_true] at hby
                  by_cases hr : (heap x).func_ret.isSome = (heap y).func_ret.isSome
                  · simp only [ne_eq, hr, not_true_eq_false, if_false]
                    have hret : ∃ v : Bool,
                        (if (heap y).func_ret.isSome = true then
                          type_equals heap (d + 1) (heap x).func_ret (heap y).func_ret
                        else some true) = some v := by
                      by_cases hs : (heap y).func_ret.isSome = true
                      · simp only [hs, if_true]
                        exact ih _ _ hax.1 hby.1
                      · exact ⟨true, by simp [hs]⟩
                    obtain ⟨v, hv⟩ := hret
                    rw [hv]
                    cases v with
                    | false => exact ⟨false, rfl⟩
                    | true =>
                      simp only
                      by_cases hc : (heap x).func_param_count = (heap y).func_param_count
                      · by_cases hva : (heap x).func_is_varargs = (heap y).func_is_varargs
                        · simp only [hc, hva, not_true_eq_false, if_false]
                          apply params_loop_total
                          intro j _ hj
                          obtain ⟨ap, hap, haa⟩ :=
                            acyclic_within_param heap d x j h3 ha (by rw [hc]; omega)
                          obtain ⟨bp, hbp, hbb⟩ :=
                            acyclic_within_param heap d y j h3y hb (by omega)
                          exact ⟨ap, bp, hap, hbp, ih ap bp haa hbb⟩
                        · exact ⟨false, by simp [hc, hva]⟩
                      · exact ⟨false, by simp [hc]⟩
                  · exact ⟨false, by simp [hr]⟩
                · by_cases h4 : (heap x).kind = TypeKind.TY_TEMPLATE_PARAM
                  · rw [type_equals_template_step heap _ x y hxy h4 (hk ▸ h4)]
                    by_cases hi : (heap x).template_param_index = (heap y).template_param_index
                    · cases hnx : (heap x).template_param_name with
                      | none =>
                        cases hny : (heap y).template_param_name with
                        | none => exact ⟨true, by simp [hi]⟩
                        | some nb => exact ⟨false, by simp [hi]⟩
                      | some na =>
                        cases hny : (heap y).template_param_name with
                        | none => exact ⟨false, by simp [hi]⟩
                        | some nb =>
                          by_cases hn : na = nb
                          · exact ⟨true, by simp [hi, hn]⟩
                          · exact ⟨false, by simp [hi, hn]⟩
                    · exact ⟨false, by simp [hi]⟩
                  · exact ⟨true, type_equals_other_kind heap _ x y hk h1 h2 h3 h4⟩
          · exact ⟨false, by simp [type_equals, hab, hk]⟩

theorem type_equals_true_shape (heap : Nat → Ty) (fuel : Nat) (a b : Option Nat)
    (hab : a ≠ b) (h : type_equals heap (fuel + 1) a b = some true) :
    ∃ x y : Nat, a = some x ∧ b = some y ∧ x ≠ y ∧ (heap x).kind = (heap y).kind := by
  cases a with
  | none =>
    cases b with
    | none => exact absurd rfl hab
    | some y => simp [type_equals] at h
  | some x =>
    cases b with
    | none => simp [type_equals] at h
    | some y =>
      have hxy : x ≠ y := fun h => hab (by rw [h])
      refine ⟨x, y, rfl, rfl, hxy, ?_⟩
      by_contra hk
      simp [type_equals, hxy, hk] at h

/-- What a true result of `type_equals` on two function nodes says. -/
theorem type_equals_func_true (heap : Nat → Ty) (fuel x y : Nat) (hne : x ≠ y)
    (hx : (heap x).kind = TypeKind.TY_FUNC) (hy : (heap y).kind = TypeKind.TY_FUNC) :
    type_equals heap (fuel + 1) (some x) (some y) = some true ↔
      ((heap x).func_ret.isSome = (heap y).func_ret.isSome
        ∧ ((heap x).func_ret.isSome = true →
            type_equals heap fuel (heap x).func_ret (heap y).func_ret = some true)
        ∧ (heap x).func_param_count = (heap y).func_param_count
        ∧ (heap x).func_is_varargs = (heap y).func_is_varargs
        ∧ params_loop (type_equals heap fuel) (heap x) (heap y)
            (heap x).func_param_count.toNat 0 = some true) := by
  rw [type_equals_func_step heap fuel x y hne hx hy]
  by_cases hr : (heap x).func_ret.isSome = (heap y).func_ret.isSome
  · by_cases hs : (heap x).func_ret.isSome = true
    · have hys : (heap y).func_ret.isSome = true := by rw [← hr]; exact hs
      cases hv : type_equals heap fuel (heap x).func_ret (heap y).func_ret with
      | none => simp [hs, hys, hv]
      | some v =>
        cases v with
        | false => simp [hs, hys, hv]
        | true =>
          by_cases hc : (heap x).func_param_count = (heap y).func_param_count
          · by_cases hva : (heap x).func_is_varargs = (heap y).func_is_varargs
            · simp [hs, hys, hv, hc, hva]
            · simp [hs, hys, hv, hc, hva]
          · simp [hs, hys, hv, hc]
    · have hs2 : (heap x).func_ret.isSome = false := by simpa using hs
      have hys : (heap y).func_ret.isSome = false := by rw [← hr]; exact hs2
      by_cases hc : (heap x).func_param_count = (heap y).func_param_count
      · by_cases hva : (heap x).func_is_varargs = (heap y).func_is_varargs
        · simp [hs2, hys, hc, hva]
        · simp [hs2, hys, hc, hva]
      · simp [hs2, hys, hc]
  · simp [hr]

/-- What a true result of `type_equals` on two template parameters says. -/
theorem type_equals_template_true (heap : Nat → Ty) (fuel x y : Nat) (hne : x ≠ y)
    (hx : (heap x).kind = TypeKind.TY_TEMPLATE_PARAM)
    (hy : (heap y).kind = TypeKind.TY_TEMPLATE_PARAM) :
    type_equals heap (fuel + 1) (some x) (some y) = some true ↔
      ((heap x).template_param_index = (heap y).template_param_index
        ∧ (heap x).template_param_name = (heap y).template_param_name) := by
  rw [type_equals_template_step heap fuel x y hne hx hy]
  by_cases hi : (heap x).template_param_index = (heap y).template_param_index
  · cases hnx : (heap x).template_param_name with
    | none => cases hny : (heap y).template_param_name <;> simp [hi]
    | some na =>
      cases hny : (heap y).template_param_name with
      | none => simp [hi]
      | some nb =>
        by_cases hn : na = nb
        · simp [hi, hn]
        · simp [hi, hn]
  · simp [hi]

/-- What a true result of `type_equals` on two array nodes says. -/
theorem type_equals_array_true (heap : Nat → Ty) (fuel x y : Nat) (hne : x ≠ y)
    (hx : (heap x).kind = TypeKind.TY_ARRAY) (hy : (heap y).kind = TypeKind.TY_ARRAY) :
    type_equals heap (fuel + 1) (some x) (some y) = some true ↔
      ((heap x).array_length = (heap y).array_length
        ∧ (heap x).array_is_unsized = (heap y).array_is_unsized
        ∧ type_equals heap fuel (heap x).array_elem (heap y).array_elem = some true) := by
  rw [type_equals_array_step heap fuel x y hne hx hy]
  by_cases hl : (heap x).array_length = (heap y).array_length
  · by_cases hu : (heap x).array_is_unsized = (heap y).array_is_unsized
    · simp [hl, hu]
    · simp [hl, hu]
  · simp [hl]

theorem params_loop_trans (eq : Option Nat → Option Nat → Option Bool) (a b c : Ty)
    (heq : ∀ p q r, eq p q = some true → eq q r = some true → eq p r = some true)
    (n : Nat) (h1 : params_loop eq a b n 0 = some true)
    (h2 : params_loop eq b c n 0 = some true) :
    params_loop eq a c n 0 = some true := by
  rw [params_loop_true] at h1 h2 ⊢
  intro j hj
  obtain ⟨ap, bp, ha, hb, he1⟩ := h1 j hj
  obtain ⟨bp2, cp, hb2, hc, he2⟩ := h2 j hj
  rw [hb] at hb2
  simp only [Option.some.injEq] at hb2
  subst hb2
  exact ⟨ap, cp, ha, hc, heq ap bp cp he1 he2⟩

theorem type_equals_trans (heap : Nat → Ty) :
    ∀ (fuel : Nat) (a b c : Option Nat), type_equals heap fuel a b = some true →
      type_equals heap fuel b c = some true → type_equals heap fuel a c = some true := by
  intro fuel
  induction fuel with
  | zero => intro a b c h; simp [type_equals] at h
  | succ fuel ih =>
    intro a b c hab hbc
    by_cases e1 : a = b
    · rw [e1]; exact hbc
    · by_cases e2 : b = c
      · rw [← e2]; exact hab
      · by_cases e3 : a = c
        · rw [e3]; exact type_equals_same heap fuel c
        · obtain ⟨x, y, hx, hy, hxy, hk1⟩ := type_equals_true_shape heap fuel a b e1 hab
          obtain ⟨y2, z, hy2, hz, hyz, hk2⟩ := type_equals_true_shape heap fuel b c e2 hbc
          subst hx hz
          rw [hy] at hy2
          simp only [Option.some.injEq] at hy2
          subst hy2
          subst hy
          have hxz : x ≠ z := fun h => e3 (by rw [h])
          have hk3 : (heap x).kind = (heap z).kind := hk1.trans hk2
          by_cases h1 : (heap x).kind = TypeKind.TY_PTR
          · have h1y : (heap y).kind = TypeKind.TY_PTR := hk1 ▸ h1
            have h1z : (heap z).kind = TypeKind.TY_PTR := hk3 ▸ h1
            rw [type_equals_ptr_step heap fuel x y hxy h1 h1y] at hab
            rw [type_equals_ptr_step heap fuel y z hyz h1y h1z] at hbc
            rw [type_equals_ptr_step heap fuel x z hxz h1 h1z]
            exact ih _ _ _ hab hbc
          · by_cases h2 : (heap x).kind = TypeKind.TY_ARRAY
            · have h2y : (heap y).kind = TypeKind.TY_ARRAY := hk1 ▸ h2
              have h2z : (heap z).kind = TypeKind.TY_ARRAY := hk3 ▸ h2
              rw [type_equals_array_true heap fuel x y hxy h2 h2y] at hab
              rw [type_equals_array_true heap fuel y z hyz h2y h2z] at hbc
              rw [type_equals_array_true heap fuel x z hxz h2 h2z]
              exact ⟨hab.1.trans hbc.1, hab.2.1.trans hbc.2.1, ih _ _ _ hab.2.2 hbc.2.2⟩
            · by_cases h3 : (heap x).kind = TypeKind.TY_FUNC
              · have h3y : (heap y).kind = TypeKind.TY_FUNC := hk1 ▸ h3
                have h3z : (heap z).kind = TypeKind.TY_FUNC := hk3 ▸ h3
                rw [type_equals_func_true heap fuel x y hxy h3 h3y] at hab
                rw [type_equals_func_true heap fuel y z hyz h3y h3z] at hbc
                rw [type_equals_func_true heap fuel x z hxz h3 h3z]
                obtain ⟨a1, a2, a3, a4, a5⟩ := hab
                obtain ⟨b1, b2, b3, b4, b5⟩ := hbc
                refine ⟨a1.trans b1, ?_, a3.trans b3, a4.trans b4, ?_⟩
                · intro hs
                  exact ih _ _ _ (a2 hs) (b2 (by rw [← a1]; exact hs))
                · rw [← a3] at b5
                  exact params_loop_trans _ _ _ _ ih _ a5 b5
              · by_cases h4 : (heap x).kind = TypeKind.TY_TEMPLATE_PARAM
                · have h4y : (heap y).kind = TypeKind.TY_TEMPLATE_PARAM := hk1 ▸ h4
                  have h4z : (heap z).kind = TypeKind.TY_TEMPLATE_PARAM := hk3 ▸ h4
                  rw [type_equals_template_true heap fuel x y hxy h4 h4y] at hab
                  rw [type_equals_template_true heap fuel y z hyz h4y h4z] at hbc
                  rw [type_equals_template_true heap fuel x z hxz h4 h4z]
                  exact ⟨hab.1.trans hbc.1, hab.2.trans hbc.2⟩
                · exact type_equals_other_kind heap fuel x z hk3 h1 h2 h3 h4

/-! ## Register and lookup -/

/-- C1: in every state, for all non-null `M`, `N`, `T`: after
`register_struct(M, T)` with `T->struct_name` equal to `N`, `lookup_struct(M, N)`
returns `T`; and after `register_enum(M, N, T)`, whatever the node `T` is and
whatever name it carries, `lookup_enum(M, N)` returns `T`. -/
theorem register_then_lookup (s : State) (M N : List Char) (T : Nat) :
    ((s.heap T).struct_name = some N →
      module_registry_lookup_struct
        (module_registry_register_struct s (some M) (some T)) (some M) (some N) = some T)
    ∧ module_registry_lookup_enum
        (module_registry_register_enum s (some M) (some N) (some T)) (some M) (some N)
        = some T := by
  constructor
  · intro hN
    simp only [module_registry_register_struct, module_registry_lookup_struct, hN]
    exact lookup_upsert_entry M N (some T) s.struct_entries
  · simp only [module_registry_register_enum, module_registry_lookup_enum]
    exact lookup_upsert_entry M N (some T) s.enum_entries

theorem register_then_lookup_witness :
    ((demo_points.heap 4).struct_name = some "Foo".toList
      ∧ module_registry_lookup_struct
          (module_registry_register_struct demo_points (some "a.b.c".toList) (some 4))
          (some "a.b.c".toList) (some "Foo".toList) = some 4)
    ∧ ((demo_points.heap 5).struct_name = none
      ∧ module_registry_lookup_enum
          (module_registry_register_enum demo_points (some "geo".toList)
            (some "Color".toList) (some 5))
          (some "geo".toList) (some "Color".toList) = some 5) :=
  ⟨⟨by decide,
      (register_then_lookup demo_points "a.b.c".toList "Foo".toList 4).1 (by decide)⟩,
    ⟨by decide, (register_then_lookup demo_points "geo".toList "Color".toList 5).2⟩⟩

/-- C2: registering the key `(M, N)` with payload `T1` and then again with
payload `T2` leaves the entry count at what it was after the first
registration, and the lookup of `(M, N)` then returns `T2`; for the struct
table, where the key is registered by two nodes that carry the name `N`, and
for the enum table, with any two nodes as payloads. -/
theorem register_twice_upsert (s : State) (M N : List Char) (T1 T2 : Nat) :
    ((s.heap T1).struct_name = some N → (s.heap T2).struct_name = some N →
      (module_registry_register_struct
          (module_registry_register_struct s (some M) (some T1)) (some M) (some T2)).struct_count
        = (module_registry_register_struct s (some M) (some T1)).struct_count
      ∧ module_registry_lookup_struct
          (module_registry_register_struct
            (module_registry_register_struct s (some M) (some T1)) (some M) (some T2))
          (some M) (some N) = some T2)
    ∧ ((module_registry_register_enum
          (module_registry_register_enum s (some M) (some N) (some T1))
          (some M) (some N) (some T2)).enum_count
        = (module_registry_register_enum s (some M) (some N) (some T1)).enum_count
      ∧ module_registry_lookup_enum
          (module_registry_register_enum
            (module_registry_register_enum s (some M) (some N) (some T1))
            (some M) (some N) (some T2))
          (some M) (some N) = some T2) := by
  refine ⟨fun h1 h2 => ⟨?_, ?_⟩, ⟨?_, ?_⟩⟩
  · simp only [module_registry_register_struct, State.struct_count, h1, h2]
    exact upsert_entry_length_again M N (some T1) (some T2) s.struct_entries
  · simp only [module_registry_register_struct, module_registry_lookup_struct, h2]
    exact lookup_upsert_entry M N (some T2) _
  · simp only [module_registry_register_enum, State.enum_count]
    exact upsert_entry_length_again M N (some T1) (some T2) s.enum_entries
  · simp only [module_registry_register_enum, module_registry_lookup_enum]
    exact lookup_upsert_entry M N (some T2) _

theorem register_twice_upsert_witness :
    ((demo_points.heap 3).struct_name = some "Foo".toList
      ∧ (demo_points.heap 4).struct_name = some "Foo".toList)
    ∧ ((module_registry_register_struct
          (module_registry_register_struct demo_points (some "app".toList) (some 3))
          (some "app".toList) (some 4)).struct_count
        = (module_registry_register_struct demo_points (some "app".toList)
            (some 3)).struct_count
      ∧ module_registry_lookup_struct
          (module_registry_register_struct
            (module_registry_register_struct demo_points (some "app".toList) (some 3))
            (some "app".toList) (some 4))
          (some "app".toList) (some "Foo".toList) = some 4)
    ∧ ((demo_points.heap 5).struct_name = none
      ∧ (demo_points.heap 1).struct_name = some "Point".toList)
    ∧ ((module_registry_register_enum
          (module_registry_register_enum demo_points (some "geo".toList)
            (some "Color".toList) (some 5))
          (some "geo".toList) (some "Color".toList) (some 1)).enum_count
        = (module_registry_register_enum demo_points (some "geo".toList)
            (some "Color".toList) (some 5)).enum_count
      ∧ module_registry_lookup_enum
          (module_registry_register_enum
            (module_registry_register_enum demo_points (some "geo".toList)
              (some "Color".toList) (some 5))
            (some "geo".toList) (some "Color".toList) (some 1))
          (some "geo".toList) (some "Color".toList) = some 1) :=
  ⟨⟨by decide, by decide⟩,
    (register_twice_upsert demo_points "app".toList "Foo".toList 3 4).1 (by decide) (by decide),
    ⟨by decide, by decide⟩,
    (register_twice_upsert demo_points "geo".toList "Color".toList 5 1).2⟩

/-! ## `canonical_type` -/

/-- C3: on a node whose kind is not Import, `canonical_type` returns that very
node and the state (tables and every node) is the one before the call, with
any bound on the loop; on `NULL` it returns `NULL`. -/
theorem canonical_type_non_import (fuel : Nat) (s : State) (t : Nat)
    (hk : (s.heap t).kind ≠ TypeKind.TY_IMPORT) :
    module_registry_canonical_type fuel s (some t) = some (s, some t)
    ∧ module_registry_canonical_type fuel s none = some (s, none) := by
  constructor
  · cases fuel <;> simp [module_registry_canonical_type, canonical_loop, hk]
  · rfl

theorem canonical_type_non_import_witness :
    (demo_points.heap 1).kind ≠ TypeKind.TY_IMPORT
    ∧ module_registry_canonical_type 0 demo_points (some 1) = some (demo_points, some 1)
    ∧ module_registry_canonical_type 0 demo_points none = some (demo_points, none) :=
  ⟨by decide, canonical_type_non_import 0 demo_points 1 (by decide)⟩

/-- C4: for an Import node with empty cache, module path `M` and type name `N`:
when the struct table holds the row `(M, N)` with a non-Import payload `T`,
`canonical_type` returns `T` (whatever other struct rows are named `N` and
whatever the enum table holds); when the struct table holds no row `(M, N)` and
the enum table holds the row `(M, N)` with non-Import payload `E`, it returns
`E`.  One execution of the loop body is enough, and the node's cache then holds
the result.  Tables are taken with their invariant of unique keys. -/
theorem canonical_type_exact_match (fuel : Nat) (s : State) (X : Nat) (M N : List Char)
    (hk : (s.heap X).kind = TypeKind.TY_IMPORT)
    (hc : (s.heap X).import_resolved = none)
    (hM : (s.heap X).import_module = some M)
    (hN : (s.heap X).import_type_name = some N) :
    (∀ T : Nat, keys_unique s.struct_entries →
        ({ module_full := some M, name := some N, type := some T } : StructEntry)
          ∈ s.struct_entries →
        (s.heap T).kind ≠ TypeKind.TY_IMPORT →
        module_registry_canonical_type (fuel + 1) s (some X)
          = some (set_import_resolved s X (some T), some T))
    ∧ (∀ E : Nat, (∀ e ∈ s.struct_entries, ¬ (e.module_full = some M ∧ e.name = some N)) →
        keys_unique s.enum_entries →
        ({ module_full := some M, name := some N, type := some E } : EnumEntry)
          ∈ s.enum_entries →
        (s.heap E).kind ≠ TypeKind.TY_IMPORT →
        module_registry_canonical_type (fuel + 1) s (some X)
          = some (set_import_resolved s X (some E), some E)) := by
  constructor
  · intro T hu hmem hT
    have hl : module_registry_lookup_struct s (some M) (some N) = some T :=
      lookup_entry_of_mem M N (some T) s.struct_entries hu hmem
    simp only [module_registry_canonical_type]
    rw [canonical_loop_resolve fuel s X M N hk hc hM hN,
      resolve_import_of_lookup_struct s M N T hl]
    exact canonical_loop_non_import fuel _ T (by rw [set_import_resolved_kind]; exact hT)
  · intro E hno hu hmem hE
    have hs : module_registry_lookup_struct s (some M) (some N) = none :=
      lookup_entry_none_of_no_key M N s.struct_entries hno
    have hl : module_registry_lookup_enum s (some M) (some N) = some E :=
      lookup_entry_of_mem M N (some E) s.enum_entries hu hmem
    simp only [module_registry_canonical_type]
    rw [canonical_loop_resolve fuel s X M N hk hc hM hN,
      resolve_import_of_lookup_enum s M N E hs hl]
    exact canonical_loop_non_import fuel _ E (by rw [set_import_resolved_kind]; exact hE)

theorem canonical_type_exact_match_witness :
    (keys_unique demo_points.struct_entries
      ∧ ({ module_full := some "geo".toList, name := some "Point".toList, type := some 1 }
          : StructEntry) ∈ demo_points.struct_entries
      ∧ ({ module_full := some "draw".toList, name := some "Point".toList, type := some 2 }
          : StructEntry) ∈ demo_points.struct_entries
      ∧ module_registry_canonical_type 1 demo_points (some 10)
          = some (set_import_resolved demo_points 10 (some 1), some 1))
    ∧ ((∀ e ∈ demo_color.struct_entries,
          ¬ (e.module_full = some "geo".toList ∧ e.name = some "Color".toList))
      ∧ ({ module_full := some "geo".toList, name := some "Color".toList, type := some 5 }
          : EnumEntry) ∈ demo_color.enum_entries
      ∧ module_registry_canonical_type 1 demo_color (some 18)
          = some (set_import_resolved demo_color 18 (some 5), some 5)) :=
  ⟨⟨by decide, by decide, by decide,
      (canonical_type_exact_match 0 demo_points 10 "geo".toList "Point".toList
        (by decide) (by decide) (by decide) (by decide)).1 1
        (by decide) (by decide) (by decide)⟩,
    ⟨by decide, by decide,
      (canonical_type_exact_match 0 demo_color 18 "geo".toList "Color".toList
        (by decide) (by decide) (by decide) (by decide)).2 5
        (by decide) (by decide) (by decide) (by decide)⟩⟩

/-- C5, as the code has it: in a state where exactly one struct row is named
`N`, its payload `T` is not an Import node and no enum row is named `N`, an
Import node with empty cache, type name `N` and any module path that is
present (the empty path included) resolves to `T`: `canonical_type` returns
`T` and the cache of the node then holds `T`. -/
theorem canonical_type_unique_name (fuel : Nat) (s : State) (X : Nat) (M N : List Char)
    (e : StructEntry) (T : Nat)
    (hk : (s.heap X).kind = TypeKind.TY_IMPORT)
    (hc : (s.heap X).import_resolved = none)
    (hM : (s.heap X).import_module = some M)
    (hN : (s.heap X).import_type_name = some N)
    (hone : rows_named N s.struct_entries = [e]) (hT : e.type = some T)
    (hTk : (s.heap T).kind ≠ TypeKind.TY_IMPORT)
    (hen : rows_named N s.enum_entries = []) :
    module_registry_canonical_type (fuel + 1) s (some X)
      = some (set_import_resolved s X (some T), some T) :=
  canonical_loop_resolve_to fuel s X M N T hk hc hM hN
    (resolve_import_unique_name s M N e T hone hT hen) hTk

theorem canonical_type_unique_name_witness :
    (rows_named "Foo".toList demo_foo.struct_entries
        = [{ module_full := some "a.b.c".toList, name := some "Foo".toList, type := some 3 }]
      ∧ rows_named "Foo".toList demo_foo.enum_entries = [])
    ∧ ((demo_foo.heap 21).import_module = some "".toList
      ∧ module_registry_canonical_type 1 demo_foo (some 21)
          = some (set_import_resolved demo_foo 21 (some 3), some 3))
    ∧ ((demo_foo.heap 15).import_module = some "x.c".toList
      ∧ module_registry_canonical_type 1 demo_foo (some 15)
          = some (set_import_resolved demo_foo 15 (some 3), some 3)) :=
  ⟨⟨by decide, by decide⟩,
    ⟨by decide,
      canonical_type_unique_name 0 demo_foo 21 "".toList "Foo".toList
        { module_full := some "a.b.c".toList, name := some "Foo".toList, type := some 3 } 3
        (by decide) (by decide) (by decide) (by decide) (by decide) rfl (by decide)
        (by decide)⟩,
    ⟨by decide,
      canonical_type_unique_name 0 demo_foo 15 "x.c".toList "Foo".toList
        { module_full := some "a.b.c".toList, name := some "Foo".toList, type := some 3 } 3
        (by decide) (by decide) (by decide) (by decide) (by decide) rfl (by decide)
        (by decide)⟩⟩

/-- C5 fails as stated, twice.  With `Foo` (node 3) the only struct of that
name and no enum of that name, the Import node 17 (no module path, name `Foo`,
empty cache) is returned unresolved instead of node 3.  And where the only
struct row named `Alias` has the Import node 19 as payload, whose cache holds
node 1, the Import node 20 (`lib`, `Alias`) resolves to node 1, not to that
payload. -/
theorem canonical_type_unique_name_counterexample :
    (rows_named "Foo".toList demo_foo.struct_entries
        = [{ module_full := some "a.b.c".toList, name := some "Foo".toList, type := some 3 }]
      ∧ rows_named "Foo".toList demo_foo.enum_entries = []
      ∧ (demo_foo.heap 17).kind = TypeKind.TY_IMPORT
      ∧ (demo_foo.heap 17).import_resolved = none
      ∧ (demo_foo.heap 17).import_type_name = some "Foo".toList
      ∧ (demo_foo.heap 17).import_module = none
      ∧ (module_registry_canonical_type 1 demo_foo (some 17)).map Prod.snd = some (some 17)
      ∧ (module_registry_canonical_type 9 demo_foo (some 17)).map Prod.snd = some (some 17))
    ∧ (rows_named "Alias".toList demo_alias.struct_entries
        = [{ module_full := some "lib".toList, name := some "Alias".toList, type := some 19 }]
      ∧ rows_named "Alias".toList demo_alias.enum_entries = []
      ∧ (demo_alias.heap 20).kind = TypeKind.TY_IMPORT
      ∧ (demo_alias.heap 20).import_resolved = none
      ∧ (demo_alias.heap 20).import_type_name = some "Alias".toList
      ∧ (demo_alias.heap 20).import_module = some "lib".toList
      ∧ (module_registry_canonical_type 2 demo_alias (some 20)).map Prod.snd = some (some 1)
      ∧ (module_registry_canonical_type 9 demo_alias (some 20)).map Prod.snd = some (some 1)) := by
  refine ⟨⟨?_, ?_, ?_, ?_, ?_, ?_, ?_, ?_⟩, ⟨?_, ?_, ?_, ?_, ?_, ?_, ?_, ?_⟩⟩ <;> decide

/-- C6: in a state whose struct rows named `N` are two rows under different
module paths, with no enum row named `N`, an Import node with empty cache and
type name `N` whose module path is absent, or matches neither row's module path
by `module_name_matches`, is returned by `canonical_type` as it is: the state
after the call is the state before it, so the cache is still empty. -/
theorem canonical_type_ambiguous (fuel : Nat) (s : State) (X : Nat) (N : List Char)
    (e1 e2 : StructEntry)
    (hk : (s.heap X).kind = TypeKind.TY_IMPORT)
    (hc : (s.heap X).import_resolved = none)
    (hN : (s.heap X).import_type_name = some N)
    (htwo : rows_named N s.struct_entries = [e1, e2])
    (_hdiff : e1.module_full ≠ e2.module_full)
    (hen : rows_named N s.enum_entries = [])
    (hmod : (s.heap X).import_module = none
      ∨ ∃ M : List Char, (s.heap X).import_module = some M
          ∧ module_name_matches e1.module_full (some M) = false
          ∧ module_name_matches e2.module_full (some M) = false) :
    ∃ s' : State, module_registry_canonical_type (fuel + 1) s (some X) = some (s', some X)
      ∧ s' = s ∧ (s'.heap X).import_resolved = none := by
  refine ⟨s, ?_, rfl, hc⟩
  rcases hmod with hM | ⟨M, hM, h1, h2⟩
  · exact canonical_loop_no_module fuel s X hk hc hM
  · have hs : module_registry_lookup_struct s (some M) (some N) = none := by
      cases hl : module_registry_lookup_struct s (some M) (some N) with
      | none => rfl
      | some t =>
        obtain ⟨e, he, hem, hen', _⟩ := lookup_entry_some_mem M N t s.struct_entries hl
        have hmem : e ∈ rows_named N s.struct_entries := (mem_rows_named N _ e).2 ⟨he, hen'⟩
        rw [htwo] at hmem
        simp only [List.mem_cons, List.mem_singleton, List.not_mem_nil, or_false] at hmem
        rcases hmem with h | h <;> subst h
        · rw [hem, module_name_matches_self] at h1; exact absurd h1 (by simp)
        · rw [hem, module_name_matches_self] at h2; exact absurd h2 (by simp)
    have hl : module_registry_lookup_enum s (some M) (some N) = none := by
      cases hl : module_registry_lookup_enum s (some M) (some N) with
      | none => rfl
      | some t =>
        obtain ⟨e, he, _, hen', _⟩ := lookup_entry_some_mem M N t s.enum_entries hl
        have hmem : e ∈ rows_named N s.enum_entries := (mem_rows_named N _ e).2 ⟨he, hen'⟩
        rw [hen] at hmem
        simp at hmem
    have hr : resolve_import s (some M) (some N) = none := by
      rw [resolve_import_fallback s M N hs hl, rows_qualified_eq, htwo]
      simp [List.filter, h1, h2]
    exact canonical_loop_unresolved fuel s X M N hk hc hM hN hr

theorem canonical_type_ambiguous_witness :
    (rows_named "Point".toList demo_points.struct_entries
        = [{ module_full := some "geo".toList, name := some "Point".toList, type := some 1 },
           { module_full := some "draw".toList, name := some "Point".toList, type := some 2 }]
      ∧ rows_named "Point".toList demo_points.enum_entries = [])
    ∧ ((demo_points.heap 12).import_module = none
      ∧ ∃ s' : State, module_registry_canonical_type 1 demo_points (some 12) = some (s', some 12)
          ∧ s' = demo_points ∧ (s'.heap 12).import_resolved = none)
    ∧ ((demo_points.heap 11).import_module = some "".toList
      ∧ module_name_matches (some "geo".toList) (some "".toList) = false
      ∧ module_name_matches (some "draw".toList) (some "".toList) = false
      ∧ ∃ s' : State, module_registry_canonical_type 1 demo_points (some 11) = some (s', some 11)
          ∧ s' = demo_points ∧ (s'.heap 11).import_resolved = none) :=
  ⟨⟨by decide, by decide⟩,
    ⟨by decide,
      canonical_type_ambiguous 0 demo_points 12 "Point".toList
        { module_full := some "geo".toList, name := some "Point".toList, type := some 1 }
        { module_full := some "draw".toList, name := some "Point".toList, type := some 2 }
        (by decide) (by decide) (by decide) (by decide) (by decide) (by decide)
        (Or.inl (by decide))⟩,
    ⟨by decide, by decide, by decide,
      canonical_type_ambiguous 0 demo_points 11 "Point".toList
        { module_full := some "geo".toList, name := some "Point".toList, type := some 1 }
        { module_full := some "draw".toList, name := some "Point".toList, type := some 2 }
        (by decide) (by decide) (by decide) (by decide) (by decide) (by decide)
        (Or.inr ⟨"".toList, by decide, by decide, by decide⟩)⟩⟩

/-- C7, as the code has it: after `register_struct(P, T)` of a struct node `T`
named `N` into a state with no struct row and no enum row named `N`, an Import
node with empty cache, type name `N` and any non-null module path `Q` resolves
to `T`, whether or not `Q` is a dotted suffix of `P`: the name is carried by a
single struct row, and that rule does not look at the module path. -/
theorem canonical_type_single_struct (fuel : Nat) (s : State) (P N Q : List Char) (T X : Nat)
    (hname : (s.heap T).struct_name = some N)
    (hTk : (s.heap T).kind = TypeKind.TY_STRUCT)
    (hns : rows_named N s.struct_entries = [])
    (hne : rows_named N s.enum_entries = [])
    (hk : (s.heap X).kind = TypeKind.TY_IMPORT)
    (hc : (s.heap X).import_resolved = none)
    (hQ : (s.heap X).import_module = some Q)
    (hN : (s.heap X).import_type_name = some N) :
    module_registry_canonical_type (fuel + 1)
        (module_registry_register_struct s (some P) (some T)) (some X)
      = some (set_import_resolved (module_registry_register_struct s (some P) (some T)) X
          (some T), some T) := by
  have hone := rows_named_register_new s P N T hname hns
  have hr : resolve_import (module_registry_register_struct s (some P) (some T))
      (some Q) (some N) = some T :=
    resolve_import_unique_name _ Q N _ T hone rfl hne
  exact canonical_loop_resolve_to fuel _ X Q N T hk hc hQ hN hr (by
    show (s.heap T).kind ≠ TypeKind.TY_IMPORT
    rw [hTk]; decide)

theorem canonical_type_single_struct_witness :
    (rows_named "Foo".toList demo_empty.struct_entries = []
      ∧ rows_named "Foo".toList demo_empty.enum_entries = []
      ∧ module_name_matches (some "a.b.c".toList) (some "b.c".toList) = true
      ∧ module_name_matches (some "a.b.c".toList) (some "c".toList) = true
      ∧ module_name_matches (some "a.b.c".toList) (some "x.c".toList) = false)
    ∧ module_registry_canonical_type 1
        (module_registry_register_struct demo_empty (some "a.b.c".toList) (some 3)) (some 13)
      = some (set_import_resolved
          (module_registry_register_struct demo_empty (some "a.b.c".toList) (some 3)) 13
          (some 3), some 3)
    ∧ module_registry_canonical_type 1
        (module_registry_register_struct demo_empty (some "a.b.c".toList) (some 3)) (some 14)
      = some (set_import_resolved
          (module_registry_register_struct demo_empty (some "a.b.c".toList) (some 3)) 14
          (some 3), some 3)
    ∧ module_registry_canonical_type 1
        (module_registry_register_struct demo_empty (some "a.b.c".toList) (some 3)) (some 15)
      = some (set_import_resolved
          (module_registry_register_struct demo_empty (some "a.b.c".toList) (some 3)) 15
          (some 3), some 3) :=
  ⟨⟨by decide, by decide, by decide, by decide, by decide⟩,
    canonical_type_single_struct 0 demo_empty "a.b.c".toList "Foo".toList "b.c".toList 3 13
      (by decide) (by decide) (by decide) (by decide) (by decide) (by decide) (by decide)
      (by decide),
    canonical_type_single_struct 0 demo_empty "a.b.c".toList "Foo".toList "c".toList 3 14
      (by decide) (by decide) (by decide) (by decide) (by decide) (by decide) (by decide)
      (by decide),
    canonical_type_single_struct 0 demo_empty "a.b.c".toList "Foo".toList "x.c".toList 3 15
      (by decide) (by decide) (by decide) (by decide) (by decide) (by decide) (by decide)
      (by decide)⟩

/-- C7 fails as stated: with struct `Foo` (node 3) registered under `a.b.c` into
the empty registry, the Import node 15 (module `x.c`, name `Foo`, empty cache)
is resolved to node 3, although `x.c` is not suffix-related to `a.b.c`. -/
theorem canonical_type_single_struct_counterexample :
    (module_registry_register_struct demo_empty (some "a.b.c".toList) (some 3)).struct_entries
        = [{ module_full := some "a.b.c".toList, name := some "Foo".toList, type := some 3 }]
    ∧ (module_registry_register_struct demo_empty (some "a.b.c".toList) (some 3)).enum_entries
        = []
    ∧ (demo_empty.heap 3).kind = TypeKind.TY_STRUCT
    ∧ (demo_empty.heap 15).kind = TypeKind.TY_IMPORT
    ∧ (demo_empty.heap 15).import_resolved = none
    ∧ (demo_empty.heap 15).import_module = some "x.c".toList
    ∧ (demo_empty.heap 15).import_type_name = some "Foo".toList
    ∧ module_name_matches (some "a.b.c".toList) (some "x.c".toList) = false
    ∧ (module_registry_canonical_type 1
        (module_registry_register_struct demo_empty (some "a.b.c".toList) (some 3))
        (some 15)).map Prod.snd = some (some 3)
    ∧ (module_registry_canonical_type 9
        (module_registry_register_struct demo_empty (some "a.b.c".toList) (some 3))
        (some 15)).map Prod.snd = some (some 3) := by
  refine ⟨?_, ?_, ?_, ?_, ?_, ?_, ?_, ?_, ?_, ?_⟩ <;> decide

/-- C8: if the Import node `X` has its cache set to the Import node `Y`, `Y` has
an empty cache and the table search for `Y` yields the non-Import node `Z`,
then `canonical_type(X)` returns `Z` (two executions of the loop body are
enough).  More generally, `k` filled caches leading from `X` to an Import node
`Y` with empty cache, a table search for `Y` that yields `R`, and `j` filled
caches leading from `R` to a non-Import node `Z` make `canonical_type(X)`
return `Z` after `k + 1 + j` executions of the body. -/
theorem canonical_type_chain (fuel : Nat) (s : State) :
    (∀ (X Y Z : Nat) (M N : List Char),
        (s.heap X).kind = TypeKind.TY_IMPORT → (s.heap X).import_resolved = some Y → X ≠ Y →
        (s.heap Y).kind = TypeKind.TY_IMPORT → (s.heap Y).import_resolved = none →
        (s.heap Y).import_module = some M → (s.heap Y).import_type_name = some N →
        resolve_import s (some M) (some N) = some Z →
        (s.heap Z).kind ≠ TypeKind.TY_IMPORT →
        module_registry_canonical_type (fuel + 2) s (some X)
          = some (set_import_resolved s Y (some Z), some Z))
    ∧ (∀ (k j X Y R Z : Nat) (M N : List Char),
        follow_caches s k X = some Y →
        (s.heap Y).kind = TypeKind.TY_IMPORT → (s.heap Y).import_resolved = none →
        (s.heap Y).import_module = some M → (s.heap Y).import_type_name = some N →
        resolve_import s (some M) (some N) = some R →
        follow_caches (set_import_resolved s Y (some R)) j R = some Z →
        (s.heap Z).kind ≠ TypeKind.TY_IMPORT →
        module_registry_canonical_type (fuel + j + 1 + k) s (some X)
          = some (set_import_resolved s Y (some R), some Z)) := by
  constructor
  · intro X Y Z M N hkX hcX _ hkY hcY hM hN hr hZ
    simp only [module_registry_canonical_type]
    rw [canonical_loop_cache (fuel + 1) s X Y hkX hcX]
    exact canonical_loop_resolve_to fuel s Y M N Z hkY hcY hM hN hr hZ
  · intro k j X Y R Z M N hXY hkY hcY hM hN hr hRZ hZ
    simp only [module_registry_canonical_type]
    rw [canonical_loop_follow s k X Y (fuel + j + 1) hXY,
      canonical_loop_resolve (fuel + j) s Y M N hkY hcY hM hN, hr]
    simp only
    rw [canonical_loop_follow _ j R Z fuel hRZ]
    exact canonical_loop_non_import fuel _ Z (by rw [set_import_resolved_kind]; exact hZ)

theorem canonical_type_chain_witness :
    ((demo_foo.heap 16).import_resolved = some 13
      ∧ (demo_foo.heap 13).import_resolved = none
      ∧ resolve_import demo_foo (some "b.c".toList) (some "Foo".toList) = some 3
      ∧ module_registry_canonical_type 2 demo_foo (some 16)
          = some (set_import_resolved demo_foo 13 (some 3), some 3))
    ∧ (follow_caches demo_alias 0 20 = some 20
      ∧ resolve_import demo_alias (some "lib".toList) (some "Alias".toList) = some 19
      ∧ follow_caches (set_import_resolved demo_alias 20 (some 19)) 1 19 = some 1
      ∧ module_registry_canonical_type 2 demo_alias (some 20)
          = some (set_import_resolved demo_alias 20 (some 19), some 1)) :=
  ⟨⟨by decide, by decide, by decide,
      (canonical_type_chain 0 demo_foo).1 16 13 3 "b.c".toList "Foo".toList
        (by decide) (by decide) (by decide) (by decide) (by decide) (by decide) (by decide)
        (by decide) (by decide)⟩,
    ⟨by decide, by decide, by decide,
      (canonical_type_chain 0 demo_alias).2 0 1 20 20 19 1 "lib".toList "Alias".toList
        (by decide) (by decide) (by decide) (by decide) (by decide) (by decide) (by decide)
        (by decide)⟩⟩

/-- C9, as the code has it: if the Import node `X` has its cache set to the
Import node `Y` and `Y` (cache empty) resolves to the non-Import node `Z`, then
after `canonical_type(X)` has returned `Z` the cache of `X` still holds `Y`;
`Z` is memoized on `Y`, the node the search was run for.  A second
`canonical_type(X)` returns `Z` whatever the tables hold then, by following
the two caches, and changes nothing. -/
theorem canonical_type_chain_memo (fuel : Nat) (s : State) (X Y Z : Nat) (M N : List Char)
    (hkX : (s.heap X).kind = TypeKind.TY_IMPORT) (hcX : (s.heap X).import_resolved = some Y)
    (hXY : X ≠ Y)
    (hkY : (s.heap Y).kind = TypeKind.TY_IMPORT) (hcY : (s.heap Y).import_resolved = none)
    (hM : (s.heap Y).import_module = some M) (hN : (s.heap Y).import_type_name = some N)
    (hr : resolve_import s (some M) (some N) = some Z)
    (hZ : (s.heap Z).kind ≠ TypeKind.TY_IMPORT) :
    ∃ s' : State,
      module_registry_canonical_type (fuel + 2) s (some X) = some (s', some Z)
      ∧ (s'.heap X).import_resolved = some Y
      ∧ (s'.heap Y).import_resolved = some Z
      ∧ ∀ t : State, t.heap = s'.heap →
          module_registry_canonical_type (fuel + 2) t (some X) = some (t, some Z) := by
  refine ⟨set_import_resolved s Y (some Z), ?_, ?_, ?_, ?_⟩
  · simp only [module_registry_canonical_type]
    rw [canonical_loop_cache (fuel + 1) s X Y hkX hcX]
    exact canonical_loop_resolve_to fuel s Y M N Z hkY hcY hM hN hr hZ
  · simp [set_import_resolved, hXY, hcX]
  · simp [set_import_resolved]
  · intro t ht
    have h1 : (t.heap X).kind = TypeKind.TY_IMPORT := by
      rw [ht, set_import_resolved_kind]; exact hkX
    have h2 : (t.heap X).import_resolved = some Y := by
      rw [ht]; simp [set_import_resolved, hXY, hcX]
    have h3 : (t.heap Y).kind = TypeKind.TY_IMPORT := by
      rw [ht, set_import_resolved_kind]; exact hkY
    have h4 : (t.heap Y).import_resolved = some Z := by
      rw [ht]; simp [set_import_resolved]
    have h5 : (t.heap Z).kind ≠ TypeKind.TY_IMPORT := by
      rw [ht, set_import_resolved_kind]; exact hZ
    simp only [module_registry_canonical_type]
    rw [canonical_loop_cache (fuel + 1) t X Y h1 h2, canonical_loop_cache fuel t Y Z h3 h4]
    exact canonical_loop_non_import fuel t Z h5

theorem canonical_type_chain_memo_witness :
    (demo_foo.heap 16).import_resolved = some 13
    ∧ (demo_foo.heap 13).import_resolved = none
    ∧ resolve_import demo_foo (some "b.c".toList) (some "Foo".toList) = some 3
    ∧ ∃ s' : State,
        module_registry_canonical_type 2 demo_foo (some 16) = some (s', some 3)
        ∧ (s'.heap 16).import_resolved = some 13
        ∧ (s'.heap 13).import_resolved = some 3
        ∧ ∀ t : State, t.heap = s'.heap →
            module_registry_canonical_type 2 t (some 16) = some (t, some 3) :=
  ⟨by decide, by decide, by decide,
    canonical_type_chain_memo 0 demo_foo 16 13 3 "b.c".toList "Foo".toList
      (by decide) (by decide) (by decide) (by decide) (by decide) (by decide) (by decide)
      (by decide) (by decide)⟩

/-- C9 fails as stated: in the state with struct `Foo` (node 3) under `a.b.c`,
the Import node 16 has its cache set to the Import node 13 (`b.c`, `Foo`, cache
empty), which resolves to node 3.  `canonical_type` on node 16 returns node 3,
and afterwards the cache of node 16 holds node 13, not node 3; node 3 is in
the cache of node 13. -/
theorem canonical_type_chain_memo_counterexample :
    (demo_foo.heap 16).kind = TypeKind.TY_IMPORT
    ∧ (demo_foo.heap 16).import_resolved = some 13
    ∧ (demo_foo.heap 13).kind = TypeKind.TY_IMPORT
    ∧ (demo_foo.heap 13).import_resolved = none
    ∧ (demo_foo.heap 3).kind = TypeKind.TY_STRUCT
    ∧ (module_registry_canonical_type 2 demo_foo (some 13)).map Prod.snd = some (some 3)
    ∧ (module_registry_canonical_type 2 demo_foo (some 16)).map
        (fun r => (r.2, (r.1.heap 16).import_resolved, (r.1.heap 13).import_resolved))
        = some (some 3, some 13, some 3)
    ∧ (module_registry_canonical_type 9 demo_foo (some 16)).map
        (fun r => (r.2, (r.1.heap 16).import_resolved, (r.1.heap 13).import_resolved))
        = some (some 3, some 13, some 3) := by
  refine ⟨?_, ?_, ?_, ?_, ?_, ?_, ?_, ?_⟩ <;> decide

/-- C10: whenever `canonical_type` returns on a non-null input, the node it
returns is non-null and, in the state after the call, is either not an Import
node, or an Import node whose cache is empty and which has no module path, or
no type name, or a module path and type name for which the table search yields
nothing; with tables whose rows all carry a node, the search yielding nothing
means that no rule applies (no exact struct or enum row, not exactly one struct
row of that name, not exactly one of them matching by the suffix rule). -/
theorem canonical_type_result (fuel : Nat) (s s' : State) (t : Nat) (r : Option Nat)
    (h : module_registry_canonical_type fuel s (some t) = some (s', r)) :
    ∃ a : Nat, r = some a
      ∧ ((s'.heap a).kind ≠ TypeKind.TY_IMPORT
        ∨ ((s'.heap a).kind = TypeKind.TY_IMPORT ∧ (s'.heap a).import_resolved = none
          ∧ ((s'.heap a).import_module = none ∨ (s'.heap a).import_type_name = none
            ∨ ∃ M N : List Char, (s'.heap a).import_module = some M
                ∧ (s'.heap a).import_type_name = some N
                ∧ resolve_import s' (some M) (some N) = none
                ∧ (payloads_non_null s → no_rule_applies s' M N)))) := by
  simp only [module_registry_canonical_type] at h
  obtain ⟨hse, hee, _⟩ := canonical_loop_tables fuel s s' (some t) r h
  obtain ⟨a, ha, hres⟩ := canonical_loop_result fuel s s' t r h
  refine ⟨a, ha, ?_⟩
  rcases hres with hni | ⟨hk, hc, hrest⟩
  · exact Or.inl hni
  · refine Or.inr ⟨hk, hc, ?_⟩
    rcases hrest with hm | hn | ⟨M, N, hM, hN, hr⟩
    · exact Or.inl hm
    · exact Or.inr (Or.inl hn)
    · refine Or.inr (Or.inr ⟨M, N, hM, hN, hr, ?_⟩)
      intro hp
      have hp' : payloads_non_null s' := by
        unfold payloads_non_null
        rw [hse, hee]
        exact hp
      exact no_rule_of_resolve_none s' M N hp' hr

theorem canonical_type_result_witness :
    (payloads_non_null demo_points
      ∧ module_registry_canonical_type 3 demo_points (some 11) = some (demo_points, some 11)
      ∧ ∃ a : Nat, some 11 = some a
        ∧ ((demo_points.heap a).kind ≠ TypeKind.TY_IMPORT
          ∨ ((demo_points.heap a).kind = TypeKind.TY_IMPORT
            ∧ (demo_points.heap a).import_resolved = none
            ∧ ((demo_points.heap a).import_module = none
              ∨ (demo_points.heap a).import_type_name = none
              ∨ ∃ M N : List Char, (demo_points.heap a).import_module = some M
                  ∧ (demo_points.heap a).import_type_name = some N
                  ∧ resolve_import demo_points (some M) (some N) = none
                  ∧ (payloads_non_null demo_points → no_rule_applies demo_points M N)))))
    ∧ (module_registry_canonical_type 3 demo_points (some 10)
        = some (set_import_resolved demo_points 10 (some 1), some 1)
      ∧ ∃ a : Nat, some 1 = some a
        ∧ (((set_import_resolved demo_points 10 (some 1)).heap a).kind ≠ TypeKind.TY_IMPORT
          ∨ (((set_import_resolved demo_points 10 (some 1)).heap a).kind = TypeKind.TY_IMPORT
            ∧ ((set_import_resolved demo_points 10 (some 1)).heap a).import_resolved = none
            ∧ (((set_import_resolved demo_points 10 (some 1)).heap a).import_module = none
              ∨ ((set_import_resolved demo_points 10 (some 1)).heap a).import_type_name = none
              ∨ ∃ M N : List Char,
                  ((set_import_resolved demo_points 10 (some 1)).heap a).import_module = some M
                  ∧ ((set_import_resolved demo_points 10 (some 1)).heap a).import_type_name
                      = some N
                  ∧ resolve_import (set_import_resolved demo_points 10 (some 1))
                      (some M) (some N) = none
                  ∧ (payloads_non_null demo_points →
                      no_rule_applies (set_import_resolved demo_points 10 (some 1)) M N))))) :=
  ⟨⟨by decide,
      canonical_loop_unresolved 2 demo_points 11 "".toList "Point".toList
        (by decide) (by decide) (by decide) (by decide) (by decide),
      canonical_type_result 3 demo_points demo_points 11 (some 11)
        (canonical_loop_unresolved 2 demo_points 11 "".toList "Point".toList
          (by decide) (by decide) (by decide) (by decide) (by decide))⟩,
    ⟨canonical_loop_resolve_to 2 demo_points 10 "geo".toList "Point".toList 1
        (by decide) (by decide) (by decide) (by decide) (by decide) (by decide),
      canonical_type_result 3 demo_points (set_import_resolved demo_points 10 (some 1)) 10
        (some 1)
        (canonical_loop_resolve_to 2 demo_points 10 "geo".toList "Point".toList 1
          (by decide) (by decide) (by decide) (by decide) (by decide) (by decide))⟩⟩

/-! ## Structural equality of types -/

/-- C11: for nodes `p` and `q` of kind Pointer, the same node or not,
`type_equals(p, q)` is what `type_equals` yields on the two pointees (the call
on the pointers needs one more level of nesting); and two distinct nodes built
by `type_ptr` over the same pointee are equal. -/
theorem type_equals_pointer (heap : Nat → Ty) (fuel : Nat) (p q : Nat)
    (hp : (heap p).kind = TypeKind.TY_PTR) (hq : (heap q).kind = TypeKind.TY_PTR) :
    type_equals heap (fuel + 2) (some p) (some q)
        = type_equals heap (fuel + 1) (heap p).pointee (heap q).pointee
    ∧ ∀ (a b : Nat) (target : Option Nat), a ≠ b →
        type_equals (type_ptr (type_ptr heap a target) b target) (fuel + 2) (some a) (some b)
          = some true := by
  constructor
  · by_cases hpq : p = q
    · subst hpq
      rw [type_equals_same, type_equals_same]
    · exact type_equals_ptr_step heap (fuel + 1) p q hpq hp hq
  · intro a b target hab
    have ha : (type_ptr (type_ptr heap a target) b target a).kind = TypeKind.TY_PTR := by
      simp [type_ptr, store_node, hab, Ty.zeroed]
    have hb : (type_ptr (type_ptr heap a target) b target b).kind = TypeKind.TY_PTR := by
      simp [type_ptr, store_node, Ty.zeroed]
    rw [type_equals_ptr_step _ (fuel + 1) a b hab ha hb]
    have hpa : (type_ptr (type_ptr heap a target) b target a).pointee = target := by
      simp [type_ptr, store_node, hab]
    have hpb : (type_ptr (type_ptr heap a target) b target b).pointee = target := by
      simp [type_ptr, store_node]
    rw [hpa, hpb]
    exact type_equals_same _ fuel target

theorem type_equals_pointer_witness :
    ((eq_heap 10).kind = TypeKind.TY_PTR ∧ (eq_heap 11).kind = TypeKind.TY_PTR
      ∧ (eq_heap 12).kind = TypeKind.TY_PTR)
    ∧ (type_equals eq_heap 2 (some 10) (some 11)
          = type_equals eq_heap 1 (eq_heap 10).pointee (eq_heap 11).pointee
      ∧ ∀ (a b : Nat) (target : Option Nat), a ≠ b →
          type_equals (type_ptr (type_ptr eq_heap a target) b target) 2 (some a) (some b)
            = some true)
    ∧ type_equals eq_heap 2 (some 10) (some 11) = some true
    ∧ type_equals eq_heap 2 (some 10) (some 12) = some false
    ∧ type_equals (type_ptr (type_ptr eq_heap 50 (some 0)) 51 (some 0)) 2 (some 50) (some 51)
        = some true :=
  ⟨by decide, type_equals_pointer eq_heap 0 10 11 (by decide) (by decide), by decide, by decide,
    (type_equals_pointer eq_heap 0 10 12 (by decide) (by decide)).2 50 51 (some 0)
      (by decide)⟩

/-- C12, as the code has it: `type_equals` tells no two Struct nodes apart, and
no two Import nodes: for nodes `a` and `b` that are both of kind Struct, or both
of kind Import, it returns equal, whether or not they are the same node and
whatever names they carry. -/
theorem type_equals_struct (heap : Nat → Ty) (fuel : Nat) (a b : Nat)
    (hk : ((heap a).kind = TypeKind.TY_STRUCT ∧ (heap b).kind = TypeKind.TY_STRUCT)
      ∨ ((heap a).kind = TypeKind.TY_IMPORT ∧ (heap b).kind = TypeKind.TY_IMPORT)) :
    type_equals heap (fuel + 1) (some a) (some b) = some true := by
  rcases hk with ⟨ha, hb⟩ | ⟨ha, hb⟩ <;>
    exact type_equals_other_kind heap fuel a b (by rw [ha, hb])
      (by rw [ha]; decide) (by rw [ha]; decide) (by rw [ha]; decide) (by rw [ha]; decide)

theorem type_equals_struct_witness :
    ((eq_heap 2).kind = TypeKind.TY_STRUCT ∧ (eq_heap 4).kind = TypeKind.TY_STRUCT
      ∧ (eq_heap 2).struct_name = some "Point".toList
      ∧ (eq_heap 4).struct_name = some "Size".toList)
    ∧ type_equals eq_heap 1 (some 2) (some 4) = some true :=
  ⟨by decide, type_equals_struct eq_heap 0 2 4 (Or.inl ⟨by decide, by decide⟩)⟩

/-- C12 fails as stated: nodes 2 and 3 are two distinct Struct nodes that both
carry the name `Point`, and `type_equals` returns equal on them. -/
theorem type_equals_struct_counterexample :
    (2 : Nat) ≠ 3
    ∧ (eq_heap 2).kind = TypeKind.TY_STRUCT ∧ (eq_heap 3).kind = TypeKind.TY_STRUCT
    ∧ (eq_heap 2).struct_name = some "Point".toList
    ∧ (eq_heap 3).struct_name = some "Point".toList
    ∧ type_equals eq_heap 1 (some 2) (some 3) = some true
    ∧ type_equals eq_heap 9 (some 2) (some 3) = some true := by
  refine ⟨?_, ?_, ?_, ?_, ?_, ?_, ?_⟩ <;> decide

/-- C13: for distinct nodes `a` and `b` of kind Array, `type_equals(a, b)`
returns equal exactly when the lengths are equal, the unsized flags are equal
and `type_equals` returns equal on the two element types; for two distinct
nodes built by `type_array(e1, n1)` and `type_array(e2, n2)` this is exactly
when `n1 = n2` and `type_equals` returns equal on `e1` and `e2`. -/
theorem type_equals_array (heap : Nat → Ty) (fuel : Nat) (a b : Nat) (hab : a ≠ b)
    (ha : (heap a).kind = TypeKind.TY_ARRAY) (hb : (heap b).kind = TypeKind.TY_ARRAY) :
    (type_equals heap (fuel + 1) (some a) (some b) = some true ↔
        (heap a).array_length = (heap b).array_length
        ∧ (heap a).array_is_unsized = (heap b).array_is_unsized
        ∧ type_equals heap fuel (heap a).array_elem (heap b).array_elem = some true)
    ∧ ∀ (x y : Nat) (e1 e2 : Option Nat) (n1 n2 : Int), x ≠ y →
        (type_equals (type_array (type_array heap x e1 n1) y e2 n2) (fuel + 1)
            (some x) (some y) = some true ↔
          n1 = n2
          ∧ type_equals (type_array (type_array heap x e1 n1) y e2 n2) fuel e1 e2
              = some true) := by
  constructor
  · rw [type_equals_array_step heap fuel a b hab ha hb]
    by_cases hl : (heap a).array_length = (heap b).array_length
    · by_cases hu : (heap a).array_is_unsized = (heap b).array_is_unsized
      · simp [hl, hu]
      · simp [hl, hu]
    · simp [hl]
  · intro x y e1 e2 n1 n2 hxy
    have hx : (type_array (type_array heap x e1 n1) y e2 n2 x)
        = { Ty.zeroed TypeKind.TY_ARRAY with
              array_elem := e1, array_length := n1,
              array_is_unsized := if n1 < 0 then 1 else 0 } := by
      simp [type_array, store_node, hxy]
    have hy : (type_array (type_array heap x e1 n1) y e2 n2 y)
        = { Ty.zeroed TypeKind.TY_ARRAY with
              array_elem := e2, array_length := n2,
              array_is_unsized := if n2 < 0 then 1 else 0 } := by
      simp [type_array, store_node]
    rw [type_equals_array_step _ fuel x y hxy (by rw [hx]; rfl) (by rw [hy]; rfl), hx, hy]
    by_cases hn : n1 = n2
    · subst hn; simp
    · simp [hn]

theorem type_equals_array_witness :
    ((20 : Nat) ≠ 21 ∧ (eq_heap 20).kind = TypeKind.TY_ARRAY
      ∧ (eq_heap 21).kind = TypeKind.TY_ARRAY)
    ∧ ((type_equals eq_heap 2 (some 20) (some 21) = some true ↔
          (eq_heap 20).array_length = (eq_heap 21).array_length
          ∧ (eq_heap 20).array_is_unsized = (eq_heap 21).array_is_unsized
          ∧ type_equals eq_heap 1 (eq_heap 20).array_elem (eq_heap 21).array_elem = some true)
      ∧ ∀ (x y : Nat) (e1 e2 : Option Nat) (n1 n2 : Int), x ≠ y →
          (type_equals (type_array (type_array eq_heap x e1 n1) y e2 n2) 2
              (some x) (some y) = some true ↔
            n1 = n2
            ∧ type_equals (type_array (type_array eq_heap x e1 n1) y e2 n2) 1 e1 e2
                = some true))
    ∧ type_equals eq_heap 2 (some 20) (some 21) = some true
    ∧ type_equals eq_heap 2 (some 20) (some 22) = some false
    ∧ type_equals eq_heap 2 (some 20) (some 23) = some false :=
  ⟨by decide, type_equals_array eq_heap 1 20 21 (by decide) (by decide) (by decide),
    by decide, by decide, by decide⟩

/-- C14: for distinct nodes `a` and `b` of kind Function, `type_equals(a, b)`
returns equal exactly when both or neither have a return type and, if they
have, `type_equals` returns equal on the return types; the parameter counts are
equal; the varargs flags are equal; and for every index below the parameter
count `type_equals` returns equal on the two parameters read at that index.
The `has_signature` flags play no part: rewriting them on any nodes changes no
result of `type_equals`. -/
theorem type_equals_function (heap : Nat → Ty) (fuel : Nat) (a b : Nat) (hab : a ≠ b)
    (ha : (heap a).kind = TypeKind.TY_FUNC) (hb : (heap b).kind = TypeKind.TY_FUNC) :
    (type_equals heap (fuel + 1) (some a) (some b) = some true ↔
        ((heap a).func_ret.isSome = (heap b).func_ret.isSome
          ∧ ((heap a).func_ret.isSome = true →
              type_equals heap fuel (heap a).func_ret (heap b).func_ret = some true))
        ∧ (heap a).func_param_count = (heap b).func_param_count
        ∧ (heap a).func_is_varargs = (heap b).func_is_varargs
        ∧ ∀ i : Nat, i < (heap a).func_param_count.toNat →
            ∃ ap bp : Option Nat, func_param (heap a) i = some ap
              ∧ func_param (heap b) i = some bp
              ∧ type_equals heap fuel ap bp = some true)
    ∧ ∀ (g : Nat → Int) (n : Nat) (u v : Option Nat),
        type_equals (fun x => { heap x with func_has_signature := g x }) n u v
          = type_equals heap n u v := by
  constructor
  · rw [type_equals_func_step heap fuel a b hab ha hb]
    have hloop := params_loop_true (type_equals heap fuel) (heap a) (heap b)
      (heap a).func_param_count.toNat 0
    simp only [Nat.zero_add] at hloop
    cases hsa : (heap a).func_ret.isSome <;> cases hsb : (heap b).func_ret.isSome
    · by_cases hc : (heap a).func_param_count = (heap b).func_param_count
      · by_cases hv : (heap a).func_is_varargs = (heap b).func_is_varargs
        · rw [hc] at hloop; simp [hc, hv, hloop]
        · simp [hc, hv]
      · simp [hc]
    · simp
    · simp
    · cases he : type_equals heap fuel (heap a).func_ret (heap b).func_ret with
      | none => simp
      | some r =>
        cases r with
        | false => simp
        | true =>
          by_cases hc : (heap a).func_param_count = (heap b).func_param_count
          · by_cases hv : (heap a).func_is_varargs = (heap b).func_is_varargs
            · rw [hc] at hloop; simp [hc, hv, hloop]
            · simp [hc, hv]
          · simp [hc]
  · intro g n u v
    exact type_equals_congr (fun x => { heap x with func_has_signature := g x }) heap
      (fun _ => rfl) n u v

theorem type_equals_function_witness :
    ((30 : Nat) ≠ 31 ∧ (eq_heap 30).kind = TypeKind.TY_FUNC
      ∧ (eq_heap 31).kind = TypeKind.TY_FUNC
      ∧ (eq_heap 30).func_has_signature ≠ (eq_heap 31).func_has_signature)
    ∧ ((type_equals eq_heap 3 (some 30) (some 31) = some true ↔
          ((eq_heap 30).func_ret.isSome = (eq_heap 31).func_ret.isSome
            ∧ ((eq_heap 30).func_ret.isSome = true →
                type_equals eq_heap 2 (eq_heap 30).func_ret (eq_heap 31).func_ret = some true))
          ∧ (eq_heap 30).func_param_count = (eq_heap 31).func_param_count
          ∧ (eq_heap 30).func_is_varargs = (eq_heap 31).func_is_varargs
          ∧ ∀ i : Nat, i < (eq_heap 30).func_param_count.toNat →
              ∃ ap bp : Option Nat, func_param (eq_heap 30) i = some ap
                ∧ func_param (eq_heap 31) i = some bp
                ∧ type_equals eq_heap 2 ap bp = some true)
      ∧ ∀ (g : Nat → Int) (n : Nat) (u v : Option Nat),
          type_equals (fun x => { eq_heap x with func_has_signature := g x }) n u v
            = type_equals eq_heap n u v)
    ∧ type_equals eq_heap 3 (some 30) (some 31) = some true
    ∧ type_equals eq_heap 3 (some 30) (some 32) = some false
    ∧ type_equals eq_heap 3 (some 30) (some 33) = some false :=
  ⟨by decide, type_equals_function eq_heap 2 30 31 (by decide) (by decide) (by decide),
    by decide, by decide, by decide⟩

/-- C15: for distinct nodes `a` and `b` of kind TemplateParam, `type_equals(a, b)`
returns equal exactly when the indices are equal and the names are both absent
or both present and the same text, and it returns not-equal otherwise.  The
constraint kinds and default types play no part: rewriting them on any nodes
changes no result of `type_equals`. -/
theorem type_equals_template_param (heap : Nat → Ty) (fuel : Nat) (a b : Nat) (hab : a ≠ b)
    (ha : (heap a).kind = TypeKind.TY_TEMPLATE_PARAM)
    (hb : (heap b).kind = TypeKind.TY_TEMPLATE_PARAM) :
    (type_equals heap (fuel + 1) (some a) (some b) = some true ↔
        (heap a).template_param_index = (heap b).template_param_index
        ∧ (((heap a).template_param_name = none ∧ (heap b).template_param_name = none)
          ∨ ∃ n : List Char, (heap a).template_param_name = some n
              ∧ (heap b).template_param_name = some n))
    ∧ (type_equals heap (fuel + 1) (some a) (some b) = some true
        ∨ type_equals heap (fuel + 1) (some a) (some b) = some false)
    ∧ ∀ (c : Nat → Nat) (d : Nat → Option Nat) (n : Nat) (u v : Option Nat),
        type_equals
            (fun x => { heap x with
                          template_constraint_kind := c x, template_default_type := d x })
            n u v
          = type_equals heap n u v := by
  refine ⟨?_, ?_, ?_⟩
  · rw [type_equals_template_step heap fuel a b hab ha hb]
    by_cases hi : (heap a).template_param_index = (heap b).template_param_index
    · cases hna : (heap a).template_param_name with
      | none => cases hnb : (heap b).template_param_name <;> simp [hi]
      | some na =>
        cases hnb : (heap b).template_param_name with
        | none => simp [hi]
        | some nb =>
          by_cases hn : na = nb
          · simp [hi, hn]
          · simp [hi, hn, Ne.symm hn]
    · simp [hi]
  · rw [type_equals_template_step heap fuel a b hab ha hb]
    by_cases hi : (heap a).template_param_index = (heap b).template_param_index
    · cases hna : (heap a).template_param_name with
      | none => cases hnb : (heap b).template_param_name <;> simp [hi]
      | some na =>
        cases hnb : (heap b).template_param_name with
        | none => simp [hi]
        | some nb =>
          by_cases hn : na = nb
          · simp [hi, hn]
          · simp [hi, hn]
    · simp [hi]
  · intro c d n u v
    exact type_equals_congr
      (fun x => { heap x with template_constraint_kind := c x, template_default_type := d x })
      heap (fun _ => rfl) n u v

theorem type_equals_template_param_witness :
    ((40 : Nat) ≠ 41 ∧ (eq_heap 40).kind = TypeKind.TY_TEMPLATE_PARAM
      ∧ (eq_heap 41).kind = TypeKind.TY_TEMPLATE_PARAM
      ∧ (eq_heap 40).template_constraint_kind ≠ (eq_heap 41).template_constraint_kind
      ∧ (eq_heap 40).template_default_type ≠ (eq_heap 41).template_default_type)
    ∧ ((type_equals eq_heap 1 (some 40) (some 41) = some true ↔
          (eq_heap 40).template_param_index = (eq_heap 41).template_param_index
          ∧ (((eq_heap 40).template_param_name = none
              ∧ (eq_heap 41).template_param_name = none)
            ∨ ∃ n : List Char, (eq_heap 40).template_param_name = some n
                ∧ (eq_heap 41).template_param_name = some n))
      ∧ (type_equals eq_heap 1 (some 40) (some 41) = some true
          ∨ type_equals eq_heap 1 (some 40) (some 41) = some false)
      ∧ ∀ (c : Nat → Nat) (d : Nat → Option Nat) (n : Nat) (u v : Option Nat),
          type_equals
              (fun x => { eq_heap x with
                            template_constraint_kind := c x, template_default_type := d x })
              n u v
            = type_equals eq_heap n u v)
    ∧ type_equals eq_heap 1 (some 40) (some 41) = some true
    ∧ type_equals eq_heap 1 (some 40) (some 42) = some false
    ∧ type_equals eq_heap 1 (some 40) (some 43) = some false :=
  ⟨by decide,
    type_equals_template_param eq_heap 0 40 41 (by decide) (by decide) (by decide),
    by decide, by decide, by decide⟩

/-! ## Table invariants, absent and empty input, reset -/

/-- Rows with their key strings present are unique: in every state reachable
from the empty registry by `register_struct`, `register_enum`,
`register_enum_value`, `canonical_type` and `reset`, no table holds two rows
whose key strings are all present and equal (module path and name for the
struct and enum tables; module path, enum name and value name for the
enum-value table). -/
theorem reachable_keys_unique (s : State) (h : Reachable s) :
    keys_unique s.struct_entries ∧ keys_unique s.enum_entries
      ∧ enum_value_keys_unique s.enum_value_entries := by
  induction h with
  | empty heap => exact ⟨List.Pairwise.nil, List.Pairwise.nil, List.Pairwise.nil⟩
  | register_struct s m t _ ih =>
    cases m with
    | none => exact ih
    | some m =>
      cases t with
      | none => exact ih
      | some t => exact ⟨keys_unique_upsert_entry _ _ _ _ ih.1, ih.2⟩
  | register_enum s m n t _ ih =>
    cases m with
    | none => exact ih
    | some m =>
      cases n with
      | none => exact ih
      | some n =>
        cases t with
        | none => exact ih
        | some t => exact ⟨ih.1, keys_unique_upsert_entry _ _ _ _ ih.2.1, ih.2.2⟩
  | register_enum_value s m e v x _ ih =>
    cases m with
    | none => exact ih
    | some m =>
      cases e with
      | none => exact ih
      | some e =>
        cases v with
        | none => exact ih
        | some v => exact ⟨ih.1, ih.2.1, enum_value_keys_unique_upsert _ _ _ _ _ ih.2.2⟩
  | canonical_type s s' fuel ty r _ hcall ih =>
    cases ty with
    | none =>
      simp only [module_registry_canonical_type, Option.some.injEq, Prod.mk.injEq] at hcall
      rw [← hcall.1]; exact ih
    | some a =>
      obtain ⟨h1, h2, h3⟩ := canonical_loop_tables fuel s s' (some a) r hcall
      rw [h1, h2, h3]; exact ih
  | reset s _ _ => exact ⟨List.Pairwise.nil, List.Pairwise.nil, List.Pairwise.nil⟩
  | heap_change s heap _ ih => exact ih

theorem reachable_keys_unique_example :
    Reachable demo_role
    ∧ keys_unique demo_role.struct_entries ∧ keys_unique demo_role.enum_entries
    ∧ enum_value_keys_unique demo_role.enum_value_entries :=
  ⟨Reachable.register_enum_value _ _ _ _ _ (Reachable.register_enum _ _ _ _
      (Reachable.register_struct _ _ _ (Reachable.register_struct _ _ _
        (Reachable.empty demo_heap)))),
    reachable_keys_unique demo_role
      (Reachable.register_enum_value _ _ _ _ _ (Reachable.register_enum _ _ _ _
        (Reachable.register_struct _ _ _ (Reachable.register_struct _ _ _
          (Reachable.empty demo_heap)))))⟩

/-- C16 at the input where the code breaks it: node 6 is a struct node without a
name; registering it twice under `m`, from the empty registry, leaves the
struct table with two rows that have the same module path and the same
(absent) name, the second call having appended a row instead of finding the
first. -/
theorem nameless_rows_duplicate :
    (demo_heap 6).struct_name = none
    ∧ Reachable demo_nameless
    ∧ demo_nameless.struct_entries
        = [{ module_full := some "m".toList, name := none, type := some 6 },
           { module_full := some "m".toList, name := none, type := some 6 }]
    ∧ ¬ demo_nameless.struct_entries.Pairwise
          (fun a b => ¬ (a.module_full = b.module_full ∧ a.name = b.name)) :=
  ⟨by decide,
    Reachable.register_struct _ _ _ (Reachable.register_struct _ _ _
      (Reachable.empty demo_heap)),
    by decide, by decide⟩

/-- The absent arguments that the guards test: `register_struct(M, T)` returns
without touching the state when `M` is absent or `T` is absent;
`register_enum(M, N, T)` when `M`, `N` or `T` is absent;
`register_enum_value(M, E, V, x)` when `M`, `E` or `V` is absent. -/
theorem register_absent_input (s : State) (M N V : Option (List Char)) (T : Option Nat)
    (x : Int) :
    (module_registry_register_struct s none T = s
      ∧ module_registry_register_struct s M none = s)
    ∧ (module_registry_register_enum s none N T = s
      ∧ module_registry_register_enum s M none T = s
      ∧ module_registry_register_enum s M N none = s)
    ∧ (module_registry_register_enum_value s none N V x = s
      ∧ module_registry_register_enum_value s M none V x = s
      ∧ module_registry_register_enum_value s M N none x = s) := by
  refine ⟨⟨?_, ?_⟩, ⟨?_, ?_, ?_⟩, ⟨?_, ?_, ?_⟩⟩
  · rfl
  · cases M <;> rfl
  · rfl
  · cases M <;> rfl
  · cases M <;> cases N <;> rfl
  · rfl
  · cases M <;> rfl
  · cases M <;> cases N <;> rfl

/-- C17 at the input where the code breaks it: node 6 is a struct node whose name
is absent, and `register_struct` with module `m` and node 6 on the empty
registry appends a row with no name instead of leaving the struct table as it
was; `register_enum` with an absent name leaves the enum table alone. -/
theorem register_struct_nameless_appends :
    (demo_heap 6).struct_name = none
    ∧ demo_empty.struct_entries = []
    ∧ (module_registry_register_struct demo_empty (some "m".toList) (some 6)).struct_entries
        = [{ module_full := some "m".toList, name := none, type := some 6 }]
    ∧ demo_empty.struct_count = 0
    ∧ (module_registry_register_struct demo_empty (some "m".toList) (some 6)).struct_count
        = 1
    ∧ (module_registry_register_enum demo_empty (some "m".toList) none (some 6)).enum_entries
        = [] := by
  refine ⟨?_, ?_, ?_, ?_, ?_, ?_⟩ <;> decide

/-- C18, as the code has it: the empty string is a key like any other.  When the
module path or a name passed is the empty string (and nothing is absent),
`register_struct`, `register_enum` and `register_enum_value` store the row, and
`lookup_struct`, `lookup_enum` and `lookup_enum_value` with the same strings
then find what was registered: for `register_struct(M, T)` the name is the one
the node `T` carries, for `register_enum(M, N, T)` and
`register_enum_value(M, N, V, x)` the node and the strings are any. -/
theorem empty_string_keys (s : State) (M N V : List Char) (T : Nat) (x o : Int)
    (_hempty : M = [] ∨ N = [] ∨ V = []) :
    ((s.heap T).struct_name = some N →
      module_registry_lookup_struct
        (module_registry_register_struct s (some M) (some T)) (some M) (some N) = some T)
    ∧ module_registry_lookup_enum
        (module_registry_register_enum s (some M) (some N) (some T)) (some M) (some N)
        = some T
    ∧ module_registry_lookup_enum_value
        (module_registry_register_enum_value s (some M) (some N) (some V) x)
        (some M) (some N) (some V) (some o) = (true, some x) := by
  refine ⟨?_, ?_, ?_⟩
  · intro hname
    simp only [module_registry_register_struct, module_registry_lookup_struct, hname]
    exact lookup_upsert_entry M N (some T) s.struct_entries
  · simp only [module_registry_register_enum, module_registry_lookup_enum]
    exact lookup_upsert_entry M N (some T) s.enum_entries
  · simp only [module_registry_register_enum_value, module_registry_lookup_enum_value,
      lookup_upsert_enum_value M N V x s.enum_value_entries, Option.map_some']

theorem empty_string_keys_witness :
    ((demo_role.heap 1).struct_name = some "Point".toList
      ∧ module_registry_lookup_struct
          (module_registry_register_struct demo_role (some "".toList) (some 1))
          (some "".toList) (some "Point".toList) = some 1
      ∧ module_registry_lookup_enum
          (module_registry_register_enum demo_role (some "".toList) (some "Point".toList)
            (some 1))
          (some "".toList) (some "Point".toList) = some 1
      ∧ module_registry_lookup_enum_value
          (module_registry_register_enum_value demo_role (some "".toList)
            (some "Point".toList) (some "".toList) 7)
          (some "".toList) (some "Point".toList) (some "".toList) (some 0) = (true, some 7))
    ∧ ((demo_role.heap 5).struct_name = none
      ∧ module_registry_lookup_enum
          (module_registry_register_enum demo_role (some "".toList) (some "".toList) (some 5))
          (some "".toList) (some "".toList) = some 5
      ∧ module_registry_lookup_enum_value
          (module_registry_register_enum_value demo_role (some "".toList) (some "".toList)
            (some "".toList) 7)
          (some "".toList) (some "".toList) (some "".toList) (some 0) = (true, some 7)) :=
  ⟨⟨by decide,
      (empty_string_keys demo_role "".toList "Point".toList "".toList 1 7 0
        (Or.inl (by decide))).1 (by decide),
      (empty_string_keys demo_role "".toList "Point".toList "".toList 1 7 0
        (Or.inl (by decide))).2⟩,
    ⟨by decide,
      (empty_string_keys demo_role "".toList "".toList "".toList 5 7 0
        (Or.inl (by decide))).2⟩⟩

/-- C18 fails as stated: on the empty registry, `register_struct` with the empty
module path and node 1 adds a row, which `lookup_struct` with the empty module
path finds; `register_enum` with empty module path and empty name adds a row,
which `lookup_enum` finds; and `register_enum_value` with empty strings adds a
row, which `lookup_enum_value` finds. -/
theorem empty_string_keys_counterexample :
    (demo_empty.struct_count = 0
      ∧ (module_registry_register_struct demo_empty (some "".toList) (some 1)).struct_count = 1
      ∧ module_registry_lookup_struct
          (module_registry_register_struct demo_empty (some "".toList) (some 1))
          (some "".toList) (some "Point".toList) = some 1)
    ∧ (demo_empty.enum_count = 0
      ∧ (module_registry_register_enum demo_empty (some "".toList) (some "".toList)
          (some 5)).enum_count = 1
      ∧ module_registry_lookup_enum
          (module_registry_register_enum demo_empty (some "".toList) (some "".toList) (some 5))
          (some "".toList) (some "".toList) = some 5)
    ∧ (demo_empty.enum_value_count = 0
      ∧ (module_registry_register_enum_value demo_empty (some "".toList) (some "".toList)
          (some "".toList) 7).enum_value_count = 1
      ∧ module_registry_lookup_enum_value
          (module_registry_register_enum_value demo_empty (some "".toList) (some "".toList)
            (some "".toList) 7)
          (some "".toList) (some "".toList) (some "".toList) (some 0) = (true, some 7)) := by
  refine ⟨⟨?_, ?_, ?_⟩, ⟨?_, ?_, ?_⟩, ⟨?_, ?_, ?_⟩⟩ <;> decide

/-- C19: after `reset` the three entry counts are 0 and, whatever the arguments,
`lookup_struct` and `lookup_enum` return `NULL`, `lookup_enum_value` returns
not-found and leaves its out-parameter alone, and `find_struct_module` returns
`NULL`. -/
theorem reset_empties (s : State) (m n v : Option (List Char)) (t : Option Nat)
    (out : Option Int) :
    (module_registry_reset s).struct_count = 0
    ∧ (module_registry_reset s).enum_count = 0
    ∧ (module_registry_reset s).enum_value_count = 0
    ∧ module_registry_lookup_struct (module_registry_reset s) m n = none
    ∧ module_registry_lookup_enum (module_registry_reset s) m n = none
    ∧ module_registry_lookup_enum_value (module_registry_reset s) m n v out = (false, out)
    ∧ module_registry_find_struct_module (module_registry_reset s) t = none := by
  refine ⟨rfl, rfl, rfl, ?_, ?_, ?_, ?_⟩
  · cases m <;> cases n <;> rfl
  · cases m <;> cases n <;> rfl
  · cases m <;> cases n <;> cases v <;> rfl
  · cases t <;> rfl

/-- C20: after `register_enum_value(M, E, V, x)`, `lookup_enum_value(M, E, V, out)`
returns found and the `int` behind a non-null `out` holds `x`; registering the
same key again with `y` keeps the entry count and makes the lookup yield `y`;
and for a key that no row carries, the lookup returns not-found and leaves the
out-parameter as it was. -/
theorem enum_value_table (s : State) (M E V : List Char) (x y o : Int) (out : Option Int) :
    (module_registry_lookup_enum_value
        (module_registry_register_enum_value s (some M) (some E) (some V) x)
        (some M) (some E) (some V) (some o) = (true, some x)
      ∧ module_registry_lookup_enum_value
        (module_registry_register_enum_value s (some M) (some E) (some V) x)
        (some M) (some E) (some V) none = (true, none))
    ∧ ((module_registry_register_enum_value
          (module_registry_register_enum_value s (some M) (some E) (some V) x)
          (some M) (some E) (some V) y).enum_value_count
        = (module_registry_register_enum_value s (some M) (some E) (some V) x).enum_value_count
      ∧ module_registry_lookup_enum_value
          (module_registry_register_enum_value
            (module_registry_register_enum_value s (some M) (some E) (some V) x)
            (some M) (some E) (some V) y)
          (some M) (some E) (some V) (some o) = (true, some y))
    ∧ ∀ m e v : Option (List Char),
        (∀ r ∈ s.enum_value_entries,
          ¬ (r.module_full = m ∧ r.enum_name = e ∧ r.value_name = v)) →
        module_registry_lookup_enum_value s m e v out = (false, out) := by
  refine ⟨⟨?_, ?_⟩, ⟨?_, ?_⟩, ?_⟩
  · simp only [module_registry_register_enum_value, module_registry_lookup_enum_value,
      lookup_upsert_enum_value M E V x s.enum_value_entries, Option.map_some']
  · simp only [module_registry_register_enum_value, module_registry_lookup_enum_value,
      lookup_upsert_enum_value M E V x s.enum_value_entries, Option.map_none']
  · simp only [module_registry_register_enum_value, State.enum_value_count]
    exact upsert_enum_value_length_again M E V x y s.enum_value_entries
  · simp only [module_registry_register_enum_value, module_registry_lookup_enum_value,
      lookup_upsert_enum_value M E V y _, Option.map_some']
  · intro m e v hno
    cases m with
    | none => rfl
    | some m =>
      cases e with
      | none => rfl
      | some e =>
        cases v with
        | none => rfl
        | some v =>
          simp only [module_registry_lookup_enum_value,
            lookup_enum_value_scan_none m e v s.enum_value_entries hno]

theorem enum_value_table_witness :
    (module_registry_lookup_enum_value
        (module_registry_register_enum_value demo_color (some "app.models".toList)
          (some "Role".toList) (some "Admin".toList) 1)
        (some "app.models".toList) (some "Role".toList) (some "Admin".toList) (some 0)
        = (true, some 1))
    ∧ (∀ r ∈ demo_role.enum_value_entries,
        ¬ (r.module_full = some "app.models".toList ∧ r.enum_name = some "Role".toList
            ∧ r.value_name = some "Guest".toList))
    ∧ module_registry_lookup_enum_value demo_role (some "app.models".toList)
        (some "Role".toList) (some "Guest".toList) (some 42) = (false, some 42) :=
  ⟨(enum_value_table demo_color "app.models".toList "Role".toList "Admin".toList 1 2 0
      none).1.1,
    by decide,
    (enum_value_table demo_role "app.models".toList "Role".toList "Admin".toList 1 2 0
      (some 42)).2.2 (some "app.models".toList) (some "Role".toList) (some "Guest".toList)
      (by decide)⟩

/-! ## Reverse index, permanence of caches, fallbacks and frames -/

/-- C21: in every reachable state, `find_struct_module(T)` returns the module
path of the first struct row whose payload is the node `T` itself; it returns
`NULL` for `T = NULL`, and for a node `T` exactly when no struct row has `T` as
payload.  After `register_struct(M, T)` on a state where `T` is no payload yet
it returns `M`; and when that row is then overwritten by registering another
node `T2` of the same name under `M`, it returns `NULL` for `T`. -/
theorem find_struct_module_identity (s : State) (hs : Reachable s) (T : Nat) :
    module_registry_find_struct_module s (some T)
        = (s.struct_entries.find? (fun e => decide (e.type = some T))).bind
            (fun e => e.module_full)
    ∧ module_registry_find_struct_module s none = none
    ∧ (module_registry_find_struct_module s (some T) = none ↔
        ∀ e ∈ s.struct_entries, e.type ≠ some T)
    ∧ (∀ M : List Char, (∀ e ∈ s.struct_entries, e.type ≠ some T) →
        module_registry_find_struct_module
          (module_registry_register_struct s (some M) (some T)) (some T) = some M)
    ∧ (∀ (M N : List Char) (T2 : Nat), T2 ≠ T →
        (s.heap T).struct_name = some N → (s.heap T2).struct_name = some N →
        (∀ e ∈ s.struct_entries, e.type ≠ some T) →
        module_registry_find_struct_module
          (module_registry_register_struct
            (module_registry_register_struct s (some M) (some T)) (some M) (some T2))
          (some T) = none) := by
  refine ⟨find_struct_module_scan_find T s.struct_entries, rfl, ⟨?_, ?_⟩, ?_, ?_⟩
  · exact find_struct_module_scan_found T s.struct_entries (reachable_modules_present s hs)
  · exact find_struct_module_scan_none T s.struct_entries
  · intro M hno
    exact find_struct_module_scan_upsert M _ T s.struct_entries hno
  · intro M N T2 hne h1 h2 hno
    simp only [module_registry_register_struct, module_registry_find_struct_module, h1, h2]
    exact find_struct_module_scan_none T _
      (upsert_entry_twice_payload M N T T2 hne s.struct_entries hno)

theorem find_struct_module_identity_witness :
    Reachable demo_color
    ∧ (module_registry_find_struct_module demo_color (some 2)
          = (demo_color.struct_entries.find? (fun e => decide (e.type = some 2))).bind
              (fun e => e.module_full)
      ∧ module_registry_find_struct_module demo_color none = none
      ∧ (module_registry_find_struct_module demo_color (some 2) = none ↔
          ∀ e ∈ demo_color.struct_entries, e.type ≠ some 2)
      ∧ (∀ M : List Char, (∀ e ∈ demo_color.struct_entries, e.type ≠ some 2) →
          module_registry_find_struct_module
            (module_registry_register_struct demo_color (some M) (some 2)) (some 2) = some M)
      ∧ (∀ (M N : List Char) (T2 : Nat), T2 ≠ 2 →
          (demo_color.heap 2).struct_name = some N →
          (demo_color.heap T2).struct_name = some N →
          (∀ e ∈ demo_color.struct_entries, e.type ≠ some 2) →
          module_registry_find_struct_module
            (module_registry_register_struct
              (module_registry_register_struct demo_color (some M) (some 2)) (some M)
              (some T2))
            (some 2) = none))
    ∧ module_registry_find_struct_module demo_color (some 2) = some "draw".toList
    ∧ module_registry_find_struct_module demo_color (some 5) = none
    ∧ (∀ e ∈ demo_color.struct_entries, e.type ≠ some 3)
    ∧ module_registry_find_struct_module
        (module_registry_register_struct demo_color (some "a.b.c".toList) (some 3)) (some 3)
        = some "a.b.c".toList
    ∧ module_registry_find_struct_module
        (module_registry_register_struct
          (module_registry_register_struct demo_color (some "a.b.c".toList) (some 3))
          (some "a.b.c".toList) (some 4)) (some 3) = none :=
  ⟨Reachable.register_enum _ _ _ _ (Reachable.register_struct _ _ _
      (Reachable.register_struct _ _ _ (Reachable.empty demo_heap))),
    find_struct_module_identity demo_color
      (Reachable.register_enum _ _ _ _ (Reachable.register_struct _ _ _
        (Reachable.register_struct _ _ _ (Reachable.empty demo_heap)))) 2,
    by decide, by decide, by decide, by decide, by decide⟩

/-- C22: once the cache of an Import node `X` holds a node `T`, it holds `T`
after any run of `register_struct`, `register_enum`, `register_enum_value`,
`canonical_type` and `reset` calls (the lookups change no state at all), and
`canonical_type(X)` then is `canonical_type(T)`, by one step of the loop that
reads the cache only: the same holds in a state with these nodes and any
tables. -/
theorem filled_cache_permanent (s s' : State) (X T : Nat) (hsteps : Steps s s')
    (hk : (s.heap X).kind = TypeKind.TY_IMPORT)
    (hc : (s.heap X).import_resolved = some T) :
    (s'.heap X).import_resolved = some T
    ∧ ∀ (u : State) (fuel : Nat), u.heap = s'.heap →
        module_registry_canonical_type (fuel + 1) u (some X)
          = module_registry_canonical_type fuel u (some T) := by
  obtain ⟨hk', hc'⟩ := steps_heap s s' hsteps X
  refine ⟨hc' T hc, ?_⟩
  intro u fuel hu
  exact canonical_loop_cache fuel u X T (by rw [hu, hk', hk]) (by rw [hu]; exact hc' T hc)

theorem filled_cache_permanent_witness :
    ((demo_cached.heap 13).kind = TypeKind.TY_IMPORT
      ∧ (demo_cached.heap 13).import_resolved = some 3
      ∧ Steps demo_cached demo_cached_later
      ∧ demo_cached_later.struct_entries = [])
    ∧ ((demo_cached_later.heap 13).import_resolved = some 3
      ∧ ∀ (u : State) (fuel : Nat), u.heap = demo_cached_later.heap →
          module_registry_canonical_type (fuel + 1) u (some 13)
            = module_registry_canonical_type fuel u (some 3))
    ∧ (module_registry_canonical_type 1 demo_cached_later (some 13)).map Prod.snd
        = some (some 3) :=
  ⟨⟨by decide, by decide,
      Steps.reset _ _ (Steps.register_struct _ _ _ _ (Steps.register_struct _ _ _ _
        (Steps.refl demo_cached))),
      by decide⟩,
    filled_cache_permanent demo_cached demo_cached_later 13 3
      (Steps.reset _ _ (Steps.register_struct _ _ _ _ (Steps.register_struct _ _ _ _
        (Steps.refl demo_cached))))
      (by decide) (by decide),
    by decide⟩

/-- C24, as the code has it: for non-null `P` and `Q`, `module_name_matches(P, Q)`
returns true exactly when `P` equals `Q`, or the longer of the two is a
non-empty text, then `.`, then the shorter; it returns false whenever an
argument is `NULL`. -/
theorem module_name_matches_iff (P Q : List Char) :
    (module_name_matches (some P) (some Q) = true ↔
        P = Q ∨ (∃ pre : List Char, pre ≠ [] ∧ P = pre ++ '.' :: Q)
          ∨ (∃ pre : List Char, pre ≠ [] ∧ Q = pre ++ '.' :: P))
    ∧ ∀ p q : Option (List Char),
        module_name_matches none q = false ∧ module_name_matches p none = false := by
  constructor
  · by_cases hPQ : P = Q
    · simp [module_name_matches, hPQ]
    · have hlenP : ∀ pre : List Char, P = pre ++ '.' :: Q → P.length > Q.length := by
        intro pre h
        have := congrArg List.length h
        simp only [List.length_append, List.length_cons] at this
        omega
      have hlenQ : ∀ pre : List Char, Q = pre ++ '.' :: P → Q.length > P.length := by
        intro pre h
        have := congrArg List.length h
        simp only [List.length_append, List.length_cons] at this
        omega
      by_cases h1 : P.length > Q.length
      · have hd := dotted_suffix_iff P Q h1
        simp only [module_name_matches, hPQ, if_false, h1, if_true, false_or]
        rw [hd]
        constructor
        · intro h; exact Or.inl h
        · rintro (h | ⟨pre, _, h⟩)
          · exact h
          · have := hlenQ pre h; omega
      · by_cases h2 : Q.length > P.length
        · have hd := dotted_suffix_iff Q P h2
          simp only [module_name_matches, hPQ, if_false, h1, h2, if_true, false_or]
          rw [hd]
          constructor
          · intro h; exact Or.inr h
          · rintro (⟨pre, _, h⟩ | h)
            · have := hlenP pre h; omega
            · exact h
        · simp only [module_name_matches, hPQ, if_false, h1, h2, false_or]
          constructor
          · intro h; exact absurd h (by simp)
          · rintro (⟨pre, _, h⟩ | ⟨pre, _, h⟩)
            · have := hlenP pre h; omega
            · have := hlenQ pre h; omega
  · intro p q
    constructor
    · cases q <;> rfl
    · cases p <;> rfl

/-- C24 fails as stated: `.c` is `.` followed by `c`, so the longer of `.c` and
`c` ends with `.` followed by the shorter, and `module_name_matches` returns
false on the two, in either order. -/
theorem module_name_matches_iff_counterexample :
    ".c".toList = '.' :: "c".toList
    ∧ ".c".toList ≠ "c".toList
    ∧ module_name_matches (some ".c".toList) (some "c".toList) = false
    ∧ module_name_matches (some "c".toList) (some ".c".toList) = false := by
  refine ⟨?_, ?_, ?_, ?_⟩ <;> decide

/-- C25, as the code has it: in every run of `register_struct`, `register_enum`,
`register_enum_value`, `canonical_type` (and `reset`) calls that starts from
the empty registry over nodes whose caches are all empty and registers no
Import node as a payload, every filled cache holds a node that is not an Import
node, hence not the node itself; following caches never leads back to a node;
and a call of `canonical_type` leaves every filled cache as it is. -/
theorem clean_run_no_cycle (s : State) (h : CleanRun s) :
    (∀ x t : Nat, (s.heap x).import_resolved = some t →
        t ≠ x ∧ (s.heap t).kind ≠ TypeKind.TY_IMPORT)
    ∧ (∀ x k : Nat, follow_caches s (k + 1) x ≠ some x)
    ∧ (∀ (fuel : Nat) (ty r : Option Nat) (s' : State),
        module_registry_canonical_type fuel s ty = some (s', r) →
        ∀ x t : Nat, (s.heap x).import_resolved = some t →
          (s'.heap x).import_resolved = some t) := by
  obtain ⟨hinv, _⟩ := clean_run_invariant s h
  have h1 : ∀ x t : Nat, (s.heap x).import_resolved = some t →
      t ≠ x ∧ (s.heap t).kind ≠ TypeKind.TY_IMPORT := by
    intro x t hx
    obtain ⟨hkx, hkt⟩ := hinv x t hx
    refine ⟨?_, hkt⟩
    intro htx
    rw [htx] at hkt
    exact hkt hkx
  refine ⟨h1, ?_, ?_⟩
  · intro x k hcyc
    by_cases hk : (s.heap x).kind = TypeKind.TY_IMPORT
    · cases hc : (s.heap x).import_resolved with
      | none => simp [follow_caches, hk, hc] at hcyc
      | some t =>
        simp only [follow_caches, hk, hc, if_true] at hcyc
        obtain ⟨hne, hkt⟩ := h1 x t hc
        cases k with
        | zero =>
          simp only [follow_caches, Option.some.injEq] at hcyc
          exact hne hcyc
        | succ k => simp [follow_caches, hkt] at hcyc
    · simp [follow_caches, hk] at hcyc
  · intro fuel ty r s' hcall x t hx
    exact node_frame_cache s s' x t (canonical_type_node_frame fuel s s' ty r hcall x) hx

theorem clean_run_no_cycle_witness :
    CleanRun demo_clean
    ∧ (demo_clean.heap 1).import_resolved = some 2
    ∧ ((∀ x t : Nat, (demo_clean.heap x).import_resolved = some t →
          t ≠ x ∧ (demo_clean.heap t).kind ≠ TypeKind.TY_IMPORT)
      ∧ (∀ x k : Nat, follow_caches demo_clean (k + 1) x ≠ some x)
      ∧ (∀ (fuel : Nat) (ty r : Option Nat) (s' : State),
          module_registry_canonical_type fuel demo_clean ty = some (s', r) →
          ∀ x t : Nat, (demo_clean.heap x).import_resolved = some t →
            (s'.heap x).import_resolved = some t)) :=
  ⟨CleanRun.canonical_type _ _ 1 (some 1) (some 2)
      (CleanRun.register_struct _ _ _ (CleanRun.start cycle_heap cycle_heap_caches_empty)
        (fun t ht => by cases ht; decide))
      (canonical_loop_resolve_to 0 _ 1 "m".toList "Self".toList 2
        (by decide) (by decide) (by decide) (by decide) (by decide) (by decide)),
    by decide,
    clean_run_no_cycle demo_clean
      (CleanRun.canonical_type _ _ 1 (some 1) (some 2)
        (CleanRun.register_struct _ _ _ (CleanRun.start cycle_heap cycle_heap_caches_empty)
          (fun t ht => by cases ht; decide))
        (canonical_loop_resolve_to 0 _ 1 "m".toList "Self".toList 2
          (by decide) (by decide) (by decide) (by decide) (by decide) (by decide)))⟩

/-- C25 fails as stated: over nodes whose caches are all empty, from the empty
registry, `register_enum` with module `m`, name `Self` and the Import node 1
(module `m`, name `Self`) is one call; `canonical_type` on node 1 then finds
node 1 in the enum table, stores it in the cache of node 1 and goes on from
node 1, whose cache now leads to itself: the call returns within no bound. -/
theorem clean_run_no_cycle_counterexample :
    (∀ x : Nat, (cycle_heap x).import_resolved = none)
    ∧ Reachable demo_self
    ∧ demo_self.enum_entries
        = [{ module_full := some "m".toList, name := some "Self".toList, type := some 1 }]
    ∧ (demo_self.heap 1).kind = TypeKind.TY_IMPORT
    ∧ (demo_self.heap 1).import_module = some "m".toList
    ∧ (demo_self.heap 1).import_type_name = some "Self".toList
    ∧ (demo_self.heap 1).import_resolved = none
    ∧ resolve_import demo_self (some "m".toList) (some "Self".toList) = some 1
    ∧ (∀ fuel : Nat, canonical_loop (fuel + 1) demo_self (some 1)
        = canonical_loop fuel (set_import_resolved demo_self 1 (some 1)) (some 1))
    ∧ ((set_import_resolved demo_self 1 (some 1)).heap 1).import_resolved = some 1
    ∧ (∀ fuel : Nat, module_registry_canonical_type fuel demo_self (some 1) = none) := by
  have hstep : ∀ fuel : Nat, canonical_loop (fuel + 1) demo_self (some 1)
      = canonical_loop fuel (set_import_resolved demo_self 1 (some 1)) (some 1) := by
    intro fuel
    rw [canonical_loop_resolve fuel demo_self 1 "m".toList "Self".toList
      (by decide) (by decide) (by decide) (by decide)]
    have hr : resolve_import demo_self (some "m".toList) (some "Self".toList) = some 1 := by
      decide
    rw [hr]
  refine ⟨cycle_heap_caches_empty, Reachable.register_enum _ _ _ _ (Reachable.empty cycle_heap),
    by decide, by decide, by decide, by decide, by decide, by decide, hstep, by decide, ?_⟩
  intro fuel
  cases fuel with
  | zero =>
    show canonical_loop 0 demo_self (some 1) = none
    have hk : (demo_self.heap 1).kind = TypeKind.TY_IMPORT := by decide
    simp [canonical_loop, hk]
  | succ fuel =>
    show canonical_loop (fuel + 1) demo_self (some 1) = none
    rw [hstep fuel]
    exact canonical_loop_self_cycle _ 1 (by decide) (by decide) fuel

/-- C28: when `canonical_type(t)` returns the node `r`, a second call on `t` in
the state the first call left returns `r` again, within the same bound, and
leaves that state as it is; and so does `canonical_type(r)`. -/
theorem canonical_type_repeatable (fuel : Nat) (s s' : State) (t r : Option Nat)
    (h : module_registry_canonical_type fuel s t = some (s', r)) :
    module_registry_canonical_type fuel s' t = some (s', r)
    ∧ module_registry_canonical_type fuel s' r = some (s', r) := by
  cases t with
  | none =>
    simp only [module_registry_canonical_type, Option.some.injEq, Prod.mk.injEq] at h
    rw [← h.1, ← h.2]
    exact ⟨rfl, rfl⟩
  | some a =>
    simp only [module_registry_canonical_type] at h
    have h1 := canonical_loop_repeat fuel s s' (some a) r h
    have h2 := canonical_loop_fixed fuel s s' (some a) r h
    refine ⟨h1, ?_⟩
    cases r with
    | none => rfl
    | some b => exact h2

theorem canonical_type_repeatable_witness :
    (module_registry_canonical_type 2 demo_foo (some 16)
        = some (set_import_resolved demo_foo 13 (some 3), some 3)
      ∧ module_registry_canonical_type 2 (set_import_resolved demo_foo 13 (some 3)) (some 16)
        = some (set_import_resolved demo_foo 13 (some 3), some 3)
      ∧ module_registry_canonical_type 2 (set_import_resolved demo_foo 13 (some 3)) (some 3)
        = some (set_import_resolved demo_foo 13 (some 3), some 3))
    ∧ (module_registry_canonical_type 1 demo_points (some 11) = some (demo_points, some 11)
      ∧ module_registry_canonical_type 1 demo_points (some 11) = some (demo_points, some 11)
      ∧ module_registry_canonical_type 1 demo_points (some 11)
          = some (demo_points, some 11)) :=
  ⟨⟨(canonical_loop_cache 1 demo_foo 16 13 (by decide) (by decide)).trans
        (canonical_loop_resolve_to 0 demo_foo 13 "b.c".toList "Foo".toList 3
          (by decide) (by decide) (by decide) (by decide) (by decide) (by decide)),
      canonical_type_repeatable 2 demo_foo (set_import_resolved demo_foo 13 (some 3))
        (some 16) (some 3)
        ((canonical_loop_cache 1 demo_foo 16 13 (by decide) (by decide)).trans
          (canonical_loop_resolve_to 0 demo_foo 13 "b.c".toList "Foo".toList 3
            (by decide) (by decide) (by decide) (by decide) (by decide) (by decide)))⟩,
    ⟨canonical_loop_unresolved 0 demo_points 11 "".toList "Point".toList
        (by decide) (by decide) (by decide) (by decide) (by decide),
      canonical_type_repeatable 1 demo_points demo_points (some 11) (some 11)
        (canonical_loop_unresolved 0 demo_points 11 "".toList "Point".toList
          (by decide) (by decide) (by decide) (by decide) (by decide))⟩⟩

/-- C29: for an Import node with empty cache, module path `M` and name `N`, in a
state where neither table has a row with key `(M, N)`, the enum table plays no
part in the call: the node found by the table search is the payload of the only
struct row named `N`, else of the only struct row named `N` whose module path
`module_name_matches` relates to `M`, else `NULL`, and it is the same under any
other enum table without a row keyed `(M, N)`; `canonical_type` stores that node
in the cache and goes on from it, or returns the node unresolved with the state
as before when there is none.  When no struct row is named `N` the node is
returned unresolved, whatever enum rows named `N` exist under other modules. -/
theorem enum_table_exact_only (fuel : Nat) (s : State) (X : Nat) (M N : List Char)
    (hk : (s.heap X).kind = TypeKind.TY_IMPORT)
    (hc : (s.heap X).import_resolved = none)
    (hM : (s.heap X).import_module = some M)
    (hN : (s.heap X).import_type_name = some N)
    (hns : ∀ e ∈ s.struct_entries, ¬ (e.module_full = some M ∧ e.name = some N))
    (hne : ∀ e ∈ s.enum_entries, ¬ (e.module_full = some M ∧ e.name = some N)) :
    (resolve_import s (some M) (some N)
        = if (rows_named N s.struct_entries).length = 1 then
            sole_payload (rows_named N s.struct_entries)
          else if (rows_qualified M N s.struct_entries).length = 1 then
            sole_payload (rows_qualified M N s.struct_entries)
          else none)
    ∧ (∀ E : List EnumEntry, (∀ e ∈ E, ¬ (e.module_full = some M ∧ e.name = some N)) →
        resolve_import { s with enum_entries := E } (some M) (some N)
          = resolve_import s (some M) (some N))
    ∧ (module_registry_canonical_type (fuel + 1) s (some X)
        = match resolve_import s (some M) (some N) with
          | some r => canonical_loop fuel (set_import_resolved s X (some r)) (some r)
          | none => some (s, some X))
    ∧ (rows_named N s.struct_entries = [] →
        module_registry_canonical_type (fuel + 1) s (some X) = some (s, some X)) := by
  have hs : module_registry_lookup_struct s (some M) (some N) = none :=
    lookup_entry_none_of_no_key M N s.struct_entries hns
  have hl : module_registry_lookup_enum s (some M) (some N) = none :=
    lookup_entry_none_of_no_key M N s.enum_entries hne
  have hr := resolve_import_fallback s M N hs hl
  refine ⟨hr, ?_, ?_, ?_⟩
  · intro E hE
    have hs2 : module_registry_lookup_struct { s with enum_entries := E } (some M) (some N)
        = none := lookup_entry_none_of_no_key M N s.struct_entries hns
    have hl2 : module_registry_lookup_enum { s with enum_entries := E } (some M) (some N)
        = none := lookup_entry_none_of_no_key M N E hE
    rw [resolve_import_fallback _ M N hs2 hl2, hr]
  · simp only [module_registry_canonical_type]
    rw [canonical_loop_resolve fuel s X M N hk hc hM hN]
    cases h : resolve_import s (some M) (some N) with
    | none => simp only [set_import_resolved_none s X hc]
    | some r => rfl
  · intro h0
    have hq : rows_qualified M N s.struct_entries = [] := by
      unfold rows_qualified
      unfold rows_named at h0
      rw [List.filter_eq_nil_iff] at h0 ⊢
      intro e he hh
      simp only [Bool.and_eq_true] at hh
      exact h0 e he hh.1
    have hres : resolve_import s (some M) (some N) = none := by
      rw [hr, h0, hq]; simp
    exact canonical_loop_unresolved fuel s X M N hk hc hM hN hres

theorem enum_table_exact_only_witness :
    (rows_named "Color".toList demo_color.struct_entries = []
      ∧ demo_color.enum_entries
          = [{ module_full := some "geo".toList, name := some "Color".toList, type := some 5 }]
      ∧ module_name_matches (some "geo".toList) (some "a.geo".toList) = true)
    ∧ module_registry_canonical_type 1 demo_color (some 22) = some (demo_color, some 22) :=
  ⟨⟨by decide, by decide, by decide⟩,
    (enum_table_exact_only 0 demo_color 22 "a.geo".toList "Color".toList
      (by decide) (by decide) (by decide) (by decide) (by decide) (by decide)).2.2.2
      (by decide)⟩

/-- C30: a registration touches one key.  `register_struct(M, T)` with `T` named
`N` leaves `lookup_struct` of every other key as it was, leaves the keys of the
rows that were there in their order, keeps the struct count when a row keyed
`(M, N)` was there and raises it by one when none was, and leaves the enum
table, the enum-value table and the nodes as they were.  The same holds for
`register_enum(M, N, T)` on the enum table, with any node `T` as payload, and
for `register_enum_value(M, E, V, x)` on the enum-value table. -/
theorem registration_touches_one_key (s : State) (M N E V : List Char) (T : Nat) (x : Int) :
    (((s.heap T).struct_name = some N →
        (∀ m2 n2 : Option (List Char), ¬ (m2 = some M ∧ n2 = some N) →
          module_registry_lookup_struct (module_registry_register_struct s (some M) (some T))
              m2 n2
            = module_registry_lookup_struct s m2 n2)
        ∧ ((module_registry_register_struct s (some M) (some T)).struct_entries.map
              (fun e => (e.module_full, e.name))).take s.struct_count
            = s.struct_entries.map (fun e => (e.module_full, e.name))
        ∧ ((∃ e ∈ s.struct_entries, e.module_full = some M ∧ e.name = some N) →
            (module_registry_register_struct s (some M) (some T)).struct_count
              = s.struct_count)
        ∧ ((¬ ∃ e ∈ s.struct_entries, e.module_full = some M ∧ e.name = some N) →
            (module_registry_register_struct s (some M) (some T)).struct_count
              = s.struct_count + 1))
      ∧ (module_registry_register_struct s (some M) (some T)).enum_entries = s.enum_entries
      ∧ (module_registry_register_struct s (some M) (some T)).enum_value_entries
          = s.enum_value_entries
      ∧ (module_registry_register_struct s (some M) (some T)).heap = s.heap)
    ∧ ((∀ m2 n2 : Option (List Char), ¬ (m2 = some M ∧ n2 = some N) →
          module_registry_lookup_enum
              (module_registry_register_enum s (some M) (some N) (some T)) m2 n2
            = module_registry_lookup_enum s m2 n2)
      ∧ ((module_registry_register_enum s (some M) (some N) (some T)).enum_entries.map
            (fun e => (e.module_full, e.name))).take s.enum_count
          = s.enum_entries.map (fun e => (e.module_full, e.name))
      ∧ ((∃ e ∈ s.enum_entries, e.module_full = some M ∧ e.name = some N) →
          (module_registry_register_enum s (some M) (some N) (some T)).enum_count
            = s.enum_count)
      ∧ ((¬ ∃ e ∈ s.enum_entries, e.module_full = some M ∧ e.name = some N) →
          (module_registry_register_enum s (some M) (some N) (some T)).enum_count
            = s.enum_count + 1)
      ∧ (module_registry_register_enum s (some M) (some N) (some T)).struct_entries
          = s.struct_entries
      ∧ (module_registry_register_enum s (some M) (some N) (some T)).enum_value_entries
          = s.enum_value_entries
      ∧ (module_registry_register_enum s (some M) (some N) (some T)).heap = s.heap)
    ∧ ((∀ (m2 e2 v2 : Option (List Char)) (out : Option Int),
          ¬ (m2 = some M ∧ e2 = some E ∧ v2 = some V) →
          module_registry_lookup_enum_value
              (module_registry_register_enum_value s (some M) (some E) (some V) x) m2 e2 v2 out
            = module_registry_lookup_enum_value s m2 e2 v2 out)
      ∧ ((module_registry_register_enum_value s (some M) (some E) (some V) x).enum_value_entries.map
            (fun r => (r.module_full, r.enum_name, r.value_name))).take s.enum_value_count
          = s.enum_value_entries.map (fun r => (r.module_full, r.enum_name, r.value_name))
      ∧ ((∃ r ∈ s.enum_value_entries,
            r.module_full = some M ∧ r.enum_name = some E ∧ r.value_name = some V) →
          (module_registry_register_enum_value s (some M) (some E) (some V) x).enum_value_count
            = s.enum_value_count)
      ∧ ((¬ ∃ r ∈ s.enum_value_entries,
            r.module_full = some M ∧ r.enum_name = some E ∧ r.value_name = some V) →
          (module_registry_register_enum_value s (some M) (some E) (some V) x).enum_value_count
            = s.enum_value_count + 1)
      ∧ (module_registry_register_enum_value s (some M) (some E) (some V) x).struct_entries
          = s.struct_entries
      ∧ (module_registry_register_enum_value s (some M) (some E) (some V) x).enum_entries
          = s.enum_entries
      ∧ (module_registry_register_enum_value s (some M) (some E) (some V) x).heap = s.heap) := by
  refine ⟨⟨fun hN => ⟨?_, ?_, ?_, ?_⟩, rfl, rfl, rfl⟩, ⟨?_, ?_, ?_, ?_, rfl, rfl, rfl⟩,
    ⟨?_, ?_, ?_, ?_, rfl, rfl, rfl⟩⟩
  · intro m2 n2 hne
    cases m2 with
    | none => rfl
    | some m2 =>
      cases n2 with
      | none => rfl
      | some n2 =>
        simp only [Option.some.injEq] at hne
        simp only [module_registry_register_struct, module_registry_lookup_struct, hN]
        exact lookup_upsert_entry_other M N m2 n2 hne (some T) s.struct_entries
  · simp only [module_registry_register_struct, hN, State.struct_count]
    exact upsert_entry_keys_prefix (some M) (some N) (some T) s.struct_entries
  · intro h
    simp only [module_registry_register_struct, hN, State.struct_count]
    exact upsert_entry_length_present M N (some T) s.struct_entries h
  · intro h
    simp only [module_registry_register_struct, hN, State.struct_count]
    rw [upsert_entry_length_new M N (some T) s.struct_entries h]
    simp
  · intro m2 n2 hne
    cases m2 with
    | none => rfl
    | some m2 =>
      cases n2 with
      | none => rfl
      | some n2 =>
        simp only [Option.some.injEq] at hne
        simp only [module_registry_register_enum, module_registry_lookup_enum]
        exact lookup_upsert_entry_other M N m2 n2 hne (some T) s.enum_entries
  · simp only [module_registry_register_enum, State.enum_count]
    exact upsert_entry_keys_prefix (some M) (some N) (some T) s.enum_entries
  · intro h
    simp only [module_registry_register_enum, State.enum_count]
    exact upsert_entry_length_present M N (some T) s.enum_entries h
  · intro h
    simp only [module_registry_register_enum, State.enum_count]
    rw [upsert_entry_length_new M N (some T) s.enum_entries h]
    simp
  · intro m2 e2 v2 out hne
    cases m2 with
    | none => rfl
    | some m2 =>
      cases e2 with
      | none => rfl
      | some e2 =>
        cases v2 with
        | none => rfl
        | some v2 =>
          simp only [Option.some.injEq] at hne
          simp only [module_registry_register_enum_value, module_registry_lookup_enum_value]
          rw [lookup_upsert_enum_value_other M E V m2 e2 v2 hne x s.enum_value_entries]
  · simp only [module_registry_register_enum_value, State.enum_value_count]
    exact upsert_enum_value_keys_prefix (some M) (some E) (some V) x s.enum_value_entries
  · intro h
    simp only [module_registry_register_enum_value, State.enum_value_count]
    exact (upsert_enum_value_length M E V x s.enum_value_entries).1 h
  · intro h
    simp only [module_registry_register_enum_value, State.enum_value_count]
    exact (upsert_enum_value_length M E V x s.enum_value_entries).2 h

theorem registration_touches_one_key_witness :
    (demo_points.heap 2).struct_name = some "Point".toList
    ∧ module_registry_lookup_struct
          (module_registry_register_struct demo_points (some "geo".toList) (some 2))
          (some "draw".toList) (some "Point".toList)
        = module_registry_lookup_struct demo_points (some "draw".toList) (some "Point".toList)
    ∧ (module_registry_register_struct demo_points (some "geo".toList) (some 2)).struct_count
        = demo_points.struct_count
    ∧ ((demo_points.heap 5).struct_name = none
      ∧ (module_registry_register_enum demo_points (some "geo".toList) (some "Color".toList)
          (some 5)).enum_count = demo_points.enum_count + 1
      ∧ module_registry_lookup_enum
          (module_registry_register_enum demo_color (some "geo".toList) (some "Shade".toList)
            (some 5))
          (some "geo".toList) (some "Color".toList)
        = module_registry_lookup_enum demo_color (some "geo".toList) (some "Color".toList)
      ∧ module_registry_lookup_enum demo_color (some "geo".toList) (some "Color".toList)
        = some 5)
    ∧ demo_points.struct_count = 2 ∧ demo_points.enum_count = 0 :=
  ⟨by decide,
    ((registration_touches_one_key demo_points "geo".toList "Point".toList "Role".toList
      "Admin".toList 2 1).1.1 (by decide)).1 (some "draw".toList) (some "Point".toList)
      (by decide),
    ((registration_touches_one_key demo_points "geo".toList "Point".toList "Role".toList
      "Admin".toList 2 1).1.1 (by decide)).2.2.1 (by decide),
    ⟨by decide,
      (registration_touches_one_key demo_points "geo".toList "Color".toList "Role".toList
        "Admin".toList 5 1).2.1.2.2.2.1 (by decide),
      (registration_touches_one_key demo_color "geo".toList "Shade".toList "Role".toList
        "Admin".toList 5 1).2.1.1 (some "geo".toList) (some "Color".toList) (by decide),
      by decide⟩,
    by decide, by decide⟩

/-! ## `type_equals` as an equivalence, termination of `canonical_type` -/

/-- C31: `type_equals(a, b)` and `type_equals(b, a)` are the same, for possibly
null `a` and `b`, within every depth; and on nodes that are finite and acyclic
(within `d` links of their leaves) both calls return, with one and the same
result, within every depth from `d + 1` on. -/
theorem type_equals_symmetric (heap : Nat → Ty) (d : Nat) (a b : Option Nat)
    (ha : acyclic_within heap d a = true) (hb : acyclic_within heap d b = true) :
    (∀ fuel : Nat, type_equals heap fuel a b = type_equals heap fuel b a)
    ∧ ∃ r : Bool, ∀ fuel : Nat, d + 1 ≤ fuel →
        type_equals heap fuel a b = some r ∧ type_equals heap fuel b a = some r := by
  refine ⟨fun fuel => type_equals_symm heap fuel a b, ?_⟩
  obtain ⟨r, hr⟩ := type_equals_total heap d a b ha hb
  refine ⟨r, ?_⟩
  intro fuel hle
  have h1 := type_equals_mono_le heap (d + 1) a b r hr fuel hle
  exact ⟨h1, by rw [← type_equals_symm heap fuel a b]; exact h1⟩

theorem type_equals_symmetric_witness :
    (acyclic_within eq_heap 3 (some 30) = true ∧ acyclic_within eq_heap 3 (some 32) = true)
    ∧ ((∀ fuel : Nat, type_equals eq_heap fuel (some 30) (some 32)
          = type_equals eq_heap fuel (some 32) (some 30))
      ∧ ∃ r : Bool, ∀ fuel : Nat, 3 + 1 ≤ fuel →
          type_equals eq_heap fuel (some 30) (some 32) = some r
            ∧ type_equals eq_heap fuel (some 32) (some 30) = some r)
    ∧ ((eq_heap 30).func_ret = some 0 ∧ (eq_heap 32).func_ret = none
      ∧ type_equals eq_heap 4 (some 30) (some 32) = some false
      ∧ type_equals eq_heap 4 (some 32) (some 30) = some false)
    ∧ ((eq_heap 30).func_params = some [some 10, some 1] ∧ (eq_heap 34).func_params = none
      ∧ type_equals eq_heap 4 (some 30) (some 34) = some false
      ∧ type_equals eq_heap 4 (some 34) (some 30) = some false)
    ∧ ((eq_heap 40).template_param_name = some "T".toList
      ∧ (eq_heap 43).template_param_name = none
      ∧ type_equals eq_heap 4 (some 40) (some 43) = some false
      ∧ type_equals eq_heap 4 (some 43) (some 40) = some false)
    ∧ (type_equals eq_heap 4 (some 30) (some 31) = some true
      ∧ type_equals eq_heap 4 (some 31) (some 30) = some true
      ∧ type_equals eq_heap 4 none (some 30) = some false
      ∧ type_equals eq_heap 4 (some 30) none = some false) :=
  ⟨⟨by decide, by decide⟩,
    type_equals_symmetric eq_heap 3 (some 30) (some 32) (by decide) (by decide),
    ⟨by decide, by decide, by decide, by decide⟩,
    ⟨by decide, by decide, by decide, by decide⟩,
    ⟨by decide, by decide, by decide, by decide⟩,
    ⟨by decide, by decide, by decide, by decide⟩⟩

/-- C32: `type_equals` is transitive: when `type_equals(a, b)` and
`type_equals(b, c)` return true within some depth, so does `type_equals(a, c)`;
on finite acyclic nodes (within `d` links of their leaves) the three calls
return within every depth from `d + 1` on, and the third result is true when
the first two are.  With `type_equals(a, a)` true by the identity check and
`type_equals(a, b) = type_equals(b, a)` it is an equivalence. -/
theorem type_equals_transitive (heap : Nat → Ty) (d : Nat) (a b c : Option Nat)
    (ha : acyclic_within heap d a = true) (hb : acyclic_within heap d b = true)
    (hc : acyclic_within heap d c = true) :
    (∀ fuel : Nat, type_equals heap fuel a b = some true →
        type_equals heap fuel b c = some true → type_equals heap fuel a c = some true)
    ∧ (∃ rab rbc rac : Bool,
        (∀ fuel : Nat, d + 1 ≤ fuel →
          type_equals heap fuel a b = some rab ∧ type_equals heap fuel b c = some rbc
            ∧ type_equals heap fuel a c = some rac)
        ∧ (rab = true → rbc = true → rac = true))
    ∧ (∀ fuel : Nat, type_equals heap (fuel + 1) a a = some true)
    ∧ (∀ fuel : Nat, type_equals heap fuel a b = type_equals heap fuel b a) := by
  refine ⟨fun fuel => type_equals_trans heap fuel a b c, ?_,
    fun fuel => type_equals_same heap fuel a, fun fuel => type_equals_symm heap fuel a b⟩
  obtain ⟨rab, h1⟩ := type_equals_total heap d a b ha hb
  obtain ⟨rbc, h2⟩ := type_equals_total heap d b c hb hc
  obtain ⟨rac, h3⟩ := type_equals_total heap d a c ha hc
  refine ⟨rab, rbc, rac, ?_, ?_⟩
  · intro fuel hle
    exact ⟨type_equals_mono_le heap (d + 1) a b rab h1 fuel hle,
      type_equals_mono_le heap (d + 1) b c rbc h2 fuel hle,
      type_equals_mono_le heap (d + 1) a c rac h3 fuel hle⟩
  · intro e1 e2
    rw [e1] at h1
    rw [e2] at h2
    have h4 := type_equals_trans heap (d + 1) a b c h1 h2
    rw [h3] at h4
    simpa using h4

theorem type_equals_transitive_witness :
    (acyclic_within eq_heap 3 (some 30) = true ∧ acyclic_within eq_heap 3 (some 31) = true
      ∧ acyclic_within eq_heap 3 (some 35) = true)
    ∧ (type_equals eq_heap 4 (some 30) (some 31) = some true
      ∧ type_equals eq_heap 4 (some 31) (some 35) = some true)
    ∧ type_equals eq_heap 4 (some 30) (some 35) = some true :=
  ⟨⟨by decide, by decide, by decide⟩, ⟨by decide, by decide⟩,
    (type_equals_transitive eq_heap 3 (some 30) (some 31) (some 35)
      (by decide) (by decide) (by decide)).1 4 (by decide) (by decide)⟩

/-- C33: in a state where no struct or enum row has an Import node as payload,
when following filled caches from the input for `k` steps reaches a node that
is not an Import node, or an Import node with empty cache, `canonical_type`
returns a node after at most `k + 1` iterations of its loop, hence within `k + 2`:
the call gives one and the same result under every bound from `k + 1` on. -/
theorem canonical_type_terminates (s : State) (k t u : Nat)
    (hp : no_import_payloads s)
    (hf : follow_caches s k t = some u)
    (hu : (s.heap u).kind ≠ TypeKind.TY_IMPORT ∨ (s.heap u).import_resolved = none) :
    ∃ (s' : State) (v : Nat),
      (∀ fuel : Nat, k + 1 ≤ fuel →
        module_registry_canonical_type fuel s (some t) = some (s', some v))
      ∧ module_registry_canonical_type (k + 2) s (some t) = some (s', some v) := by
  obtain ⟨s', v, h1⟩ := canonical_loop_stops s u hp hu
  have h2 : canonical_loop (1 + k) s (some t) = some (s', some v) := by
    rw [canonical_loop_follow s k t u 1 hf]; exact h1
  have h3 : ∀ fuel : Nat, k + 1 ≤ fuel →
      module_registry_canonical_type fuel s (some t) = some (s', some v) := by
    intro fuel hle
    have h4 := canonical_loop_mono (1 + k) s (some t) (s', some v) h2 (fuel - (1 + k))
    have h5 : 1 + k + (fuel - (1 + k)) = fuel := by omega
    rw [h5] at h4
    exact h4
  exact ⟨s', v, h3, h3 (k + 2) (by omega)⟩

theorem canonical_type_terminates_witness :
    (no_import_payloads demo_foo
      ∧ follow_caches demo_foo 1 16 = some 13
      ∧ (demo_foo.heap 13).kind = TypeKind.TY_IMPORT
      ∧ (demo_foo.heap 13).import_resolved = none)
    ∧ (∃ (s' : State) (v : Nat),
        (∀ fuel : Nat, 1 + 1 ≤ fuel →
          module_registry_canonical_type fuel demo_foo (some 16) = some (s', some v))
        ∧ module_registry_canonical_type (1 + 2) demo_foo (some 16) = some (s', some v))
    ∧ module_registry_canonical_type 1 demo_foo (some 16) = none :=
  ⟨⟨by decide, by decide, by decide, by decide⟩,
    canonical_type_terminates demo_foo 1 16 13 (by decide) (by decide) (Or.inr (by decide)),
    by
      show canonical_loop 1 demo_foo (some 16) = none
      rw [canonical_loop_cache 0 demo_foo 16 13 (by decide) (by decide)]
      have hk : (demo_foo.heap 13).kind = TypeKind.TY_IMPORT := by decide
      simp [canonical_loop, hk]⟩

end CHance
